import Mathlib

/-!
# ycs: the HTML to Markdown converter

A shallow embedding of `htmlToMarkdown` (src/ycs.go) together with the library
routines it is built from: the leftmost-first regular expression matcher of Go's
`regexp` package restricted to the constructs the four patterns of ycs.go use,
`reutil.Replace` of the ek library, `strings.Contains` and `html.UnescapeString`.

Text is a list of Unicode code points (`List Char`); the Go strings handled here
come out of the JSON decoder and are valid UTF-8.
-/

namespace Ycs

/-! # Definitions -/

/-! ## Regular expressions -/

/-- Regular expressions, with the constructs used by the patterns of ycs.go:
literal strings, the negated one-character classes `[^c]*` and `[^c]+`
(greedy), concatenation, ordered alternation, the greedy `?`, numbered capture
groups (numbered from 0 as in the list handed to the callbacks of
`reutil.Replace`) and `$` (end of text: none of the patterns sets the `m` flag). -/
inductive Regex where
  | lit (l : List Char)
  | starNot (c : Char)
  | plusNot (c : Char)
  | seq (a b : Regex)
  | alt (a b : Regex)
  | opt (a : Regex)
  | group (i : Nat) (a : Regex)
  | eot
  deriving Repr

/-- Capture list: one entry per group, `none` while the group has not taken part. -/
abbrev Caps := List (Option (List Char))

/-- Result of a match: the text left after the match and the captures. -/
abbrev MatchResult := List Char × Caps

/-- Continuation of a backtracking match. -/
abbrev Cont := List Char → Caps → Option MatchResult

/-- Removes the prefix `l` from the text, when the text starts with it. -/
def stripPrefix : List Char → List Char → Option (List Char)
  | [], s => some s
  | _ :: _, [] => none
  | c :: cs, x :: xs => if x = c then stripPrefix cs xs else none

/-- Greedy `[^c]*`: take as many characters as possible, give them back one by
one while the rest of the pattern fails. -/
def runStarNot (c : Char) (k : Cont) : Cont
  | [], caps => k [] caps
  | x :: xs, caps =>
    if x = c then k (x :: xs) caps
    else
      match runStarNot c k xs caps with
      | some r => some r
      | none => k (x :: xs) caps

/-- Backtracking matcher with the priorities of Go's `regexp` (leftmost-first):
the first alternative that lets the whole pattern match wins. -/
def run : Regex → Cont → Cont
  | .lit l, k => fun s caps =>
    match stripPrefix l s with
    | some rest => k rest caps
    | none => none
  | .starNot c, k => runStarNot c k
  | .plusNot c, k => fun s caps =>
    match s with
    | [] => none
    | x :: xs => if x = c then none else runStarNot c k xs caps
  | .seq a b, k => run a (run b k)
  | .alt a b, k => fun s caps =>
    match run a k s caps with
    | some r => some r
    | none => run b k s caps
  | .opt a, k => fun s caps =>
    match run a k s caps with
    | some r => some r
    | none => k s caps
  | .group i a, k => fun s caps =>
    run a (fun s' caps' => k s' (caps'.set i (some (s.take (s.length - s'.length))))) s caps
  | .eot, k => fun s caps =>
    match s with
    | [] => k [] caps
    | _ :: _ => none

/-- Number of capture groups of a pattern. -/
def Regex.numGroups : Regex → Nat
  | .seq a b => a.numGroups + b.numGroups
  | .alt a b => a.numGroups + b.numGroups
  | .opt a => a.numGroups
  | .group _ a => a.numGroups + 1
  | _ => 0

/-- Match of a pattern anchored at the start of `s`. -/
def matchAt (re : Regex) (s : List Char) : Option MatchResult :=
  run re (fun s' caps => some (s', caps)) s (List.replicate re.numGroups none)

/-- Source: `<(strong|pre|code|ol|ul|li|br|i|b|p)`, the common head of the
opening-tag pattern. -/
def tagStartNames : Regex :=
  .alt (.lit "strong".toList) (.alt (.lit "pre".toList) (.alt (.lit "code".toList)
  (.alt (.lit "ol".toList) (.alt (.lit "ul".toList) (.alt (.lit "li".toList)
  (.alt (.lit "br".toList) (.alt (.lit "i".toList) (.alt (.lit "b".toList)
  (.lit "p".toList)))))))))

/-- Source: the alternation `(strong|pre|code|ol|ul|li|i|b|p)` of the closing-tag
pattern. -/
def tagEndNames : Regex :=
  .alt (.lit "strong".toList) (.alt (.lit "pre".toList) (.alt (.lit "code".toList)
  (.alt (.lit "ol".toList) (.alt (.lit "ul".toList) (.alt (.lit "li".toList)
  (.alt (.lit "i".toList) (.alt (.lit "b".toList) (.lit "p".toList))))))))

/-- Source: `<(strong|pre|code|ol|ul|li|br|i|b|p)[^>]*\/?>($|\n)?`. -/
def htmlTagStartRegex : Regex :=
  .seq (.lit "<".toList) (.seq (.group 0 tagStartNames) (.seq (.starNot '>')
  (.seq (.opt (.lit "/".toList)) (.seq (.lit ">".toList)
  (.opt (.group 1 (.alt .eot (.lit "\n".toList))))))))

/-- Source: `<\/(strong|pre|code|ol|ul|li|i|b|p)\/?>`. -/
def htmlTagEndRegex : Regex :=
  .seq (.lit "</".toList) (.seq (.group 0 tagEndNames)
  (.seq (.opt (.lit "/".toList)) (.lit ">".toList)))

/-- Source: `<img src=\"([^"]+)\"[^>]+\>`. -/
def htmlImgTagRegex : Regex :=
  .seq (.lit "<img src=\"".toList) (.seq (.group 0 (.plusNot '"'))
  (.seq (.lit "\"".toList) (.seq (.plusNot '>') (.lit ">".toList))))

/-- Source: `<a href=\"([^"]+)\"[^>]*>([^<]+)<\/a>`. -/
def htmlLinkTagRegex : Regex :=
  .seq (.lit "<a href=\"".toList) (.seq (.group 0 (.plusNot '"'))
  (.seq (.lit "\"".toList) (.seq (.starNot '>') (.seq (.lit ">".toList)
  (.seq (.group 1 (.plusNot '<')) (.lit "</a>".toList))))))

/-! ## reutil.Replace -/

/-- Submatch list handed to a callback of `reutil.Replace`: one string per capture
group, empty for a group that did not take part in the match. -/
def submatches (caps : Caps) : List (List Char) :=
  caps.map fun c => c.getD []

/-- Scan of `reutil.Replace`: `skip` counts the characters of the current match
still to be passed over; at `skip = 0` the pattern is tried at the current
position and, on a match, the callback's text replaces the matched text. The
callback receives the matched text and the submatches, threads its own state
`σ` (the variables it captures) and yields `none` when it fails. A match of the
patterns above is never empty (each starts with the literal `<`, see
`matchAt_consumes`), so a match of length `n` leaves `n - 1` characters to skip
after the current one. -/
def replaceAux {σ : Type} (re : Regex)
    (f : σ → List Char → List (List Char) → Option (σ × List Char)) :
    List Char → Nat → σ → Option (List Char)
  | [], _, _ => some []
  | _ :: cs, n + 1, st => replaceAux re f cs n st
  | c :: cs, 0, st =>
    match matchAt re (c :: cs) with
    | none => (replaceAux re f cs 0 st).map (c :: ·)
    | some (rest, caps) =>
      match f st ((c :: cs).take ((c :: cs).length - rest.length)) (submatches caps) with
      | none => none
      | some (st', out) => (replaceAux re f cs (cs.length - rest.length) st').map (out ++ ·)

/-- Model of `reutil.Replace(re, source, replFunc)`: every non-overlapping match of
`re` in `source`, found left to right, is replaced by the callback's result. -/
def Replace {σ : Type} (re : Regex)
    (f : σ → List Char → List (List Char) → Option (σ × List Char))
    (source : List Char) (init : σ) : Option (List Char) :=
  replaceAux re f source 0 init

/-- Model of `strings.Contains`. -/
def Contains : List Char → List Char → Bool
  | [], sub => sub.isEmpty
  | c :: cs, sub => sub.isPrefixOf (c :: cs) || Contains cs sub

/-! ## html.UnescapeString -/

/-- Length of a text in bytes of its UTF-8 encoding (Go's `len`). -/
def byteLen (s : List Char) : Nat :=
  (s.map Char.utf8Size).sum

/-- Wrap-around of Go's `rune` (int32) arithmetic. -/
def wrap32 (v : Int) : Int :=
  (v + 2147483648) % 4294967296 - 2147483648

/-- Value of a digit of a numeric character reference, `none` for any other
character. -/
def digitVal (hex : Bool) (c : Char) : Option Int :=
  if '0' ≤ c ∧ c ≤ '9' then some ((c.toNat : Int) - 48)
  else if hex = true ∧ 'a' ≤ c ∧ c ≤ 'f' then some ((c.toNat : Int) - 97 + 10)
  else if hex = true ∧ 'A' ≤ c ∧ c ≤ 'F' then some ((c.toNat : Int) - 65 + 10)
  else none

/-- Digit loop of `unescapeEntity`: accumulates `x` in base 16 or 10 and counts the
characters read; a `;` that ends the digits is read too. -/
def readDigits (hex : Bool) : List Char → Int → Nat → Int × Nat
  | [], x, n => (x, n)
  | c :: cs, x, n =>
    match digitVal hex c with
    | some d => readDigits hex cs (wrap32 ((if hex then 16 else 10) * x + d)) (n + 1)
    | none => if c = ';' then (x, n + 1) else (x, n)

/-- Source: `replacementTable` of Go's html package (Windows-1252 code points
0x80..0x9F). -/
def replacementTable : List Nat :=
  [0x20AC, 0x0081, 0x201A, 0x0192, 0x201E, 0x2026, 0x2020, 0x2021,
   0x02C6, 0x2030, 0x0160, 0x2039, 0x0152, 0x008D, 0x017D, 0x008F,
   0x0090, 0x2018, 0x2019, 0x201C, 0x201D, 0x2022, 0x2013, 0x2014,
   0x02DC, 0x2122, 0x0161, 0x203A, 0x0153, 0x009D, 0x017E, 0x0178]

/-- Character written for the numeric reference with value `x`. -/
def numericChar (x : Int) : Char :=
  if 0x80 ≤ x ∧ x ≤ 0x9F then Char.ofNat (replacementTable.getD (x - 0x80).toNat 0xFFFD)
  else if x = 0 ∨ (0xD800 ≤ x ∧ x ≤ 0xDFFF) ∨ x > 0x10FFFF then Char.ofNat 0xFFFD
  else if x < 0 then Char.ofNat 0xFFFD
  else Char.ofNat x.toNat

/-- Rows of the table `entity` of Go's html package whose name begins with `A`: the
name, with its final `;` where the table has it, and the code point. -/
def entityRowsUpperA : List (String × Nat) :=
  [("AElig", 0xC6), ("AElig;", 0xC6), ("AMP", 0x26), ("AMP;", 0x26), ("Aacute", 0xC1),
   ("Aacute;", 0xC1), ("Abreve;", 0x102), ("Acirc", 0xC2), ("Acirc;", 0xC2), ("Acy;", 0x410),
   ("Afr;", 0x1D504), ("Agrave", 0xC0), ("Agrave;", 0xC0), ("Alpha;", 0x391), ("Amacr;", 0x100),
   ("And;", 0x2A53), ("Aogon;", 0x104), ("Aopf;", 0x1D538), ("ApplyFunction;", 0x2061),
   ("Aring", 0xC5), ("Aring;", 0xC5), ("Ascr;", 0x1D49C), ("Assign;", 0x2254), ("Atilde", 0xC3),
   ("Atilde;", 0xC3), ("Auml", 0xC4), ("Auml;", 0xC4)]

/-- Rows of the table `entity` of Go's html package whose name begins with `B`: the
name, with its final `;` where the table has it, and the code point. -/
def entityRowsUpperB : List (String × Nat) :=
  [("Backslash;", 0x2216), ("Barv;", 0x2AE7), ("Barwed;", 0x2306), ("Bcy;", 0x411),
   ("Because;", 0x2235), ("Bernoullis;", 0x212C), ("Beta;", 0x392), ("Bfr;", 0x1D505),
   ("Bopf;", 0x1D539), ("Breve;", 0x2D8), ("Bscr;", 0x212C), ("Bumpeq;", 0x224E)]

/-- Rows of the table `entity` of Go's html package whose name begins with `C`: the
name, with its final `;` where the table has it, and the code point. -/
def entityRowsUpperC : List (String × Nat) :=
  [("CHcy;", 0x427), ("COPY", 0xA9), ("COPY;", 0xA9), ("Cacute;", 0x106), ("Cap;", 0x22D2),
   ("CapitalDifferentialD;", 0x2145), ("Cayleys;", 0x212D), ("Ccaron;", 0x10C), ("Ccedil", 0xC7),
   ("Ccedil;", 0xC7), ("Ccirc;", 0x108), ("Cconint;", 0x2230), ("Cdot;", 0x10A),
   ("Cedilla;", 0xB8), ("CenterDot;", 0xB7), ("Cfr;", 0x212D), ("Chi;", 0x3A7),
   ("CircleDot;", 0x2299), ("CircleMinus;", 0x2296), ("CirclePlus;", 0x2295),
   ("CircleTimes;", 0x2297), ("ClockwiseContourIntegral;", 0x2232),
   ("CloseCurlyDoubleQuote;", 0x201D), ("CloseCurlyQuote;", 0x2019), ("Colon;", 0x2237),
   ("Colone;", 0x2A74), ("Congruent;", 0x2261), ("Conint;", 0x222F),
   ("ContourIntegral;", 0x222E), ("Copf;", 0x2102), ("Coproduct;", 0x2210),
   ("CounterClockwiseContourIntegral;", 0x2233), ("Cross;", 0x2A2F), ("Cscr;", 0x1D49E),
   ("Cup;", 0x22D3), ("CupCap;", 0x224D)]

/-- Rows of the table `entity` of Go's html package whose name begins with `D`: the
name, with its final `;` where the table has it, and the code point. -/
def entityRowsUpperD : List (String × Nat) :=
  [("DD;", 0x2145), ("DDotrahd;", 0x2911), ("DJcy;", 0x402), ("DScy;", 0x405), ("DZcy;", 0x40F),
   ("Dagger;", 0x2021), ("Darr;", 0x21A1), ("Dashv;", 0x2AE4), ("Dcaron;", 0x10E),
   ("Dcy;", 0x414), ("Del;", 0x2207), ("Delta;", 0x394), ("Dfr;", 0x1D507),
   ("DiacriticalAcute;", 0xB4), ("DiacriticalDot;", 0x2D9), ("DiacriticalDoubleAcute;", 0x2DD),
   ("DiacriticalGrave;", 0x60), ("DiacriticalTilde;", 0x2DC), ("Diamond;", 0x22C4),
   ("DifferentialD;", 0x2146), ("Dopf;", 0x1D53B), ("Dot;", 0xA8), ("DotDot;", 0x20DC),
   ("DotEqual;", 0x2250), ("DoubleContourIntegral;", 0x222F), ("DoubleDot;", 0xA8),
   ("DoubleDownArrow;", 0x21D3), ("DoubleLeftArrow;", 0x21D0), ("DoubleLeftRightArrow;", 0x21D4),
   ("DoubleLeftTee;", 0x2AE4), ("DoubleLongLeftArrow;", 0x27F8),
   ("DoubleLongLeftRightArrow;", 0x27FA), ("DoubleLongRightArrow;", 0x27F9),
   ("DoubleRightArrow;", 0x21D2), ("DoubleRightTee;", 0x22A8), ("DoubleUpArrow;", 0x21D1),
   ("DoubleUpDownArrow;", 0x21D5), ("DoubleVerticalBar;", 0x2225), ("DownArrow;", 0x2193),
   ("DownArrowBar;", 0x2913), ("DownArrowUpArrow;", 0x21F5), ("DownBreve;", 0x311),
   ("DownLeftRightVector;", 0x2950), ("DownLeftTeeVector;", 0x295E), ("DownLeftVector;", 0x21BD),
   ("DownLeftVectorBar;", 0x2956), ("DownRightTeeVector;", 0x295F), ("DownRightVector;", 0x21C1),
   ("DownRightVectorBar;", 0x2957), ("DownTee;", 0x22A4), ("DownTeeArrow;", 0x21A7),
   ("Downarrow;", 0x21D3), ("Dscr;", 0x1D49F), ("Dstrok;", 0x110)]

/-- Rows of the table `entity` of Go's html package whose name begins with `E`: the
name, with its final `;` where the table has it, and the code point. -/
def entityRowsUpperE : List (String × Nat) :=
  [("ENG;", 0x14A), ("ETH", 0xD0), ("ETH;", 0xD0), ("Eacute", 0xC9), ("Eacute;", 0xC9),
   ("Ecaron;", 0x11A), ("Ecirc", 0xCA), ("Ecirc;", 0xCA), ("Ecy;", 0x42D), ("Edot;", 0x116),
   ("Efr;", 0x1D508), ("Egrave", 0xC8), ("Egrave;", 0xC8), ("Element;", 0x2208),
   ("Emacr;", 0x112), ("EmptySmallSquare;", 0x25FB), ("EmptyVerySmallSquare;", 0x25AB),
   ("Eogon;", 0x118), ("Eopf;", 0x1D53C), ("Epsilon;", 0x395), ("Equal;", 0x2A75),
   ("EqualTilde;", 0x2242), ("Equilibrium;", 0x21CC), ("Escr;", 0x2130), ("Esim;", 0x2A73),
   ("Eta;", 0x397), ("Euml", 0xCB), ("Euml;", 0xCB), ("Exists;", 0x2203),
   ("ExponentialE;", 0x2147)]

/-- Rows of the table `entity` of Go's html package whose name begins with `F`: the
name, with its final `;` where the table has it, and the code point. -/
def entityRowsUpperF : List (String × Nat) :=
  [("Fcy;", 0x424), ("Ffr;", 0x1D509), ("FilledSmallSquare;", 0x25FC),
   ("FilledVerySmallSquare;", 0x25AA), ("Fopf;", 0x1D53D), ("ForAll;", 0x2200),
   ("Fouriertrf;", 0x2131), ("Fscr;", 0x2131)]

/-- Rows of the table `entity` of Go's html package whose name begins with `G`: the
name, with its final `;` where the table has it, and the code point. -/
def entityRowsUpperG : List (String × Nat) :=
  [("GJcy;", 0x403), ("GT", 0x3E), ("GT;", 0x3E), ("Gamma;", 0x393), ("Gammad;", 0x3DC),
   ("Gbreve;", 0x11E), ("Gcedil;", 0x122), ("Gcirc;", 0x11C), ("Gcy;", 0x413), ("Gdot;", 0x120),
   ("Gfr;", 0x1D50A), ("Gg;", 0x22D9), ("Gopf;", 0x1D53E), ("GreaterEqual;", 0x2265),
   ("GreaterEqualLess;", 0x22DB), ("GreaterFullEqual;", 0x2267), ("GreaterGreater;", 0x2AA2),
   ("GreaterLess;", 0x2277), ("GreaterSlantEqual;", 0x2A7E), ("GreaterTilde;", 0x2273),
   ("Gscr;", 0x1D4A2), ("Gt;", 0x226B)]

/-- Rows of the table `entity` of Go's html package whose name begins with `H`: the
name, with its final `;` where the table has it, and the code point. -/
def entityRowsUpperH : List (String × Nat) :=
  [("HARDcy;", 0x42A), ("Hacek;", 0x2C7), ("Hat;", 0x5E), ("Hcirc;", 0x124), ("Hfr;", 0x210C),
   ("HilbertSpace;", 0x210B), ("Hopf;", 0x210D), ("HorizontalLine;", 0x2500), ("Hscr;", 0x210B),
   ("Hstrok;", 0x126), ("HumpDownHump;", 0x224E), ("HumpEqual;", 0x224F)]

/-- Rows of the table `entity` of Go's html package whose name begins with `I`: the
name, with its final `;` where the table has it, and the code point. -/
def entityRowsUpperI : List (String × Nat) :=
  [("IEcy;", 0x415), ("IJlig;", 0x132), ("IOcy;", 0x401), ("Iacute", 0xCD), ("Iacute;", 0xCD),
   ("Icirc", 0xCE), ("Icirc;", 0xCE), ("Icy;", 0x418), ("Idot;", 0x130), ("Ifr;", 0x2111),
   ("Igrave", 0xCC), ("Igrave;", 0xCC), ("Im;", 0x2111), ("Imacr;", 0x12A),
   ("ImaginaryI;", 0x2148), ("Implies;", 0x21D2), ("Int;", 0x222C), ("Integral;", 0x222B),
   ("Intersection;", 0x22C2), ("InvisibleComma;", 0x2063), ("InvisibleTimes;", 0x2062),
   ("Iogon;", 0x12E), ("Iopf;", 0x1D540), ("Iota;", 0x399), ("Iscr;", 0x2110),
   ("Itilde;", 0x128), ("Iukcy;", 0x406), ("Iuml", 0xCF), ("Iuml;", 0xCF)]

/-- Rows of the table `entity` of Go's html package whose name begins with `J`: the
name, with its final `;` where the table has it, and the code point. -/
def entityRowsUpperJ : List (String × Nat) :=
  [("Jcirc;", 0x134), ("Jcy;", 0x419), ("Jfr;", 0x1D50D), ("Jopf;", 0x1D541), ("Jscr;", 0x1D4A5),
   ("Jsercy;", 0x408), ("Jukcy;", 0x404)]

/-- Rows of the table `entity` of Go's html package whose name begins with `K`: the
name, with its final `;` where the table has it, and the code point. -/
def entityRowsUpperK : List (String × Nat) :=
  [("KHcy;", 0x425), ("KJcy;", 0x40C), ("Kappa;", 0x39A), ("Kcedil;", 0x136), ("Kcy;", 0x41A),
   ("Kfr;", 0x1D50E), ("Kopf;", 0x1D542), ("Kscr;", 0x1D4A6)]

/-- Rows of the table `entity` of Go's html package whose name begins with `L`: the
name, with its final `;` where the table has it, and the code point. -/
def entityRowsUpperL : List (String × Nat) :=
  [("LJcy;", 0x409), ("LT", 0x3C), ("LT;", 0x3C), ("Lacute;", 0x139), ("Lambda;", 0x39B),
   ("Lang;", 0x27EA), ("Laplacetrf;", 0x2112), ("Larr;", 0x219E), ("Lcaron;", 0x13D),
   ("Lcedil;", 0x13B), ("Lcy;", 0x41B), ("LeftAngleBracket;", 0x27E8), ("LeftArrow;", 0x2190),
   ("LeftArrowBar;", 0x21E4), ("LeftArrowRightArrow;", 0x21C6), ("LeftCeiling;", 0x2308),
   ("LeftDoubleBracket;", 0x27E6), ("LeftDownTeeVector;", 0x2961), ("LeftDownVector;", 0x21C3),
   ("LeftDownVectorBar;", 0x2959), ("LeftFloor;", 0x230A), ("LeftRightArrow;", 0x2194),
   ("LeftRightVector;", 0x294E), ("LeftTee;", 0x22A3), ("LeftTeeArrow;", 0x21A4),
   ("LeftTeeVector;", 0x295A), ("LeftTriangle;", 0x22B2), ("LeftTriangleBar;", 0x29CF),
   ("LeftTriangleEqual;", 0x22B4), ("LeftUpDownVector;", 0x2951), ("LeftUpTeeVector;", 0x2960),
   ("LeftUpVector;", 0x21BF), ("LeftUpVectorBar;", 0x2958), ("LeftVector;", 0x21BC),
   ("LeftVectorBar;", 0x2952), ("Leftarrow;", 0x21D0), ("Leftrightarrow;", 0x21D4),
   ("LessEqualGreater;", 0x22DA), ("LessFullEqual;", 0x2266), ("LessGreater;", 0x2276),
   ("LessLess;", 0x2AA1), ("LessSlantEqual;", 0x2A7D), ("LessTilde;", 0x2272), ("Lfr;", 0x1D50F),
   ("Ll;", 0x22D8), ("Lleftarrow;", 0x21DA), ("Lmidot;", 0x13F), ("LongLeftArrow;", 0x27F5),
   ("LongLeftRightArrow;", 0x27F7), ("LongRightArrow;", 0x27F6), ("Longleftarrow;", 0x27F8),
   ("Longleftrightarrow;", 0x27FA), ("Longrightarrow;", 0x27F9), ("Lopf;", 0x1D543),
   ("LowerLeftArrow;", 0x2199), ("LowerRightArrow;", 0x2198), ("Lscr;", 0x2112),
   ("Lsh;", 0x21B0), ("Lstrok;", 0x141), ("Lt;", 0x226A)]

/-- Rows of the table `entity` of Go's html package whose name begins with `M`: the
name, with its final `;` where the table has it, and the code point. -/
def entityRowsUpperM : List (String × Nat) :=
  [("Map;", 0x2905), ("Mcy;", 0x41C), ("MediumSpace;", 0x205F), ("Mellintrf;", 0x2133),
   ("Mfr;", 0x1D510), ("MinusPlus;", 0x2213), ("Mopf;", 0x1D544), ("Mscr;", 0x2133),
   ("Mu;", 0x39C)]

/-- Rows of the table `entity` of Go's html package whose name begins with `N`: the
name, with its final `;` where the table has it, and the code point. -/
def entityRowsUpperN : List (String × Nat) :=
  [("NJcy;", 0x40A), ("Nacute;", 0x143), ("Ncaron;", 0x147), ("Ncedil;", 0x145), ("Ncy;", 0x41D),
   ("NegativeMediumSpace;", 0x200B), ("NegativeThickSpace;", 0x200B),
   ("NegativeThinSpace;", 0x200B), ("NegativeVeryThinSpace;", 0x200B),
   ("NestedGreaterGreater;", 0x226B), ("NestedLessLess;", 0x226A), ("NewLine;", 0xA),
   ("Nfr;", 0x1D511), ("NoBreak;", 0x2060), ("NonBreakingSpace;", 0xA0), ("Nopf;", 0x2115),
   ("Not;", 0x2AEC), ("NotCongruent;", 0x2262), ("NotCupCap;", 0x226D),
   ("NotDoubleVerticalBar;", 0x2226), ("NotElement;", 0x2209), ("NotEqual;", 0x2260),
   ("NotExists;", 0x2204), ("NotGreater;", 0x226F), ("NotGreaterEqual;", 0x2271),
   ("NotGreaterLess;", 0x2279), ("NotGreaterTilde;", 0x2275), ("NotLeftTriangle;", 0x22EA),
   ("NotLeftTriangleEqual;", 0x22EC), ("NotLess;", 0x226E), ("NotLessEqual;", 0x2270),
   ("NotLessGreater;", 0x2278), ("NotLessTilde;", 0x2274), ("NotPrecedes;", 0x2280),
   ("NotPrecedesSlantEqual;", 0x22E0), ("NotReverseElement;", 0x220C),
   ("NotRightTriangle;", 0x22EB), ("NotRightTriangleEqual;", 0x22ED),
   ("NotSquareSubsetEqual;", 0x22E2), ("NotSquareSupersetEqual;", 0x22E3),
   ("NotSubsetEqual;", 0x2288), ("NotSucceeds;", 0x2281), ("NotSucceedsSlantEqual;", 0x22E1),
   ("NotSupersetEqual;", 0x2289), ("NotTilde;", 0x2241), ("NotTildeEqual;", 0x2244),
   ("NotTildeFullEqual;", 0x2247), ("NotTildeTilde;", 0x2249), ("NotVerticalBar;", 0x2224),
   ("Nscr;", 0x1D4A9), ("Ntilde", 0xD1), ("Ntilde;", 0xD1), ("Nu;", 0x39D)]

/-- Rows of the table `entity` of Go's html package whose name begins with `O`: the
name, with its final `;` where the table has it, and the code point. -/
def entityRowsUpperO : List (String × Nat) :=
  [("OElig;", 0x152), ("Oacute", 0xD3), ("Oacute;", 0xD3), ("Ocirc", 0xD4), ("Ocirc;", 0xD4),
   ("Ocy;", 0x41E), ("Odblac;", 0x150), ("Ofr;", 0x1D512), ("Ograve", 0xD2), ("Ograve;", 0xD2),
   ("Omacr;", 0x14C), ("Omega;", 0x3A9), ("Omicron;", 0x39F), ("Oopf;", 0x1D546),
   ("OpenCurlyDoubleQuote;", 0x201C), ("OpenCurlyQuote;", 0x2018), ("Or;", 0x2A54),
   ("Oscr;", 0x1D4AA), ("Oslash", 0xD8), ("Oslash;", 0xD8), ("Otilde", 0xD5), ("Otilde;", 0xD5),
   ("Otimes;", 0x2A37), ("Ouml", 0xD6), ("Ouml;", 0xD6), ("OverBar;", 0x203E),
   ("OverBrace;", 0x23DE), ("OverBracket;", 0x23B4), ("OverParenthesis;", 0x23DC)]

/-- Rows of the table `entity` of Go's html package whose name begins with `P`: the
name, with its final `;` where the table has it, and the code point. -/
def entityRowsUpperP : List (String × Nat) :=
  [("PartialD;", 0x2202), ("Pcy;", 0x41F), ("Pfr;", 0x1D513), ("Phi;", 0x3A6), ("Pi;", 0x3A0),
   ("PlusMinus;", 0xB1), ("Poincareplane;", 0x210C), ("Popf;", 0x2119), ("Pr;", 0x2ABB),
   ("Precedes;", 0x227A), ("PrecedesEqual;", 0x2AAF), ("PrecedesSlantEqual;", 0x227C),
   ("PrecedesTilde;", 0x227E), ("Prime;", 0x2033), ("Product;", 0x220F), ("Proportion;", 0x2237),
   ("Proportional;", 0x221D), ("Pscr;", 0x1D4AB), ("Psi;", 0x3A8)]

/-- Rows of the table `entity` of Go's html package whose name begins with `Q`: the
name, with its final `;` where the table has it, and the code point. -/
def entityRowsUpperQ : List (String × Nat) :=
  [("QUOT", 0x22), ("QUOT;", 0x22), ("Qfr;", 0x1D514), ("Qopf;", 0x211A), ("Qscr;", 0x1D4AC)]

/-- Rows of the table `entity` of Go's html package whose name begins with `R`: the
name, with its final `;` where the table has it, and the code point. -/
def entityRowsUpperR : List (String × Nat) :=
  [("RBarr;", 0x2910), ("REG", 0xAE), ("REG;", 0xAE), ("Racute;", 0x154), ("Rang;", 0x27EB),
   ("Rarr;", 0x21A0), ("Rarrtl;", 0x2916), ("Rcaron;", 0x158), ("Rcedil;", 0x156),
   ("Rcy;", 0x420), ("Re;", 0x211C), ("ReverseElement;", 0x220B),
   ("ReverseEquilibrium;", 0x21CB), ("ReverseUpEquilibrium;", 0x296F), ("Rfr;", 0x211C),
   ("Rho;", 0x3A1), ("RightAngleBracket;", 0x27E9), ("RightArrow;", 0x2192),
   ("RightArrowBar;", 0x21E5), ("RightArrowLeftArrow;", 0x21C4), ("RightCeiling;", 0x2309),
   ("RightDoubleBracket;", 0x27E7), ("RightDownTeeVector;", 0x295D),
   ("RightDownVector;", 0x21C2), ("RightDownVectorBar;", 0x2955), ("RightFloor;", 0x230B),
   ("RightTee;", 0x22A2), ("RightTeeArrow;", 0x21A6), ("RightTeeVector;", 0x295B),
   ("RightTriangle;", 0x22B3), ("RightTriangleBar;", 0x29D0), ("RightTriangleEqual;", 0x22B5),
   ("RightUpDownVector;", 0x294F), ("RightUpTeeVector;", 0x295C), ("RightUpVector;", 0x21BE),
   ("RightUpVectorBar;", 0x2954), ("RightVector;", 0x21C0), ("RightVectorBar;", 0x2953),
   ("Rightarrow;", 0x21D2), ("Ropf;", 0x211D), ("RoundImplies;", 0x2970),
   ("Rrightarrow;", 0x21DB), ("Rscr;", 0x211B), ("Rsh;", 0x21B1), ("RuleDelayed;", 0x29F4)]

/-- Rows of the table `entity` of Go's html package whose name begins with `S`: the
name, with its final `;` where the table has it, and the code point. -/
def entityRowsUpperS : List (String × Nat) :=
  [("SHCHcy;", 0x429), ("SHcy;", 0x428), ("SOFTcy;", 0x42C), ("Sacute;", 0x15A), ("Sc;", 0x2ABC),
   ("Scaron;", 0x160), ("Scedil;", 0x15E), ("Scirc;", 0x15C), ("Scy;", 0x421), ("Sfr;", 0x1D516),
   ("ShortDownArrow;", 0x2193), ("ShortLeftArrow;", 0x2190), ("ShortRightArrow;", 0x2192),
   ("ShortUpArrow;", 0x2191), ("Sigma;", 0x3A3), ("SmallCircle;", 0x2218), ("Sopf;", 0x1D54A),
   ("Sqrt;", 0x221A), ("Square;", 0x25A1), ("SquareIntersection;", 0x2293),
   ("SquareSubset;", 0x228F), ("SquareSubsetEqual;", 0x2291), ("SquareSuperset;", 0x2290),
   ("SquareSupersetEqual;", 0x2292), ("SquareUnion;", 0x2294), ("Sscr;", 0x1D4AE),
   ("Star;", 0x22C6), ("Sub;", 0x22D0), ("Subset;", 0x22D0), ("SubsetEqual;", 0x2286),
   ("Succeeds;", 0x227B), ("SucceedsEqual;", 0x2AB0), ("SucceedsSlantEqual;", 0x227D),
   ("SucceedsTilde;", 0x227F), ("SuchThat;", 0x220B), ("Sum;", 0x2211), ("Sup;", 0x22D1),
   ("Superset;", 0x2283), ("SupersetEqual;", 0x2287), ("Supset;", 0x22D1)]

/-- Rows of the table `entity` of Go's html package whose name begins with `T`: the
name, with its final `;` where the table has it, and the code point. -/
def entityRowsUpperT : List (String × Nat) :=
  [("THORN", 0xDE), ("THORN;", 0xDE), ("TRADE;", 0x2122), ("TSHcy;", 0x40B), ("TScy;", 0x426),
   ("Tab;", 0x9), ("Tau;", 0x3A4), ("Tcaron;", 0x164), ("Tcedil;", 0x162), ("Tcy;", 0x422),
   ("Tfr;", 0x1D517), ("Therefore;", 0x2234), ("Theta;", 0x398), ("ThinSpace;", 0x2009),
   ("Tilde;", 0x223C), ("TildeEqual;", 0x2243), ("TildeFullEqual;", 0x2245),
   ("TildeTilde;", 0x2248), ("Topf;", 0x1D54B), ("TripleDot;", 0x20DB), ("Tscr;", 0x1D4AF),
   ("Tstrok;", 0x166)]

/-- Rows of the table `entity` of Go's html package whose name begins with `U`: the
name, with its final `;` where the table has it, and the code point. -/
def entityRowsUpperU : List (String × Nat) :=
  [("Uacute", 0xDA), ("Uacute;", 0xDA), ("Uarr;", 0x219F), ("Uarrocir;", 0x2949),
   ("Ubrcy;", 0x40E), ("Ubreve;", 0x16C), ("Ucirc", 0xDB), ("Ucirc;", 0xDB), ("Ucy;", 0x423),
   ("Udblac;", 0x170), ("Ufr;", 0x1D518), ("Ugrave", 0xD9), ("Ugrave;", 0xD9), ("Umacr;", 0x16A),
   ("UnderBar;", 0x5F), ("UnderBrace;", 0x23DF), ("UnderBracket;", 0x23B5),
   ("UnderParenthesis;", 0x23DD), ("Union;", 0x22C3), ("UnionPlus;", 0x228E), ("Uogon;", 0x172),
   ("Uopf;", 0x1D54C), ("UpArrow;", 0x2191), ("UpArrowBar;", 0x2912),
   ("UpArrowDownArrow;", 0x21C5), ("UpDownArrow;", 0x2195), ("UpEquilibrium;", 0x296E),
   ("UpTee;", 0x22A5), ("UpTeeArrow;", 0x21A5), ("Uparrow;", 0x21D1), ("Updownarrow;", 0x21D5),
   ("UpperLeftArrow;", 0x2196), ("UpperRightArrow;", 0x2197), ("Upsi;", 0x3D2),
   ("Upsilon;", 0x3A5), ("Uring;", 0x16E), ("Uscr;", 0x1D4B0), ("Utilde;", 0x168),
   ("Uuml", 0xDC), ("Uuml;", 0xDC)]

/-- Rows of the table `entity` of Go's html package whose name begins with `V`: the
name, with its final `;` where the table has it, and the code point. -/
def entityRowsUpperV : List (String × Nat) :=
  [("VDash;", 0x22AB), ("Vbar;", 0x2AEB), ("Vcy;", 0x412), ("Vdash;", 0x22A9),
   ("Vdashl;", 0x2AE6), ("Vee;", 0x22C1), ("Verbar;", 0x2016), ("Vert;", 0x2016),
   ("VerticalBar;", 0x2223), ("VerticalLine;", 0x7C), ("VerticalSeparator;", 0x2758),
   ("VerticalTilde;", 0x2240), ("VeryThinSpace;", 0x200A), ("Vfr;", 0x1D519), ("Vopf;", 0x1D54D),
   ("Vscr;", 0x1D4B1), ("Vvdash;", 0x22AA)]

/-- Rows of the table `entity` of Go's html package whose name begins with `W`: the
name, with its final `;` where the table has it, and the code point. -/
def entityRowsUpperW : List (String × Nat) :=
  [("Wcirc;", 0x174), ("Wedge;", 0x22C0), ("Wfr;", 0x1D51A), ("Wopf;", 0x1D54E),
   ("Wscr;", 0x1D4B2)]

/-- Rows of the table `entity` of Go's html package whose name begins with `X`: the
name, with its final `;` where the table has it, and the code point. -/
def entityRowsUpperX : List (String × Nat) :=
  [("Xfr;", 0x1D51B), ("Xi;", 0x39E), ("Xopf;", 0x1D54F), ("Xscr;", 0x1D4B3)]

/-- Rows of the table `entity` of Go's html package whose name begins with `Y`: the
name, with its final `;` where the table has it, and the code point. -/
def entityRowsUpperY : List (String × Nat) :=
  [("YAcy;", 0x42F), ("YIcy;", 0x407), ("YUcy;", 0x42E), ("Yacute", 0xDD), ("Yacute;", 0xDD),
   ("Ycirc;", 0x176), ("Ycy;", 0x42B), ("Yfr;", 0x1D51C), ("Yopf;", 0x1D550), ("Yscr;", 0x1D4B4),
   ("Yuml;", 0x178)]

/-- Rows of the table `entity` of Go's html package whose name begins with `Z`: the
name, with its final `;` where the table has it, and the code point. -/
def entityRowsUpperZ : List (String × Nat) :=
  [("ZHcy;", 0x416), ("Zacute;", 0x179), ("Zcaron;", 0x17D), ("Zcy;", 0x417), ("Zdot;", 0x17B),
   ("ZeroWidthSpace;", 0x200B), ("Zeta;", 0x396), ("Zfr;", 0x2128), ("Zopf;", 0x2124),
   ("Zscr;", 0x1D4B5)]

/-- Rows of the table `entity` of Go's html package whose name begins with `a`: the
name, with its final `;` where the table has it, and the code point. -/
def entityRowsLowerA : List (String × Nat) :=
  [("aacute", 0xE1), ("aacute;", 0xE1), ("abreve;", 0x103), ("ac;", 0x223E), ("acd;", 0x223F),
   ("acirc", 0xE2), ("acirc;", 0xE2), ("acute", 0xB4), ("acute;", 0xB4), ("acy;", 0x430),
   ("aelig", 0xE6), ("aelig;", 0xE6), ("af;", 0x2061), ("afr;", 0x1D51E), ("agrave", 0xE0),
   ("agrave;", 0xE0), ("alefsym;", 0x2135), ("aleph;", 0x2135), ("alpha;", 0x3B1),
   ("amacr;", 0x101), ("amalg;", 0x2A3F), ("amp", 0x26), ("amp;", 0x26), ("and;", 0x2227),
   ("andand;", 0x2A55), ("andd;", 0x2A5C), ("andslope;", 0x2A58), ("andv;", 0x2A5A),
   ("ang;", 0x2220), ("ange;", 0x29A4), ("angle;", 0x2220), ("angmsd;", 0x2221),
   ("angmsdaa;", 0x29A8), ("angmsdab;", 0x29A9), ("angmsdac;", 0x29AA), ("angmsdad;", 0x29AB),
   ("angmsdae;", 0x29AC), ("angmsdaf;", 0x29AD), ("angmsdag;", 0x29AE), ("angmsdah;", 0x29AF),
   ("angrt;", 0x221F), ("angrtvb;", 0x22BE), ("angrtvbd;", 0x299D), ("angsph;", 0x2222),
   ("angst;", 0xC5), ("angzarr;", 0x237C), ("aogon;", 0x105), ("aopf;", 0x1D552),
   ("ap;", 0x2248), ("apE;", 0x2A70), ("apacir;", 0x2A6F), ("ape;", 0x224A), ("apid;", 0x224B),
   ("apos;", 0x27), ("approx;", 0x2248), ("approxeq;", 0x224A), ("aring", 0xE5),
   ("aring;", 0xE5), ("ascr;", 0x1D4B6), ("ast;", 0x2A), ("asymp;", 0x2248),
   ("asympeq;", 0x224D), ("atilde", 0xE3), ("atilde;", 0xE3), ("auml", 0xE4), ("auml;", 0xE4),
   ("awconint;", 0x2233), ("awint;", 0x2A11)]

/-- Rows of the table `entity` of Go's html package whose name begins with `b`: the
name, with its final `;` where the table has it, and the code point. -/
def entityRowsLowerB : List (String × Nat) :=
  [("bNot;", 0x2AED), ("backcong;", 0x224C), ("backepsilon;", 0x3F6), ("backprime;", 0x2035),
   ("backsim;", 0x223D), ("backsimeq;", 0x22CD), ("barvee;", 0x22BD), ("barwed;", 0x2305),
   ("barwedge;", 0x2305), ("bbrk;", 0x23B5), ("bbrktbrk;", 0x23B6), ("bcong;", 0x224C),
   ("bcy;", 0x431), ("bdquo;", 0x201E), ("becaus;", 0x2235), ("because;", 0x2235),
   ("bemptyv;", 0x29B0), ("bepsi;", 0x3F6), ("bernou;", 0x212C), ("beta;", 0x3B2),
   ("beth;", 0x2136), ("between;", 0x226C), ("bfr;", 0x1D51F), ("bigcap;", 0x22C2),
   ("bigcirc;", 0x25EF), ("bigcup;", 0x22C3), ("bigodot;", 0x2A00), ("bigoplus;", 0x2A01),
   ("bigotimes;", 0x2A02), ("bigsqcup;", 0x2A06), ("bigstar;", 0x2605),
   ("bigtriangledown;", 0x25BD), ("bigtriangleup;", 0x25B3), ("biguplus;", 0x2A04),
   ("bigvee;", 0x22C1), ("bigwedge;", 0x22C0), ("bkarow;", 0x290D), ("blacklozenge;", 0x29EB),
   ("blacksquare;", 0x25AA), ("blacktriangle;", 0x25B4), ("blacktriangledown;", 0x25BE),
   ("blacktriangleleft;", 0x25C2), ("blacktriangleright;", 0x25B8), ("blank;", 0x2423),
   ("blk12;", 0x2592), ("blk14;", 0x2591), ("blk34;", 0x2593), ("block;", 0x2588),
   ("bnot;", 0x2310), ("bopf;", 0x1D553), ("bot;", 0x22A5), ("bottom;", 0x22A5),
   ("bowtie;", 0x22C8), ("boxDL;", 0x2557), ("boxDR;", 0x2554), ("boxDl;", 0x2556),
   ("boxDr;", 0x2553), ("boxH;", 0x2550), ("boxHD;", 0x2566), ("boxHU;", 0x2569),
   ("boxHd;", 0x2564), ("boxHu;", 0x2567), ("boxUL;", 0x255D), ("boxUR;", 0x255A),
   ("boxUl;", 0x255C), ("boxUr;", 0x2559), ("boxV;", 0x2551), ("boxVH;", 0x256C),
   ("boxVL;", 0x2563), ("boxVR;", 0x2560), ("boxVh;", 0x256B), ("boxVl;", 0x2562),
   ("boxVr;", 0x255F), ("boxbox;", 0x29C9), ("boxdL;", 0x2555), ("boxdR;", 0x2552),
   ("boxdl;", 0x2510), ("boxdr;", 0x250C), ("boxh;", 0x2500), ("boxhD;", 0x2565),
   ("boxhU;", 0x2568), ("boxhd;", 0x252C), ("boxhu;", 0x2534), ("boxminus;", 0x229F),
   ("boxplus;", 0x229E), ("boxtimes;", 0x22A0), ("boxuL;", 0x255B), ("boxuR;", 0x2558),
   ("boxul;", 0x2518), ("boxur;", 0x2514), ("boxv;", 0x2502), ("boxvH;", 0x256A),
   ("boxvL;", 0x2561), ("boxvR;", 0x255E), ("boxvh;", 0x253C), ("boxvl;", 0x2524),
   ("boxvr;", 0x251C), ("bprime;", 0x2035), ("breve;", 0x2D8), ("brvbar", 0xA6),
   ("brvbar;", 0xA6), ("bscr;", 0x1D4B7), ("bsemi;", 0x204F), ("bsim;", 0x223D),
   ("bsime;", 0x22CD), ("bsol;", 0x5C), ("bsolb;", 0x29C5), ("bsolhsub;", 0x27C8),
   ("bull;", 0x2022), ("bullet;", 0x2022), ("bump;", 0x224E), ("bumpE;", 0x2AAE),
   ("bumpe;", 0x224F), ("bumpeq;", 0x224F)]

/-- Rows of the table `entity` of Go's html package whose name begins with `c`: the
name, with its final `;` where the table has it, and the code point. -/
def entityRowsLowerC : List (String × Nat) :=
  [("cacute;", 0x107), ("cap;", 0x2229), ("capand;", 0x2A44), ("capbrcup;", 0x2A49),
   ("capcap;", 0x2A4B), ("capcup;", 0x2A47), ("capdot;", 0x2A40), ("caret;", 0x2041),
   ("caron;", 0x2C7), ("ccaps;", 0x2A4D), ("ccaron;", 0x10D), ("ccedil", 0xE7),
   ("ccedil;", 0xE7), ("ccirc;", 0x109), ("ccups;", 0x2A4C), ("ccupssm;", 0x2A50),
   ("cdot;", 0x10B), ("cedil", 0xB8), ("cedil;", 0xB8), ("cemptyv;", 0x29B2), ("cent", 0xA2),
   ("cent;", 0xA2), ("centerdot;", 0xB7), ("cfr;", 0x1D520), ("chcy;", 0x447),
   ("check;", 0x2713), ("checkmark;", 0x2713), ("chi;", 0x3C7), ("cir;", 0x25CB),
   ("cirE;", 0x29C3), ("circ;", 0x2C6), ("circeq;", 0x2257), ("circlearrowleft;", 0x21BA),
   ("circlearrowright;", 0x21BB), ("circledR;", 0xAE), ("circledS;", 0x24C8),
   ("circledast;", 0x229B), ("circledcirc;", 0x229A), ("circleddash;", 0x229D),
   ("cire;", 0x2257), ("cirfnint;", 0x2A10), ("cirmid;", 0x2AEF), ("cirscir;", 0x29C2),
   ("clubs;", 0x2663), ("clubsuit;", 0x2663), ("colon;", 0x3A), ("colone;", 0x2254),
   ("coloneq;", 0x2254), ("comma;", 0x2C), ("commat;", 0x40), ("comp;", 0x2201),
   ("compfn;", 0x2218), ("complement;", 0x2201), ("complexes;", 0x2102), ("cong;", 0x2245),
   ("congdot;", 0x2A6D), ("conint;", 0x222E), ("copf;", 0x1D554), ("coprod;", 0x2210),
   ("copy", 0xA9), ("copy;", 0xA9), ("copysr;", 0x2117), ("crarr;", 0x21B5), ("cross;", 0x2717),
   ("cscr;", 0x1D4B8), ("csub;", 0x2ACF), ("csube;", 0x2AD1), ("csup;", 0x2AD0),
   ("csupe;", 0x2AD2), ("ctdot;", 0x22EF), ("cudarrl;", 0x2938), ("cudarrr;", 0x2935),
   ("cuepr;", 0x22DE), ("cuesc;", 0x22DF), ("cularr;", 0x21B6), ("cularrp;", 0x293D),
   ("cup;", 0x222A), ("cupbrcap;", 0x2A48), ("cupcap;", 0x2A46), ("cupcup;", 0x2A4A),
   ("cupdot;", 0x228D), ("cupor;", 0x2A45), ("curarr;", 0x21B7), ("curarrm;", 0x293C),
   ("curlyeqprec;", 0x22DE), ("curlyeqsucc;", 0x22DF), ("curlyvee;", 0x22CE),
   ("curlywedge;", 0x22CF), ("curren", 0xA4), ("curren;", 0xA4), ("curvearrowleft;", 0x21B6),
   ("curvearrowright;", 0x21B7), ("cuvee;", 0x22CE), ("cuwed;", 0x22CF), ("cwconint;", 0x2232),
   ("cwint;", 0x2231), ("cylcty;", 0x232D)]

/-- Rows of the table `entity` of Go's html package whose name begins with `d`: the
name, with its final `;` where the table has it, and the code point. -/
def entityRowsLowerD : List (String × Nat) :=
  [("dArr;", 0x21D3), ("dHar;", 0x2965), ("dagger;", 0x2020), ("daleth;", 0x2138),
   ("darr;", 0x2193), ("dash;", 0x2010), ("dashv;", 0x22A3), ("dbkarow;", 0x290F),
   ("dblac;", 0x2DD), ("dcaron;", 0x10F), ("dcy;", 0x434), ("dd;", 0x2146), ("ddagger;", 0x2021),
   ("ddarr;", 0x21CA), ("ddotseq;", 0x2A77), ("deg", 0xB0), ("deg;", 0xB0), ("delta;", 0x3B4),
   ("demptyv;", 0x29B1), ("dfisht;", 0x297F), ("dfr;", 0x1D521), ("dharl;", 0x21C3),
   ("dharr;", 0x21C2), ("diam;", 0x22C4), ("diamond;", 0x22C4), ("diamondsuit;", 0x2666),
   ("diams;", 0x2666), ("die;", 0xA8), ("digamma;", 0x3DD), ("disin;", 0x22F2), ("div;", 0xF7),
   ("divide", 0xF7), ("divide;", 0xF7), ("divideontimes;", 0x22C7), ("divonx;", 0x22C7),
   ("djcy;", 0x452), ("dlcorn;", 0x231E), ("dlcrop;", 0x230D), ("dollar;", 0x24),
   ("dopf;", 0x1D555), ("dot;", 0x2D9), ("doteq;", 0x2250), ("doteqdot;", 0x2251),
   ("dotminus;", 0x2238), ("dotplus;", 0x2214), ("dotsquare;", 0x22A1),
   ("doublebarwedge;", 0x2306), ("downarrow;", 0x2193), ("downdownarrows;", 0x21CA),
   ("downharpoonleft;", 0x21C3), ("downharpoonright;", 0x21C2), ("drbkarow;", 0x2910),
   ("drcorn;", 0x231F), ("drcrop;", 0x230C), ("dscr;", 0x1D4B9), ("dscy;", 0x455),
   ("dsol;", 0x29F6), ("dstrok;", 0x111), ("dtdot;", 0x22F1), ("dtri;", 0x25BF),
   ("dtrif;", 0x25BE), ("duarr;", 0x21F5), ("duhar;", 0x296F), ("dwangle;", 0x29A6),
   ("dzcy;", 0x45F), ("dzigrarr;", 0x27FF)]

/-- Rows of the table `entity` of Go's html package whose name begins with `e`: the
name, with its final `;` where the table has it, and the code point. -/
def entityRowsLowerE : List (String × Nat) :=
  [("eDDot;", 0x2A77), ("eDot;", 0x2251), ("eacute", 0xE9), ("eacute;", 0xE9),
   ("easter;", 0x2A6E), ("ecaron;", 0x11B), ("ecir;", 0x2256), ("ecirc", 0xEA), ("ecirc;", 0xEA),
   ("ecolon;", 0x2255), ("ecy;", 0x44D), ("edot;", 0x117), ("ee;", 0x2147), ("efDot;", 0x2252),
   ("efr;", 0x1D522), ("eg;", 0x2A9A), ("egrave", 0xE8), ("egrave;", 0xE8), ("egs;", 0x2A96),
   ("egsdot;", 0x2A98), ("el;", 0x2A99), ("elinters;", 0x23E7), ("ell;", 0x2113),
   ("els;", 0x2A95), ("elsdot;", 0x2A97), ("emacr;", 0x113), ("empty;", 0x2205),
   ("emptyset;", 0x2205), ("emptyv;", 0x2205), ("emsp13;", 0x2004), ("emsp14;", 0x2005),
   ("emsp;", 0x2003), ("eng;", 0x14B), ("ensp;", 0x2002), ("eogon;", 0x119), ("eopf;", 0x1D556),
   ("epar;", 0x22D5), ("eparsl;", 0x29E3), ("eplus;", 0x2A71), ("epsi;", 0x3B5),
   ("epsilon;", 0x3B5), ("epsiv;", 0x3F5), ("eqcirc;", 0x2256), ("eqcolon;", 0x2255),
   ("eqsim;", 0x2242), ("eqslantgtr;", 0x2A96), ("eqslantless;", 0x2A95), ("equals;", 0x3D),
   ("equest;", 0x225F), ("equiv;", 0x2261), ("equivDD;", 0x2A78), ("eqvparsl;", 0x29E5),
   ("erDot;", 0x2253), ("erarr;", 0x2971), ("escr;", 0x212F), ("esdot;", 0x2250),
   ("esim;", 0x2242), ("eta;", 0x3B7), ("eth", 0xF0), ("eth;", 0xF0), ("euml", 0xEB),
   ("euml;", 0xEB), ("euro;", 0x20AC), ("excl;", 0x21), ("exist;", 0x2203),
   ("expectation;", 0x2130), ("exponentiale;", 0x2147)]

/-- Rows of the table `entity` of Go's html package whose name begins with `f`: the
name, with its final `;` where the table has it, and the code point. -/
def entityRowsLowerF : List (String × Nat) :=
  [("fallingdotseq;", 0x2252), ("fcy;", 0x444), ("female;", 0x2640), ("ffilig;", 0xFB03),
   ("fflig;", 0xFB00), ("ffllig;", 0xFB04), ("ffr;", 0x1D523), ("filig;", 0xFB01),
   ("flat;", 0x266D), ("fllig;", 0xFB02), ("fltns;", 0x25B1), ("fnof;", 0x192),
   ("fopf;", 0x1D557), ("forall;", 0x2200), ("fork;", 0x22D4), ("forkv;", 0x2AD9),
   ("fpartint;", 0x2A0D), ("frac12", 0xBD), ("frac12;", 0xBD), ("frac13;", 0x2153),
   ("frac14", 0xBC), ("frac14;", 0xBC), ("frac15;", 0x2155), ("frac16;", 0x2159),
   ("frac18;", 0x215B), ("frac23;", 0x2154), ("frac25;", 0x2156), ("frac34", 0xBE),
   ("frac34;", 0xBE), ("frac35;", 0x2157), ("frac38;", 0x215C), ("frac45;", 0x2158),
   ("frac56;", 0x215A), ("frac58;", 0x215D), ("frac78;", 0x215E), ("frasl;", 0x2044),
   ("frown;", 0x2322), ("fscr;", 0x1D4BB)]

/-- Rows of the table `entity` of Go's html package whose name begins with `g`: the
name, with its final `;` where the table has it, and the code point. -/
def entityRowsLowerG : List (String × Nat) :=
  [("gE;", 0x2267), ("gEl;", 0x2A8C), ("gacute;", 0x1F5), ("gamma;", 0x3B3), ("gammad;", 0x3DD),
   ("gap;", 0x2A86), ("gbreve;", 0x11F), ("gcirc;", 0x11D), ("gcy;", 0x433), ("gdot;", 0x121),
   ("ge;", 0x2265), ("gel;", 0x22DB), ("geq;", 0x2265), ("geqq;", 0x2267), ("geqslant;", 0x2A7E),
   ("ges;", 0x2A7E), ("gescc;", 0x2AA9), ("gesdot;", 0x2A80), ("gesdoto;", 0x2A82),
   ("gesdotol;", 0x2A84), ("gesles;", 0x2A94), ("gfr;", 0x1D524), ("gg;", 0x226B),
   ("ggg;", 0x22D9), ("gimel;", 0x2137), ("gjcy;", 0x453), ("gl;", 0x2277), ("glE;", 0x2A92),
   ("gla;", 0x2AA5), ("glj;", 0x2AA4), ("gnE;", 0x2269), ("gnap;", 0x2A8A),
   ("gnapprox;", 0x2A8A), ("gne;", 0x2A88), ("gneq;", 0x2A88), ("gneqq;", 0x2269),
   ("gnsim;", 0x22E7), ("gopf;", 0x1D558), ("grave;", 0x60), ("gscr;", 0x210A),
   ("gsim;", 0x2273), ("gsime;", 0x2A8E), ("gsiml;", 0x2A90), ("gt", 0x3E), ("gt;", 0x3E),
   ("gtcc;", 0x2AA7), ("gtcir;", 0x2A7A), ("gtdot;", 0x22D7), ("gtlPar;", 0x2995),
   ("gtquest;", 0x2A7C), ("gtrapprox;", 0x2A86), ("gtrarr;", 0x2978), ("gtrdot;", 0x22D7),
   ("gtreqless;", 0x22DB), ("gtreqqless;", 0x2A8C), ("gtrless;", 0x2277), ("gtrsim;", 0x2273)]

/-- Rows of the table `entity` of Go's html package whose name begins with `h`: the
name, with its final `;` where the table has it, and the code point. -/
def entityRowsLowerH : List (String × Nat) :=
  [("hArr;", 0x21D4), ("hairsp;", 0x200A), ("half;", 0xBD), ("hamilt;", 0x210B),
   ("hardcy;", 0x44A), ("harr;", 0x2194), ("harrcir;", 0x2948), ("harrw;", 0x21AD),
   ("hbar;", 0x210F), ("hcirc;", 0x125), ("hearts;", 0x2665), ("heartsuit;", 0x2665),
   ("hellip;", 0x2026), ("hercon;", 0x22B9), ("hfr;", 0x1D525), ("hksearow;", 0x2925),
   ("hkswarow;", 0x2926), ("hoarr;", 0x21FF), ("homtht;", 0x223B), ("hookleftarrow;", 0x21A9),
   ("hookrightarrow;", 0x21AA), ("hopf;", 0x1D559), ("horbar;", 0x2015), ("hscr;", 0x1D4BD),
   ("hslash;", 0x210F), ("hstrok;", 0x127), ("hybull;", 0x2043), ("hyphen;", 0x2010)]

/-- Rows of the table `entity` of Go's html package whose name begins with `i`: the
name, with its final `;` where the table has it, and the code point. -/
def entityRowsLowerI : List (String × Nat) :=
  [("iacute", 0xED), ("iacute;", 0xED), ("ic;", 0x2063), ("icirc", 0xEE), ("icirc;", 0xEE),
   ("icy;", 0x438), ("iecy;", 0x435), ("iexcl", 0xA1), ("iexcl;", 0xA1), ("iff;", 0x21D4),
   ("ifr;", 0x1D526), ("igrave", 0xEC), ("igrave;", 0xEC), ("ii;", 0x2148), ("iiiint;", 0x2A0C),
   ("iiint;", 0x222D), ("iinfin;", 0x29DC), ("iiota;", 0x2129), ("ijlig;", 0x133),
   ("imacr;", 0x12B), ("image;", 0x2111), ("imagline;", 0x2110), ("imagpart;", 0x2111),
   ("imath;", 0x131), ("imof;", 0x22B7), ("imped;", 0x1B5), ("in;", 0x2208), ("incare;", 0x2105),
   ("infin;", 0x221E), ("infintie;", 0x29DD), ("inodot;", 0x131), ("int;", 0x222B),
   ("intcal;", 0x22BA), ("integers;", 0x2124), ("intercal;", 0x22BA), ("intlarhk;", 0x2A17),
   ("intprod;", 0x2A3C), ("iocy;", 0x451), ("iogon;", 0x12F), ("iopf;", 0x1D55A),
   ("iota;", 0x3B9), ("iprod;", 0x2A3C), ("iquest", 0xBF), ("iquest;", 0xBF), ("iscr;", 0x1D4BE),
   ("isin;", 0x2208), ("isinE;", 0x22F9), ("isindot;", 0x22F5), ("isins;", 0x22F4),
   ("isinsv;", 0x22F3), ("isinv;", 0x2208), ("it;", 0x2062), ("itilde;", 0x129),
   ("iukcy;", 0x456), ("iuml", 0xEF), ("iuml;", 0xEF)]

/-- Rows of the table `entity` of Go's html package whose name begins with `j`: the
name, with its final `;` where the table has it, and the code point. -/
def entityRowsLowerJ : List (String × Nat) :=
  [("jcirc;", 0x135), ("jcy;", 0x439), ("jfr;", 0x1D527), ("jmath;", 0x237), ("jopf;", 0x1D55B),
   ("jscr;", 0x1D4BF), ("jsercy;", 0x458), ("jukcy;", 0x454)]

/-- Rows of the table `entity` of Go's html package whose name begins with `k`: the
name, with its final `;` where the table has it, and the code point. -/
def entityRowsLowerK : List (String × Nat) :=
  [("kappa;", 0x3BA), ("kappav;", 0x3F0), ("kcedil;", 0x137), ("kcy;", 0x43A), ("kfr;", 0x1D528),
   ("kgreen;", 0x138), ("khcy;", 0x445), ("kjcy;", 0x45C), ("kopf;", 0x1D55C),
   ("kscr;", 0x1D4C0)]

/-- Rows of the table `entity` of Go's html package whose name begins with `l`: the
name, with its final `;` where the table has it, and the code point. -/
def entityRowsLowerL : List (String × Nat) :=
  [("lAarr;", 0x21DA), ("lArr;", 0x21D0), ("lAtail;", 0x291B), ("lBarr;", 0x290E),
   ("lE;", 0x2266), ("lEg;", 0x2A8B), ("lHar;", 0x2962), ("lacute;", 0x13A),
   ("laemptyv;", 0x29B4), ("lagran;", 0x2112), ("lambda;", 0x3BB), ("lang;", 0x27E8),
   ("langd;", 0x2991), ("langle;", 0x27E8), ("lap;", 0x2A85), ("laquo", 0xAB), ("laquo;", 0xAB),
   ("larr;", 0x2190), ("larrb;", 0x21E4), ("larrbfs;", 0x291F), ("larrfs;", 0x291D),
   ("larrhk;", 0x21A9), ("larrlp;", 0x21AB), ("larrpl;", 0x2939), ("larrsim;", 0x2973),
   ("larrtl;", 0x21A2), ("lat;", 0x2AAB), ("latail;", 0x2919), ("late;", 0x2AAD),
   ("lbarr;", 0x290C), ("lbbrk;", 0x2772), ("lbrace;", 0x7B), ("lbrack;", 0x5B),
   ("lbrke;", 0x298B), ("lbrksld;", 0x298F), ("lbrkslu;", 0x298D), ("lcaron;", 0x13E),
   ("lcedil;", 0x13C), ("lceil;", 0x2308), ("lcub;", 0x7B), ("lcy;", 0x43B), ("ldca;", 0x2936),
   ("ldquo;", 0x201C), ("ldquor;", 0x201E), ("ldrdhar;", 0x2967), ("ldrushar;", 0x294B),
   ("ldsh;", 0x21B2), ("le;", 0x2264), ("leftarrow;", 0x2190), ("leftarrowtail;", 0x21A2),
   ("leftharpoondown;", 0x21BD), ("leftharpoonup;", 0x21BC), ("leftleftarrows;", 0x21C7),
   ("leftrightarrow;", 0x2194), ("leftrightarrows;", 0x21C6), ("leftrightharpoons;", 0x21CB),
   ("leftrightsquigarrow;", 0x21AD), ("leftthreetimes;", 0x22CB), ("leg;", 0x22DA),
   ("leq;", 0x2264), ("leqq;", 0x2266), ("leqslant;", 0x2A7D), ("les;", 0x2A7D),
   ("lescc;", 0x2AA8), ("lesdot;", 0x2A7F), ("lesdoto;", 0x2A81), ("lesdotor;", 0x2A83),
   ("lesges;", 0x2A93), ("lessapprox;", 0x2A85), ("lessdot;", 0x22D6), ("lesseqgtr;", 0x22DA),
   ("lesseqqgtr;", 0x2A8B), ("lessgtr;", 0x2276), ("lesssim;", 0x2272), ("lfisht;", 0x297C),
   ("lfloor;", 0x230A), ("lfr;", 0x1D529), ("lg;", 0x2276), ("lgE;", 0x2A91), ("lhard;", 0x21BD),
   ("lharu;", 0x21BC), ("lharul;", 0x296A), ("lhblk;", 0x2584), ("ljcy;", 0x459),
   ("ll;", 0x226A), ("llarr;", 0x21C7), ("llcorner;", 0x231E), ("llhard;", 0x296B),
   ("lltri;", 0x25FA), ("lmidot;", 0x140), ("lmoust;", 0x23B0), ("lmoustache;", 0x23B0),
   ("lnE;", 0x2268), ("lnap;", 0x2A89), ("lnapprox;", 0x2A89), ("lne;", 0x2A87),
   ("lneq;", 0x2A87), ("lneqq;", 0x2268), ("lnsim;", 0x22E6), ("loang;", 0x27EC),
   ("loarr;", 0x21FD), ("lobrk;", 0x27E6), ("longleftarrow;", 0x27F5),
   ("longleftrightarrow;", 0x27F7), ("longmapsto;", 0x27FC), ("longrightarrow;", 0x27F6),
   ("looparrowleft;", 0x21AB), ("looparrowright;", 0x21AC), ("lopar;", 0x2985),
   ("lopf;", 0x1D55D), ("loplus;", 0x2A2D), ("lotimes;", 0x2A34), ("lowast;", 0x2217),
   ("lowbar;", 0x5F), ("loz;", 0x25CA), ("lozenge;", 0x25CA), ("lozf;", 0x29EB), ("lpar;", 0x28),
   ("lparlt;", 0x2993), ("lrarr;", 0x21C6), ("lrcorner;", 0x231F), ("lrhar;", 0x21CB),
   ("lrhard;", 0x296D), ("lrm;", 0x200E), ("lrtri;", 0x22BF), ("lsaquo;", 0x2039),
   ("lscr;", 0x1D4C1), ("lsh;", 0x21B0), ("lsim;", 0x2272), ("lsime;", 0x2A8D),
   ("lsimg;", 0x2A8F), ("lsqb;", 0x5B), ("lsquo;", 0x2018), ("lsquor;", 0x201A),
   ("lstrok;", 0x142), ("lt", 0x3C), ("lt;", 0x3C), ("ltcc;", 0x2AA6), ("ltcir;", 0x2A79),
   ("ltdot;", 0x22D6), ("lthree;", 0x22CB), ("ltimes;", 0x22C9), ("ltlarr;", 0x2976),
   ("ltquest;", 0x2A7B), ("ltrPar;", 0x2996), ("ltri;", 0x25C3), ("ltrie;", 0x22B4),
   ("ltrif;", 0x25C2), ("lurdshar;", 0x294A), ("luruhar;", 0x2966)]

/-- Rows of the table `entity` of Go's html package whose name begins with `m`: the
name, with its final `;` where the table has it, and the code point. -/
def entityRowsLowerM : List (String × Nat) :=
  [("mDDot;", 0x223A), ("macr", 0xAF), ("macr;", 0xAF), ("male;", 0x2642), ("malt;", 0x2720),
   ("maltese;", 0x2720), ("map;", 0x21A6), ("mapsto;", 0x21A6), ("mapstodown;", 0x21A7),
   ("mapstoleft;", 0x21A4), ("mapstoup;", 0x21A5), ("marker;", 0x25AE), ("mcomma;", 0x2A29),
   ("mcy;", 0x43C), ("mdash;", 0x2014), ("measuredangle;", 0x2221), ("mfr;", 0x1D52A),
   ("mho;", 0x2127), ("micro", 0xB5), ("micro;", 0xB5), ("mid;", 0x2223), ("midast;", 0x2A),
   ("midcir;", 0x2AF0), ("middot", 0xB7), ("middot;", 0xB7), ("minus;", 0x2212),
   ("minusb;", 0x229F), ("minusd;", 0x2238), ("minusdu;", 0x2A2A), ("mlcp;", 0x2ADB),
   ("mldr;", 0x2026), ("mnplus;", 0x2213), ("models;", 0x22A7), ("mopf;", 0x1D55E),
   ("mp;", 0x2213), ("mscr;", 0x1D4C2), ("mstpos;", 0x223E), ("mu;", 0x3BC),
   ("multimap;", 0x22B8), ("mumap;", 0x22B8)]

/-- Rows of the table `entity` of Go's html package whose name begins with `n`: the
name, with its final `;` where the table has it, and the code point. -/
def entityRowsLowerN : List (String × Nat) :=
  [("nLeftarrow;", 0x21CD), ("nLeftrightarrow;", 0x21CE), ("nRightarrow;", 0x21CF),
   ("nVDash;", 0x22AF), ("nVdash;", 0x22AE), ("nabla;", 0x2207), ("nacute;", 0x144),
   ("nap;", 0x2249), ("napos;", 0x149), ("napprox;", 0x2249), ("natur;", 0x266E),
   ("natural;", 0x266E), ("naturals;", 0x2115), ("nbsp", 0xA0), ("nbsp;", 0xA0),
   ("ncap;", 0x2A43), ("ncaron;", 0x148), ("ncedil;", 0x146), ("ncong;", 0x2247),
   ("ncup;", 0x2A42), ("ncy;", 0x43D), ("ndash;", 0x2013), ("ne;", 0x2260), ("neArr;", 0x21D7),
   ("nearhk;", 0x2924), ("nearr;", 0x2197), ("nearrow;", 0x2197), ("nequiv;", 0x2262),
   ("nesear;", 0x2928), ("nexist;", 0x2204), ("nexists;", 0x2204), ("nfr;", 0x1D52B),
   ("nge;", 0x2271), ("ngeq;", 0x2271), ("ngsim;", 0x2275), ("ngt;", 0x226F), ("ngtr;", 0x226F),
   ("nhArr;", 0x21CE), ("nharr;", 0x21AE), ("nhpar;", 0x2AF2), ("ni;", 0x220B), ("nis;", 0x22FC),
   ("nisd;", 0x22FA), ("niv;", 0x220B), ("njcy;", 0x45A), ("nlArr;", 0x21CD), ("nlarr;", 0x219A),
   ("nldr;", 0x2025), ("nle;", 0x2270), ("nleftarrow;", 0x219A), ("nleftrightarrow;", 0x21AE),
   ("nleq;", 0x2270), ("nless;", 0x226E), ("nlsim;", 0x2274), ("nlt;", 0x226E),
   ("nltri;", 0x22EA), ("nltrie;", 0x22EC), ("nmid;", 0x2224), ("nopf;", 0x1D55F), ("not", 0xAC),
   ("not;", 0xAC), ("notin;", 0x2209), ("notinva;", 0x2209), ("notinvb;", 0x22F7),
   ("notinvc;", 0x22F6), ("notni;", 0x220C), ("notniva;", 0x220C), ("notnivb;", 0x22FE),
   ("notnivc;", 0x22FD), ("npar;", 0x2226), ("nparallel;", 0x2226), ("npolint;", 0x2A14),
   ("npr;", 0x2280), ("nprcue;", 0x22E0), ("nprec;", 0x2280), ("nrArr;", 0x21CF),
   ("nrarr;", 0x219B), ("nrightarrow;", 0x219B), ("nrtri;", 0x22EB), ("nrtrie;", 0x22ED),
   ("nsc;", 0x2281), ("nsccue;", 0x22E1), ("nscr;", 0x1D4C3), ("nshortmid;", 0x2224),
   ("nshortparallel;", 0x2226), ("nsim;", 0x2241), ("nsime;", 0x2244), ("nsimeq;", 0x2244),
   ("nsmid;", 0x2224), ("nspar;", 0x2226), ("nsqsube;", 0x22E2), ("nsqsupe;", 0x22E3),
   ("nsub;", 0x2284), ("nsube;", 0x2288), ("nsubseteq;", 0x2288), ("nsucc;", 0x2281),
   ("nsup;", 0x2285), ("nsupe;", 0x2289), ("nsupseteq;", 0x2289), ("ntgl;", 0x2279),
   ("ntilde", 0xF1), ("ntilde;", 0xF1), ("ntlg;", 0x2278), ("ntriangleleft;", 0x22EA),
   ("ntrianglelefteq;", 0x22EC), ("ntriangleright;", 0x22EB), ("ntrianglerighteq;", 0x22ED),
   ("nu;", 0x3BD), ("num;", 0x23), ("numero;", 0x2116), ("numsp;", 0x2007), ("nvDash;", 0x22AD),
   ("nvHarr;", 0x2904), ("nvdash;", 0x22AC), ("nvinfin;", 0x29DE), ("nvlArr;", 0x2902),
   ("nvrArr;", 0x2903), ("nwArr;", 0x21D6), ("nwarhk;", 0x2923), ("nwarr;", 0x2196),
   ("nwarrow;", 0x2196), ("nwnear;", 0x2927)]

/-- Rows of the table `entity` of Go's html package whose name begins with `o`: the
name, with its final `;` where the table has it, and the code point. -/
def entityRowsLowerO : List (String × Nat) :=
  [("oS;", 0x24C8), ("oacute", 0xF3), ("oacute;", 0xF3), ("oast;", 0x229B), ("ocir;", 0x229A),
   ("ocirc", 0xF4), ("ocirc;", 0xF4), ("ocy;", 0x43E), ("odash;", 0x229D), ("odblac;", 0x151),
   ("odiv;", 0x2A38), ("odot;", 0x2299), ("odsold;", 0x29BC), ("oelig;", 0x153),
   ("ofcir;", 0x29BF), ("ofr;", 0x1D52C), ("ogon;", 0x2DB), ("ograve", 0xF2), ("ograve;", 0xF2),
   ("ogt;", 0x29C1), ("ohbar;", 0x29B5), ("ohm;", 0x3A9), ("oint;", 0x222E), ("olarr;", 0x21BA),
   ("olcir;", 0x29BE), ("olcross;", 0x29BB), ("oline;", 0x203E), ("olt;", 0x29C0),
   ("omacr;", 0x14D), ("omega;", 0x3C9), ("omicron;", 0x3BF), ("omid;", 0x29B6),
   ("ominus;", 0x2296), ("oopf;", 0x1D560), ("opar;", 0x29B7), ("operp;", 0x29B9),
   ("oplus;", 0x2295), ("or;", 0x2228), ("orarr;", 0x21BB), ("ord;", 0x2A5D), ("order;", 0x2134),
   ("orderof;", 0x2134), ("ordf", 0xAA), ("ordf;", 0xAA), ("ordm", 0xBA), ("ordm;", 0xBA),
   ("origof;", 0x22B6), ("oror;", 0x2A56), ("orslope;", 0x2A57), ("orv;", 0x2A5B),
   ("oscr;", 0x2134), ("oslash", 0xF8), ("oslash;", 0xF8), ("osol;", 0x2298), ("otilde", 0xF5),
   ("otilde;", 0xF5), ("otimes;", 0x2297), ("otimesas;", 0x2A36), ("ouml", 0xF6),
   ("ouml;", 0xF6), ("ovbar;", 0x233D)]

/-- Rows of the table `entity` of Go's html package whose name begins with `p`: the
name, with its final `;` where the table has it, and the code point. -/
def entityRowsLowerP : List (String × Nat) :=
  [("par;", 0x2225), ("para", 0xB6), ("para;", 0xB6), ("parallel;", 0x2225), ("parsim;", 0x2AF3),
   ("parsl;", 0x2AFD), ("part;", 0x2202), ("pcy;", 0x43F), ("percnt;", 0x25), ("period;", 0x2E),
   ("permil;", 0x2030), ("perp;", 0x22A5), ("pertenk;", 0x2031), ("pfr;", 0x1D52D),
   ("phi;", 0x3C6), ("phiv;", 0x3D5), ("phmmat;", 0x2133), ("phone;", 0x260E), ("pi;", 0x3C0),
   ("pitchfork;", 0x22D4), ("piv;", 0x3D6), ("planck;", 0x210F), ("planckh;", 0x210E),
   ("plankv;", 0x210F), ("plus;", 0x2B), ("plusacir;", 0x2A23), ("plusb;", 0x229E),
   ("pluscir;", 0x2A22), ("plusdo;", 0x2214), ("plusdu;", 0x2A25), ("pluse;", 0x2A72),
   ("plusmn", 0xB1), ("plusmn;", 0xB1), ("plussim;", 0x2A26), ("plustwo;", 0x2A27),
   ("pm;", 0xB1), ("pointint;", 0x2A15), ("popf;", 0x1D561), ("pound", 0xA3), ("pound;", 0xA3),
   ("pr;", 0x227A), ("prE;", 0x2AB3), ("prap;", 0x2AB7), ("prcue;", 0x227C), ("pre;", 0x2AAF),
   ("prec;", 0x227A), ("precapprox;", 0x2AB7), ("preccurlyeq;", 0x227C), ("preceq;", 0x2AAF),
   ("precnapprox;", 0x2AB9), ("precneqq;", 0x2AB5), ("precnsim;", 0x22E8), ("precsim;", 0x227E),
   ("prime;", 0x2032), ("primes;", 0x2119), ("prnE;", 0x2AB5), ("prnap;", 0x2AB9),
   ("prnsim;", 0x22E8), ("prod;", 0x220F), ("profalar;", 0x232E), ("profline;", 0x2312),
   ("profsurf;", 0x2313), ("prop;", 0x221D), ("propto;", 0x221D), ("prsim;", 0x227E),
   ("prurel;", 0x22B0), ("pscr;", 0x1D4C5), ("psi;", 0x3C8), ("puncsp;", 0x2008)]

/-- Rows of the table `entity` of Go's html package whose name begins with `q`: the
name, with its final `;` where the table has it, and the code point. -/
def entityRowsLowerQ : List (String × Nat) :=
  [("qfr;", 0x1D52E), ("qint;", 0x2A0C), ("qopf;", 0x1D562), ("qprime;", 0x2057),
   ("qscr;", 0x1D4C6), ("quaternions;", 0x210D), ("quatint;", 0x2A16), ("quest;", 0x3F),
   ("questeq;", 0x225F), ("quot", 0x22), ("quot;", 0x22)]

/-- Rows of the table `entity` of Go's html package whose name begins with `r`: the
name, with its final `;` where the table has it, and the code point. -/
def entityRowsLowerR : List (String × Nat) :=
  [("rAarr;", 0x21DB), ("rArr;", 0x21D2), ("rAtail;", 0x291C), ("rBarr;", 0x290F),
   ("rHar;", 0x2964), ("racute;", 0x155), ("radic;", 0x221A), ("raemptyv;", 0x29B3),
   ("rang;", 0x27E9), ("rangd;", 0x2992), ("range;", 0x29A5), ("rangle;", 0x27E9),
   ("raquo", 0xBB), ("raquo;", 0xBB), ("rarr;", 0x2192), ("rarrap;", 0x2975), ("rarrb;", 0x21E5),
   ("rarrbfs;", 0x2920), ("rarrc;", 0x2933), ("rarrfs;", 0x291E), ("rarrhk;", 0x21AA),
   ("rarrlp;", 0x21AC), ("rarrpl;", 0x2945), ("rarrsim;", 0x2974), ("rarrtl;", 0x21A3),
   ("rarrw;", 0x219D), ("ratail;", 0x291A), ("ratio;", 0x2236), ("rationals;", 0x211A),
   ("rbarr;", 0x290D), ("rbbrk;", 0x2773), ("rbrace;", 0x7D), ("rbrack;", 0x5D),
   ("rbrke;", 0x298C), ("rbrksld;", 0x298E), ("rbrkslu;", 0x2990), ("rcaron;", 0x159),
   ("rcedil;", 0x157), ("rceil;", 0x2309), ("rcub;", 0x7D), ("rcy;", 0x440), ("rdca;", 0x2937),
   ("rdldhar;", 0x2969), ("rdquo;", 0x201D), ("rdquor;", 0x201D), ("rdsh;", 0x21B3),
   ("real;", 0x211C), ("realine;", 0x211B), ("realpart;", 0x211C), ("reals;", 0x211D),
   ("rect;", 0x25AD), ("reg", 0xAE), ("reg;", 0xAE), ("rfisht;", 0x297D), ("rfloor;", 0x230B),
   ("rfr;", 0x1D52F), ("rhard;", 0x21C1), ("rharu;", 0x21C0), ("rharul;", 0x296C),
   ("rho;", 0x3C1), ("rhov;", 0x3F1), ("rightarrow;", 0x2192), ("rightarrowtail;", 0x21A3),
   ("rightharpoondown;", 0x21C1), ("rightharpoonup;", 0x21C0), ("rightleftarrows;", 0x21C4),
   ("rightleftharpoons;", 0x21CC), ("rightrightarrows;", 0x21C9), ("rightsquigarrow;", 0x219D),
   ("rightthreetimes;", 0x22CC), ("ring;", 0x2DA), ("risingdotseq;", 0x2253), ("rlarr;", 0x21C4),
   ("rlhar;", 0x21CC), ("rlm;", 0x200F), ("rmoust;", 0x23B1), ("rmoustache;", 0x23B1),
   ("rnmid;", 0x2AEE), ("roang;", 0x27ED), ("roarr;", 0x21FE), ("robrk;", 0x27E7),
   ("ropar;", 0x2986), ("ropf;", 0x1D563), ("roplus;", 0x2A2E), ("rotimes;", 0x2A35),
   ("rpar;", 0x29), ("rpargt;", 0x2994), ("rppolint;", 0x2A12), ("rrarr;", 0x21C9),
   ("rsaquo;", 0x203A), ("rscr;", 0x1D4C7), ("rsh;", 0x21B1), ("rsqb;", 0x5D),
   ("rsquo;", 0x2019), ("rsquor;", 0x2019), ("rthree;", 0x22CC), ("rtimes;", 0x22CA),
   ("rtri;", 0x25B9), ("rtrie;", 0x22B5), ("rtrif;", 0x25B8), ("rtriltri;", 0x29CE),
   ("ruluhar;", 0x2968), ("rx;", 0x211E)]

/-- Rows of the table `entity` of Go's html package whose name begins with `s`: the
name, with its final `;` where the table has it, and the code point. -/
def entityRowsLowerS : List (String × Nat) :=
  [("sacute;", 0x15B), ("sbquo;", 0x201A), ("sc;", 0x227B), ("scE;", 0x2AB4), ("scap;", 0x2AB8),
   ("scaron;", 0x161), ("sccue;", 0x227D), ("sce;", 0x2AB0), ("scedil;", 0x15F),
   ("scirc;", 0x15D), ("scnE;", 0x2AB6), ("scnap;", 0x2ABA), ("scnsim;", 0x22E9),
   ("scpolint;", 0x2A13), ("scsim;", 0x227F), ("scy;", 0x441), ("sdot;", 0x22C5),
   ("sdotb;", 0x22A1), ("sdote;", 0x2A66), ("seArr;", 0x21D8), ("searhk;", 0x2925),
   ("searr;", 0x2198), ("searrow;", 0x2198), ("sect", 0xA7), ("sect;", 0xA7), ("semi;", 0x3B),
   ("seswar;", 0x2929), ("setminus;", 0x2216), ("setmn;", 0x2216), ("sext;", 0x2736),
   ("sfr;", 0x1D530), ("sfrown;", 0x2322), ("sharp;", 0x266F), ("shchcy;", 0x449),
   ("shcy;", 0x448), ("shortmid;", 0x2223), ("shortparallel;", 0x2225), ("shy", 0xAD),
   ("shy;", 0xAD), ("sigma;", 0x3C3), ("sigmaf;", 0x3C2), ("sigmav;", 0x3C2), ("sim;", 0x223C),
   ("simdot;", 0x2A6A), ("sime;", 0x2243), ("simeq;", 0x2243), ("simg;", 0x2A9E),
   ("simgE;", 0x2AA0), ("siml;", 0x2A9D), ("simlE;", 0x2A9F), ("simne;", 0x2246),
   ("simplus;", 0x2A24), ("simrarr;", 0x2972), ("slarr;", 0x2190), ("smallsetminus;", 0x2216),
   ("smashp;", 0x2A33), ("smeparsl;", 0x29E4), ("smid;", 0x2223), ("smile;", 0x2323),
   ("smt;", 0x2AAA), ("smte;", 0x2AAC), ("softcy;", 0x44C), ("sol;", 0x2F), ("solb;", 0x29C4),
   ("solbar;", 0x233F), ("sopf;", 0x1D564), ("spades;", 0x2660), ("spadesuit;", 0x2660),
   ("spar;", 0x2225), ("sqcap;", 0x2293), ("sqcup;", 0x2294), ("sqsub;", 0x228F),
   ("sqsube;", 0x2291), ("sqsubset;", 0x228F), ("sqsubseteq;", 0x2291), ("sqsup;", 0x2290),
   ("sqsupe;", 0x2292), ("sqsupset;", 0x2290), ("sqsupseteq;", 0x2292), ("squ;", 0x25A1),
   ("square;", 0x25A1), ("squarf;", 0x25AA), ("squf;", 0x25AA), ("srarr;", 0x2192),
   ("sscr;", 0x1D4C8), ("ssetmn;", 0x2216), ("ssmile;", 0x2323), ("sstarf;", 0x22C6),
   ("star;", 0x2606), ("starf;", 0x2605), ("straightepsilon;", 0x3F5), ("straightphi;", 0x3D5),
   ("strns;", 0xAF), ("sub;", 0x2282), ("subE;", 0x2AC5), ("subdot;", 0x2ABD), ("sube;", 0x2286),
   ("subedot;", 0x2AC3), ("submult;", 0x2AC1), ("subnE;", 0x2ACB), ("subne;", 0x228A),
   ("subplus;", 0x2ABF), ("subrarr;", 0x2979), ("subset;", 0x2282), ("subseteq;", 0x2286),
   ("subseteqq;", 0x2AC5), ("subsetneq;", 0x228A), ("subsetneqq;", 0x2ACB), ("subsim;", 0x2AC7),
   ("subsub;", 0x2AD5), ("subsup;", 0x2AD3), ("succ;", 0x227B), ("succapprox;", 0x2AB8),
   ("succcurlyeq;", 0x227D), ("succeq;", 0x2AB0), ("succnapprox;", 0x2ABA),
   ("succneqq;", 0x2AB6), ("succnsim;", 0x22E9), ("succsim;", 0x227F), ("sum;", 0x2211),
   ("sung;", 0x266A), ("sup1", 0xB9), ("sup1;", 0xB9), ("sup2", 0xB2), ("sup2;", 0xB2),
   ("sup3", 0xB3), ("sup3;", 0xB3), ("sup;", 0x2283), ("supE;", 0x2AC6), ("supdot;", 0x2ABE),
   ("supdsub;", 0x2AD8), ("supe;", 0x2287), ("supedot;", 0x2AC4), ("suphsol;", 0x27C9),
   ("suphsub;", 0x2AD7), ("suplarr;", 0x297B), ("supmult;", 0x2AC2), ("supnE;", 0x2ACC),
   ("supne;", 0x228B), ("supplus;", 0x2AC0), ("supset;", 0x2283), ("supseteq;", 0x2287),
   ("supseteqq;", 0x2AC6), ("supsetneq;", 0x228B), ("supsetneqq;", 0x2ACC), ("supsim;", 0x2AC8),
   ("supsub;", 0x2AD4), ("supsup;", 0x2AD6), ("swArr;", 0x21D9), ("swarhk;", 0x2926),
   ("swarr;", 0x2199), ("swarrow;", 0x2199), ("swnwar;", 0x292A), ("szlig", 0xDF),
   ("szlig;", 0xDF)]

/-- Rows of the table `entity` of Go's html package whose name begins with `t`: the
name, with its final `;` where the table has it, and the code point. -/
def entityRowsLowerT : List (String × Nat) :=
  [("target;", 0x2316), ("tau;", 0x3C4), ("tbrk;", 0x23B4), ("tcaron;", 0x165),
   ("tcedil;", 0x163), ("tcy;", 0x442), ("tdot;", 0x20DB), ("telrec;", 0x2315),
   ("tfr;", 0x1D531), ("there4;", 0x2234), ("therefore;", 0x2234), ("theta;", 0x3B8),
   ("thetasym;", 0x3D1), ("thetav;", 0x3D1), ("thickapprox;", 0x2248), ("thicksim;", 0x223C),
   ("thinsp;", 0x2009), ("thkap;", 0x2248), ("thksim;", 0x223C), ("thorn", 0xFE),
   ("thorn;", 0xFE), ("tilde;", 0x2DC), ("times", 0xD7), ("times;", 0xD7), ("timesb;", 0x22A0),
   ("timesbar;", 0x2A31), ("timesd;", 0x2A30), ("tint;", 0x222D), ("toea;", 0x2928),
   ("top;", 0x22A4), ("topbot;", 0x2336), ("topcir;", 0x2AF1), ("topf;", 0x1D565),
   ("topfork;", 0x2ADA), ("tosa;", 0x2929), ("tprime;", 0x2034), ("trade;", 0x2122),
   ("triangle;", 0x25B5), ("triangledown;", 0x25BF), ("triangleleft;", 0x25C3),
   ("trianglelefteq;", 0x22B4), ("triangleq;", 0x225C), ("triangleright;", 0x25B9),
   ("trianglerighteq;", 0x22B5), ("tridot;", 0x25EC), ("trie;", 0x225C), ("triminus;", 0x2A3A),
   ("triplus;", 0x2A39), ("trisb;", 0x29CD), ("tritime;", 0x2A3B), ("trpezium;", 0x23E2),
   ("tscr;", 0x1D4C9), ("tscy;", 0x446), ("tshcy;", 0x45B), ("tstrok;", 0x167),
   ("twixt;", 0x226C), ("twoheadleftarrow;", 0x219E), ("twoheadrightarrow;", 0x21A0)]

/-- Rows of the table `entity` of Go's html package whose name begins with `u`: the
name, with its final `;` where the table has it, and the code point. -/
def entityRowsLowerU : List (String × Nat) :=
  [("uArr;", 0x21D1), ("uHar;", 0x2963), ("uacute", 0xFA), ("uacute;", 0xFA), ("uarr;", 0x2191),
   ("ubrcy;", 0x45E), ("ubreve;", 0x16D), ("ucirc", 0xFB), ("ucirc;", 0xFB), ("ucy;", 0x443),
   ("udarr;", 0x21C5), ("udblac;", 0x171), ("udhar;", 0x296E), ("ufisht;", 0x297E),
   ("ufr;", 0x1D532), ("ugrave", 0xF9), ("ugrave;", 0xF9), ("uharl;", 0x21BF),
   ("uharr;", 0x21BE), ("uhblk;", 0x2580), ("ulcorn;", 0x231C), ("ulcorner;", 0x231C),
   ("ulcrop;", 0x230F), ("ultri;", 0x25F8), ("umacr;", 0x16B), ("uml", 0xA8), ("uml;", 0xA8),
   ("uogon;", 0x173), ("uopf;", 0x1D566), ("uparrow;", 0x2191), ("updownarrow;", 0x2195),
   ("upharpoonleft;", 0x21BF), ("upharpoonright;", 0x21BE), ("uplus;", 0x228E), ("upsi;", 0x3C5),
   ("upsih;", 0x3D2), ("upsilon;", 0x3C5), ("upuparrows;", 0x21C8), ("urcorn;", 0x231D),
   ("urcorner;", 0x231D), ("urcrop;", 0x230E), ("uring;", 0x16F), ("urtri;", 0x25F9),
   ("uscr;", 0x1D4CA), ("utdot;", 0x22F0), ("utilde;", 0x169), ("utri;", 0x25B5),
   ("utrif;", 0x25B4), ("uuarr;", 0x21C8), ("uuml", 0xFC), ("uuml;", 0xFC), ("uwangle;", 0x29A7)]

/-- Rows of the table `entity` of Go's html package whose name begins with `v`: the
name, with its final `;` where the table has it, and the code point. -/
def entityRowsLowerV : List (String × Nat) :=
  [("vArr;", 0x21D5), ("vBar;", 0x2AE8), ("vBarv;", 0x2AE9), ("vDash;", 0x22A8),
   ("vangrt;", 0x299C), ("varepsilon;", 0x3F5), ("varkappa;", 0x3F0), ("varnothing;", 0x2205),
   ("varphi;", 0x3D5), ("varpi;", 0x3D6), ("varpropto;", 0x221D), ("varr;", 0x2195),
   ("varrho;", 0x3F1), ("varsigma;", 0x3C2), ("vartheta;", 0x3D1), ("vartriangleleft;", 0x22B2),
   ("vartriangleright;", 0x22B3), ("vcy;", 0x432), ("vdash;", 0x22A2), ("vee;", 0x2228),
   ("veebar;", 0x22BB), ("veeeq;", 0x225A), ("vellip;", 0x22EE), ("verbar;", 0x7C),
   ("vert;", 0x7C), ("vfr;", 0x1D533), ("vltri;", 0x22B2), ("vopf;", 0x1D567),
   ("vprop;", 0x221D), ("vrtri;", 0x22B3), ("vscr;", 0x1D4CB), ("vzigzag;", 0x299A)]

/-- Rows of the table `entity` of Go's html package whose name begins with `w`: the
name, with its final `;` where the table has it, and the code point. -/
def entityRowsLowerW : List (String × Nat) :=
  [("wcirc;", 0x175), ("wedbar;", 0x2A5F), ("wedge;", 0x2227), ("wedgeq;", 0x2259),
   ("weierp;", 0x2118), ("wfr;", 0x1D534), ("wopf;", 0x1D568), ("wp;", 0x2118), ("wr;", 0x2240),
   ("wreath;", 0x2240), ("wscr;", 0x1D4CC)]

/-- Rows of the table `entity` of Go's html package whose name begins with `x`: the
name, with its final `;` where the table has it, and the code point. -/
def entityRowsLowerX : List (String × Nat) :=
  [("xcap;", 0x22C2), ("xcirc;", 0x25EF), ("xcup;", 0x22C3), ("xdtri;", 0x25BD),
   ("xfr;", 0x1D535), ("xhArr;", 0x27FA), ("xharr;", 0x27F7), ("xi;", 0x3BE), ("xlArr;", 0x27F8),
   ("xlarr;", 0x27F5), ("xmap;", 0x27FC), ("xnis;", 0x22FB), ("xodot;", 0x2A00),
   ("xopf;", 0x1D569), ("xoplus;", 0x2A01), ("xotime;", 0x2A02), ("xrArr;", 0x27F9),
   ("xrarr;", 0x27F6), ("xscr;", 0x1D4CD), ("xsqcup;", 0x2A06), ("xuplus;", 0x2A04),
   ("xutri;", 0x25B3), ("xvee;", 0x22C1), ("xwedge;", 0x22C0)]

/-- Rows of the table `entity` of Go's html package whose name begins with `y`: the
name, with its final `;` where the table has it, and the code point. -/
def entityRowsLowerY : List (String × Nat) :=
  [("yacute", 0xFD), ("yacute;", 0xFD), ("yacy;", 0x44F), ("ycirc;", 0x177), ("ycy;", 0x44B),
   ("yen", 0xA5), ("yen;", 0xA5), ("yfr;", 0x1D536), ("yicy;", 0x457), ("yopf;", 0x1D56A),
   ("yscr;", 0x1D4CE), ("yucy;", 0x44E), ("yuml", 0xFF), ("yuml;", 0xFF)]

/-- Rows of the table `entity` of Go's html package whose name begins with `z`: the
name, with its final `;` where the table has it, and the code point. -/
def entityRowsLowerZ : List (String × Nat) :=
  [("zacute;", 0x17A), ("zcaron;", 0x17E), ("zcy;", 0x437), ("zdot;", 0x17C),
   ("zeetrf;", 0x2128), ("zeta;", 0x3B6), ("zfr;", 0x1D537), ("zhcy;", 0x436),
   ("zigrarr;", 0x21DD), ("zopf;", 0x1D56B), ("zscr;", 0x1D4CF), ("zwj;", 0x200D),
   ("zwnj;", 0x200C)]

/-- Rows of the table `entity` whose name begins with the given character. -/
def entityRows (c : Char) : List (String × Nat) :=
  if c = 'A' then entityRowsUpperA
  else if c = 'B' then entityRowsUpperB
  else if c = 'C' then entityRowsUpperC
  else if c = 'D' then entityRowsUpperD
  else if c = 'E' then entityRowsUpperE
  else if c = 'F' then entityRowsUpperF
  else if c = 'G' then entityRowsUpperG
  else if c = 'H' then entityRowsUpperH
  else if c = 'I' then entityRowsUpperI
  else if c = 'J' then entityRowsUpperJ
  else if c = 'K' then entityRowsUpperK
  else if c = 'L' then entityRowsUpperL
  else if c = 'M' then entityRowsUpperM
  else if c = 'N' then entityRowsUpperN
  else if c = 'O' then entityRowsUpperO
  else if c = 'P' then entityRowsUpperP
  else if c = 'Q' then entityRowsUpperQ
  else if c = 'R' then entityRowsUpperR
  else if c = 'S' then entityRowsUpperS
  else if c = 'T' then entityRowsUpperT
  else if c = 'U' then entityRowsUpperU
  else if c = 'V' then entityRowsUpperV
  else if c = 'W' then entityRowsUpperW
  else if c = 'X' then entityRowsUpperX
  else if c = 'Y' then entityRowsUpperY
  else if c = 'Z' then entityRowsUpperZ
  else if c = 'a' then entityRowsLowerA
  else if c = 'b' then entityRowsLowerB
  else if c = 'c' then entityRowsLowerC
  else if c = 'd' then entityRowsLowerD
  else if c = 'e' then entityRowsLowerE
  else if c = 'f' then entityRowsLowerF
  else if c = 'g' then entityRowsLowerG
  else if c = 'h' then entityRowsLowerH
  else if c = 'i' then entityRowsLowerI
  else if c = 'j' then entityRowsLowerJ
  else if c = 'k' then entityRowsLowerK
  else if c = 'l' then entityRowsLowerL
  else if c = 'm' then entityRowsLowerM
  else if c = 'n' then entityRowsLowerN
  else if c = 'o' then entityRowsLowerO
  else if c = 'p' then entityRowsLowerP
  else if c = 'q' then entityRowsLowerQ
  else if c = 'r' then entityRowsLowerR
  else if c = 's' then entityRowsLowerS
  else if c = 't' then entityRowsLowerT
  else if c = 'u' then entityRowsLowerU
  else if c = 'v' then entityRowsLowerV
  else if c = 'w' then entityRowsLowerW
  else if c = 'x' then entityRowsLowerX
  else if c = 'y' then entityRowsLowerY
  else if c = 'z' then entityRowsLowerZ
  else []

/-- Value stored under a name in the rows of a table, `none` when no row has the
name. -/
def lookupRow {α : Type} (name : List Char) : List (String × α) → Option α
  | [] => none
  | (k, v) :: rows => if k.toList = name then some v else lookupRow name rows

/-- Source: the map `entity` of Go's html package, all its 2138 rows; `none` where
the lookup of the source gives 0. The final `;` is part of the name: `amp` and `amp;`
are two rows. -/
def entity (name : List Char) : Option Char :=
  match name with
  | [] => none
  | c :: _ => (lookupRow name (entityRows c)).map Char.ofNat

/-- Rows of the table `entity2` of Go's html package, the names that stand for two
code points (`nLt;` and `nGt;`, wider than their names, are not in the table of the
source). -/
def entity2Rows : List (String × Nat × Nat) :=
  [("NotEqualTilde;", 0x2242, 0x338), ("NotGreaterFullEqual;", 0x2267, 0x338),
   ("NotGreaterGreater;", 0x226B, 0x338), ("NotGreaterSlantEqual;", 0x2A7E, 0x338),
   ("NotHumpDownHump;", 0x224E, 0x338), ("NotHumpEqual;", 0x224F, 0x338),
   ("NotLeftTriangleBar;", 0x29CF, 0x338), ("NotLessLess;", 0x226A, 0x338),
   ("NotLessSlantEqual;", 0x2A7D, 0x338), ("NotNestedGreaterGreater;", 0x2AA2, 0x338),
   ("NotNestedLessLess;", 0x2AA1, 0x338), ("NotPrecedesEqual;", 0x2AAF, 0x338),
   ("NotRightTriangleBar;", 0x29D0, 0x338), ("NotSquareSubset;", 0x228F, 0x338),
   ("NotSquareSuperset;", 0x2290, 0x338), ("NotSubset;", 0x2282, 0x20D2),
   ("NotSucceedsEqual;", 0x2AB0, 0x338), ("NotSucceedsTilde;", 0x227F, 0x338),
   ("NotSuperset;", 0x2283, 0x20D2), ("ThickSpace;", 0x205F, 0x200A), ("acE;", 0x223E, 0x333),
   ("bne;", 0x3D, 0x20E5), ("bnequiv;", 0x2261, 0x20E5), ("caps;", 0x2229, 0xFE00),
   ("cups;", 0x222A, 0xFE00), ("fjlig;", 0x66, 0x6A), ("gesl;", 0x22DB, 0xFE00),
   ("gvertneqq;", 0x2269, 0xFE00), ("gvnE;", 0x2269, 0xFE00), ("lates;", 0x2AAD, 0xFE00),
   ("lesg;", 0x22DA, 0xFE00), ("lvertneqq;", 0x2268, 0xFE00), ("lvnE;", 0x2268, 0xFE00),
   ("nGg;", 0x22D9, 0x338), ("nGtv;", 0x226B, 0x338), ("nLl;", 0x22D8, 0x338),
   ("nLtv;", 0x226A, 0x338), ("nang;", 0x2220, 0x20D2), ("napE;", 0x2A70, 0x338),
   ("napid;", 0x224B, 0x338), ("nbump;", 0x224E, 0x338), ("nbumpe;", 0x224F, 0x338),
   ("ncongdot;", 0x2A6D, 0x338), ("nedot;", 0x2250, 0x338), ("nesim;", 0x2242, 0x338),
   ("ngE;", 0x2267, 0x338), ("ngeqq;", 0x2267, 0x338), ("ngeqslant;", 0x2A7E, 0x338),
   ("nges;", 0x2A7E, 0x338), ("nlE;", 0x2266, 0x338), ("nleqq;", 0x2266, 0x338),
   ("nleqslant;", 0x2A7D, 0x338), ("nles;", 0x2A7D, 0x338), ("notinE;", 0x22F9, 0x338),
   ("notindot;", 0x22F5, 0x338), ("nparsl;", 0x2AFD, 0x20E5), ("npart;", 0x2202, 0x338),
   ("npre;", 0x2AAF, 0x338), ("npreceq;", 0x2AAF, 0x338), ("nrarrc;", 0x2933, 0x338),
   ("nrarrw;", 0x219D, 0x338), ("nsce;", 0x2AB0, 0x338), ("nsubE;", 0x2AC5, 0x338),
   ("nsubset;", 0x2282, 0x20D2), ("nsubseteqq;", 0x2AC5, 0x338), ("nsucceq;", 0x2AB0, 0x338),
   ("nsupE;", 0x2AC6, 0x338), ("nsupset;", 0x2283, 0x20D2), ("nsupseteqq;", 0x2AC6, 0x338),
   ("nvap;", 0x224D, 0x20D2), ("nvge;", 0x2265, 0x20D2), ("nvgt;", 0x3E, 0x20D2),
   ("nvle;", 0x2264, 0x20D2), ("nvlt;", 0x3C, 0x20D2), ("nvltrie;", 0x22B4, 0x20D2),
   ("nvrtrie;", 0x22B5, 0x20D2), ("nvsim;", 0x223C, 0x20D2), ("race;", 0x223D, 0x331),
   ("smtes;", 0x2AAC, 0xFE00), ("sqcaps;", 0x2293, 0xFE00), ("sqcups;", 0x2294, 0xFE00),
   ("varsubsetneq;", 0x228A, 0xFE00), ("varsubsetneqq;", 0x2ACB, 0xFE00),
   ("varsupsetneq;", 0x228B, 0xFE00), ("varsupsetneqq;", 0x2ACC, 0xFE00),
   ("vnsub;", 0x2282, 0x20D2), ("vnsup;", 0x2283, 0x20D2), ("vsubnE;", 0x2ACB, 0xFE00),
   ("vsubne;", 0x228A, 0xFE00), ("vsupnE;", 0x2ACC, 0xFE00), ("vsupne;", 0x228B, 0xFE00)]

/-- Source: the map `entity2` of Go's html package; `none` where the lookup of the
source gives a zero pair. -/
def entity2 (name : List Char) : Option (Char × Char) :=
  (lookupRow name entity2Rows).map fun p => (Char.ofNat p.1, Char.ofNat p.2)

/-- Source: `longestEntityWithoutSemicolon` of Go's html package. -/
def longestEntityWithoutSemicolon : Nat := 6

/-- Letters and digits, the characters of an entity name. -/
def isAlnum (c : Char) : Bool :=
  ('a' ≤ c ∧ c ≤ 'z') ∨ ('A' ≤ c ∧ c ≤ 'Z') ∨ ('0' ≤ c ∧ c ≤ '9')

/-- Longest run of letters and digits at the head of the text, with the `;` that
follows it when there is one. -/
def entityName (rest : List Char) : List Char :=
  match rest.dropWhile isAlnum with
  | ';' :: _ => rest.takeWhile isAlnum ++ [';']
  | _ => rest.takeWhile isAlnum

/-- Search of the longest known prefix of an entity name written without `;`
(lengths `j`, `j - 1`, ..., 2). -/
def entityPrefix (name : List Char) : Nat → Option (Char × Nat)
  | 0 => none
  | j + 1 =>
    if j + 1 > 1 then
      match entity (name.take (j + 1)) with
      | some x => some (x, j + 1)
      | none => entityPrefix name j
    else none

/-- Model of `unescapeEntity` (attribute = false) on the text after a `&`: the
characters written and the number of characters read, the `&` included. -/
def unescapeEntity (rest : List Char) : List Char × Nat :=
  if byteLen ('&' :: rest) ≤ 1 then (['&'], 1)
  else
    match rest with
    | '#' :: num =>
      if byteLen ('&' :: rest) ≤ 3 then (['&'], 1)
      else
        let hex : Bool := match num with
          | c :: _ => c = 'x' ∨ c = 'X'
          | [] => false
        let digits := if hex then num.drop 1 else num
        let (x, i) := readDigits hex digits 0 (if hex then 3 else 2)
        if i ≤ 3 then (['&'], 1)
        else ([numericChar x], i)
    | _ =>
      let name := entityName rest
      if name.length = 0 then (['&'], 1)
      else
        match entity name with
        | some x => ([x], 1 + name.length)
        | none =>
          match entity2 name with
          | some (x, y) => ([x, y], 1 + name.length)
          | none =>
            match entityPrefix name
              (min (name.length - 1) longestEntityWithoutSemicolon) with
            | some (x, j) => ([x], j + 1)
            | none => ('&' :: name, 1 + name.length)

/-- Copy loop of `UnescapeString`: `skip` counts the characters of the current
reference still to be passed over. -/
def unescapeAux : List Char → Nat → List Char
  | [], _ => []
  | _ :: cs, n + 1 => unescapeAux cs n
  | c :: cs, 0 =>
    if c = '&' then (unescapeEntity cs).1 ++ unescapeAux cs ((unescapeEntity cs).2 - 1)
    else c :: unescapeAux cs 0

/-- Model of `html.UnescapeString`. -/
def UnescapeString (s : List Char) : List Char :=
  if s.contains '&' then unescapeAux s 0 else s

/-! ## htmlToMarkdown -/

/-- Callback of the image pass: `fmt.Sprintf("![IMG](%s)", submatch[0])`. -/
def imgCallback (_ : Unit) (_found : List Char) (submatch : List (List Char)) :
    Option (Unit × List Char) :=
  match submatch[0]? with
  | none => none
  | some url => some ((), "![IMG](".toList ++ url ++ ")".toList)

/-- Callback of the link pass:
`fmt.Sprintf("[%s](%s)", submatch[1], submatch[0])`. -/
def linkCallback (_ : Unit) (_found : List Char) (submatch : List (List Char)) :
    Option (Unit × List Char) :=
  match submatch[1]?, submatch[0]? with
  | some label, some url => some ((), "[".toList ++ label ++ "](".toList ++ url ++ ")".toList)
  | _, _ => none

/-- Callback of the opening-tag pass; the state is the variable `index` (a Go `int`
that only takes the values 0, 1 and 1 plus the number of `li` tags seen, modelled
as a natural number). The text written for `li` in unordered mode is the literal
of the source: the three characters U+00E2, U+20AC, U+00A2 and a space. -/
def tagStartCallback (index : Nat) (_found : List Char) (submatch : List (List Char)) :
    Option (Nat × List Char) :=
  match submatch[0]? with
  | none => none
  | some tag =>
    if tag = "i".toList then some (index, "*".toList)
    else if tag = "b".toList ∨ tag = "strong".toList then some (index, "**".toList)
    else if tag = "pre".toList then some (index, "`".toList)
    else if tag = "code".toList then some (index, "```".toList)
    else if tag = "ol".toList then some (1, [])
    else if tag = "ul".toList then some (0, [])
    else if tag = "br".toList then some (index, "\n".toList)
    else if tag = "li".toList then
      if index = 0 then some (index, "â€¢ ".toList)
      else some (index + 1, (Nat.repr (index + 1 - 1)).toList ++ ". ".toList)
    else some (index, [])

/-- Callback of the closing-tag pass. -/
def tagEndCallback (_ : Unit) (_found : List Char) (submatch : List (List Char)) :
    Option (Unit × List Char) :=
  match submatch[0]? with
  | none => none
  | some tag =>
    if tag = "i".toList then some ((), "*".toList)
    else if tag = "b".toList ∨ tag = "strong".toList then some ((), "**".toList)
    else if tag = "pre".toList then some ((), "`".toList)
    else if tag = "code".toList then some ((), "```".toList)
    else some ((), [])

/-- Model of `htmlToMarkdown(text string) string`; `none` stands for a run-time
panic (an index out of range in a callback). -/
def htmlToMarkdown (text : List Char) : Option (List Char) :=
  (if Contains text "<img".toList then Replace htmlImgTagRegex imgCallback text ()
    else some text).bind fun text =>
  (if Contains text "<a ".toList then Replace htmlLinkTagRegex linkCallback text ()
    else some text).bind fun text =>
  (Replace htmlTagStartRegex tagStartCallback text 0).bind fun text =>
  (Replace htmlTagEndRegex tagEndCallback text ()).bind fun text =>
  some (UnescapeString text)

/-! ### Auxiliary notions for the proofs -/

/-- Continuations that keep the number of capture slots. -/
def KeepsCaps (k : Cont) : Prop :=
  ∀ s c r, k s c = some r → r.2.length = c.length

/-- A callback that answers on every submatch list of the length the pattern
produces. -/
def AnswersOn {σ : Type} (n : Nat)
    (f : σ → List Char → List (List Char) → Option (σ × List Char)) : Prop :=
  ∀ st found sub, sub.length = n → ∃ r, f st found sub = some r

/-- Result of a scan as a plain text (the scan never fails for the callbacks of this
file, see `replaceAux_eq_scan`). -/
def scan {σ : Type} (re : Regex)
    (f : σ → List Char → List (List Char) → Option (σ × List Char))
    (s : List Char) (n : Nat) (st : σ) : List Char :=
  (replaceAux re f s n st).getD []

/-- Patterns that can only match at a `<`. -/
def NoMatchOffLt (re : Regex) : Prop :=
  ∀ c cs, c ≠ '<' → matchAt re (c :: cs) = none

/-- Image pass, as a text. -/
def imgPass (s : List Char) : List Char := scan htmlImgTagRegex imgCallback s 0 ()

/-- Link pass, as a text. -/
def linkPass (s : List Char) : List Char := scan htmlLinkTagRegex linkCallback s 0 ()

/-- Opening-tag pass started with the given value of `index`, as a text. -/
def startPass (index : Nat) (s : List Char) : List Char :=
  scan htmlTagStartRegex tagStartCallback s 0 index

/-- Closing-tag pass, as a text. -/
def endPass (s : List Char) : List Char := scan htmlTagEndRegex tagEndCallback s 0 ()

/-- Text without the newline it starts with, if any. -/
def dropNL : List Char → List Char
  | [] => []
  | c :: cs => if c = '\n' then cs else c :: cs

/-- What the group `($|\n)?` captures in front of the given text. -/
def nlCap : List Char → Option (List Char)
  | [] => some []
  | c :: _ => if c = '\n' then some ['\n'] else none

/-- The newline the opening-tag pattern takes in front of the given text. -/
def nlPart : List Char → List Char
  | [] => []
  | c :: _ => if c = '\n' then ['\n'] else []

/-- Tag names of the opening-tag pattern. -/
def startNames : List (List Char) :=
  ["strong".toList, "pre".toList, "code".toList, "ol".toList, "ul".toList, "li".toList,
   "br".toList, "i".toList, "b".toList, "p".toList]

/-- Tag names of the closing-tag pattern. -/
def endNames : List (List Char) :=
  ["strong".toList, "pre".toList, "code".toList, "ol".toList, "ul".toList, "li".toList,
   "i".toList, "b".toList, "p".toList]

/-- New value of `index` and text written by the opening-tag callback for a tag. -/
def startOut (index : Nat) (tag : List Char) : Nat × List Char :=
  (tagStartCallback index [] [tag, []]).getD (index, [])

/-- Text written by the closing-tag callback for a tag. -/
def endOut (tag : List Char) : List Char :=
  ((tagEndCallback () [] [tag]).getD ((), [])).2

/-- Inline tags whose closing tag writes the same marker as the opening tag. -/
def wrapNames : List (List Char) :=
  ["i".toList, "b".toList, "strong".toList, "pre".toList, "code".toList, "p".toList]

/-- A stretch of source text seen through the opening-tag and closing-tag passes:
`mid i` is what the opening-tag pass writes for it when `index = i` on entry,
`next i` the value of `index` on exit, `out i` what the closing-tag pass makes of
`mid i`. The stretch holds no `<img` and no `<a `, writes no `&`, and does not begin
with a newline. -/
def Seg (src : List Char) (mid out : Nat → List Char) (next : Nat → Nat) : Prop :=
  (∀ i rest, rest.head? ≠ some '\n' →
      startPass i (src ++ rest) = mid i ++ startPass (next i) rest)
  ∧ (∀ i rest, endPass (mid i ++ rest) = out i ++ endPass rest)
  ∧ (∀ rest, Contains (src ++ rest) "<img".toList = Contains rest "<img".toList)
  ∧ (∀ rest, Contains (src ++ rest) "<a ".toList = Contains rest "<a ".toList)
  ∧ (∀ i, '&' ∉ out i)
  ∧ src.head? ≠ some '\n'

/-- Characters that are neither `<` nor `&`. -/
abbrev Harmless (c : Char) : Prop := c ≠ '<' ∧ c ≠ '&'

/-- Names of the inline tags of an item body. -/
def inlineNames : List (List Char) :=
  ["i".toList, "b".toList, "strong".toList, "pre".toList, "code".toList]

/-- Item bodies: texts whose every `<` opens one of the tags `<i>`, `<b>`, `<strong>`,
`<pre>`, `<code>` or one of their closing tags. -/
inductive InlineBody : List Char → Prop where
  | nil : InlineBody []
  | char (c : Char) (t : List Char) : c ≠ '<' → InlineBody t → InlineBody (c :: t)
  | openTag (name t : List Char) : name ∈ inlineNames → InlineBody t →
      InlineBody ('<' :: (name ++ '>' :: t))
  | closeTag (name t : List Char) : name ∈ inlineNames → InlineBody t →
      InlineBody ('<' :: '/' :: (name ++ '>' :: t))

/-- The opening-tag pass turns `t` into `m` and leaves `index` as it is, and the
closing-tag pass turns `m` into `o`; `t` holds no `<img` and no `<a ` and `o` no `&`. -/
def BodyOut (t m o : List Char) : Prop :=
  (∀ i rest, rest.head? ≠ some '\n' → startPass i (t ++ rest) = m ++ startPass i rest)
  ∧ (∀ rest, endPass (m ++ rest) = o ++ endPass rest)
  ∧ (∀ rest, Contains (t ++ rest) "<img".toList = Contains rest "<img".toList)
  ∧ (∀ rest, Contains (t ++ rest) "<a ".toList = Contains rest "<a ".toList)
  ∧ '&' ∉ o

/-- A stretch of source text that `htmlToMarkdown` renders as `out i` when `index = i`
on entry, leaving `index = next i`. -/
def Renders (src : List Char) (out : Nat → List Char) (next : Nat → Nat) : Prop :=
  ∃ mid, Seg src mid out next

/-- Source of the items of a list: `<li>`, the body, `</li>` for each body in order. -/
def itemsSrc : List (List Char) → List Char
  | [] => []
  | t :: ts => "<li>".toList ++ t ++ "</li>".toList ++ itemsSrc ts

/-- Source of an ordered list. -/
def olSrc (bodies : List (List Char)) : List Char :=
  "<ol>".toList ++ itemsSrc bodies ++ "</ol>".toList

/-- Source of an unordered list. -/
def ulSrc (bodies : List (List Char)) : List Char :=
  "<ul>".toList ++ itemsSrc bodies ++ "</ul>".toList

/-- Items numbered `k`, `k + 1`, ...: the decimal of the number, `. `, the item. -/
def numbered (k : Nat) : List (List Char) → List Char
  | [] => []
  | r :: rs => (Nat.repr k).toList ++ ". ".toList ++ r ++ numbered (k + 1) rs

/-- Items each preceded by the bullet marker, U+2022 and a space. -/
def bulleted : List (List Char) → List Char
  | [] => []
  | r :: rs => [Char.ofNat 0x2022, ' '] ++ r ++ bulleted rs

/-- Text the code writes for `<li>` in unordered mode: U+00E2, U+20AC, U+00A2 and a
space. -/
def liMarker : List Char := [Char.ofNat 0xE2, Char.ofNat 0x20AC, Char.ofNat 0xA2, ' ']

/-- Items each preceded by `liMarker`. -/
def marked : List (List Char) → List Char
  | [] => []
  | r :: rs => liMarker ++ r ++ marked rs

/-- Items as the passes write them when `index = i` at the first `<li>`. -/
def itemsOut : Nat → List (List Char) → List Char
  | _, [] => []
  | i, r :: rs => (startOut i "li".toList).2 ++ r ++ itemsOut (startOut i "li".toList).1 rs

/-- Value of `index` after `n` items. -/
def itemsNext : Nat → Nat → Nat
  | i, 0 => i
  | i, n + 1 => itemsNext (startOut i "li".toList).1 n

/-- An item body `t` that the passes render as `r`, wherever it stands. -/
def BodyRenders (t r : List Char) : Prop :=
  (∃ m, BodyOut t m r) ∧ t.head? ≠ some '\n'

/-! ## Records and accessors -/

/-- Model of `time.Time`: an instant, as seconds since the Unix epoch and nanoseconds
within the second; the location plays no part in the functions modelled here. -/
structure Time where
  unix : Int
  nsec : Nat
  deriving DecidableEq, Repr

/-- The zero value `time.Time{}`: 1 January of year 1, 00:00:00 UTC. -/
def Time.zero : Time := ⟨-62135596800, 0⟩

/-- Model of `Time.IsZero`. -/
def Time.IsZero (t : Time) : Bool := decide (t = Time.zero)

/-- Largest `time.Duration` (int64 nanoseconds). -/
def maxDuration : Int := 9223372036854775807

/-- Smallest `time.Duration`. -/
def minDuration : Int := -9223372036854775808

/-- Model of `Time.Sub`: the difference in nanoseconds, held at the largest or
smallest duration when it does not fit. -/
def Time.Sub (t u : Time) : Int :=
  let d := (t.unix - u.unix) * 1000000000 + ((t.nsec : Int) - (u.nsec : Int))
  if d > maxDuration then maxDuration
  else if d < minDuration then minDuration
  else d

/-- Source: `type Date struct { time.Time }`. -/
structure Date where
  Time : Time
  deriving DecidableEq, Repr

/-- Source: `Zone`, with the fields the accessors read (the dates and the pointer
back to the region are left out). -/
structure Zone where
  InstallationID : Nat
  ID : String
  deriving DecidableEq, Repr

/-- Source: `Region`; a pointer is an `Option`, `none` for nil. -/
structure Region where
  Code : String
  Zones : List (Option Zone)
  deriving DecidableEq, Repr

/-- Source: `Service`, with the fields the accessors read. -/
structure Service where
  Name : String
  InstallationCode : String
  ID : Nat
  deriving DecidableEq, Repr

/-- Source: `Comment` (the dates are left out; `Kind` is the field `Type`). -/
structure Comment where
  ID : Nat
  IncidentID : Nat
  Content : String
  Kind : String
  deriving DecidableEq, Repr

/-- Source: `Incident`, with the fields the accessors read; a slice is a list (the
nil slice is the empty list) and its entries are pointers. -/
structure Incident where
  ID : Nat
  Title : String
  Report : String
  Status : String
  StartDate : Date
  EndDate : Date
  Zones : List (Option Zone)
  Regions : List (Option Region)
  Services : List (Option Service)
  Comments : List (Option Comment)
  deriving DecidableEq, Repr

/-- Source: `STATUS_OPEN`. -/
def STATUS_OPEN : String := "open"

/-- Source: `STATUS_RESOLVED`. -/
def STATUS_RESOLVED : String := "resolved"

/-- Source: `LANG_RU`. -/
def LANG_RU : String := "ru"

/-- Go index expression `c[i]`: `none` stands for the run-time panic of an index out
of range. -/
def sliceIndex {α : Type} (c : List α) (i : Int) : Option α :=
  if 0 ≤ i then c.get? i.toNat else none

/-- Model of `Incidents.HasOpen`; `none` stands for the panic of reading `Status`
through a nil entry. -/
def HasOpen : List (Option Incident) → Option Bool
  | [] => some false
  | none :: _ => none
  | some ii :: rest => if ii.Status = STATUS_OPEN then some true else HasOpen rest

/-- Model of `(*Incident).IsResolved`. -/
def IsResolved (i : Option Incident) : Bool :=
  match i with
  | none => false
  | some i => i.Status = STATUS_RESOLVED

/-- Model of `(*Incident).Duration`, in nanoseconds. -/
def Duration (i : Option Incident) : Int :=
  match i with
  | none => 0
  | some i => if i.EndDate.Time.IsZero then 0 else i.EndDate.Time.Sub i.StartDate.Time

/-- Model of `(*Incident).URL`. -/
def URL (i : Option Incident) (lang : String) : String :=
  match i with
  | none => ""
  | some i =>
    if i.ID = 0 then ""
    else "https://status.yandex.cloud/" ++ lang ++ "/incidents/" ++ Nat.repr i.ID

/-- Model of `(*Incident).ReportMarkdown`. -/
def ReportMarkdown (i : Option Incident) : Option (List Char) :=
  match i with
  | none => some []
  | some i => htmlToMarkdown i.Report.toList

/-- Loop `for _, r := range l { result = append(result, f(r)) }` over pointers:
`none` stands for the panic of reading a field through a nil entry. -/
def collect {α β : Type} (f : α → β) : List (Option α) → Option (List β)
  | [] => some []
  | none :: _ => none
  | some a :: rest => (collect f rest).map (f a :: ·)

/-- Model of `(*Incident).RegionList`. -/
def RegionList (i : Option Incident) : Option (List String) :=
  match i with
  | none => some []
  | some i => if i.Regions.length = 0 then some [] else collect (fun r => r.Code) i.Regions

/-- Loop of `ZoneList` over the regions and, inside, over the zones of each. -/
def collectZones : List (Option Region) → Option (List String)
  | [] => some []
  | none :: _ => none
  | some r :: rest =>
    match collect (fun z => z.ID) r.Zones with
    | none => none
    | some ids => (collectZones rest).map (ids ++ ·)

/-- Model of `(*Incident).ZoneList`. -/
def ZoneList (i : Option Incident) : Option (List String) :=
  match i with
  | none => some []
  | some i => if i.Regions.length = 0 then some [] else collectZones i.Regions

/-- Model of `(*Incident).ServiceList`. -/
def ServiceList (i : Option Incident) : Option (List String) :=
  match i with
  | none => some []
  | some i => if i.Services.length = 0 then some [] else collect (fun s => s.Name) i.Services

/-- Model of `Comments.Get`: the inner `none` is the nil pointer, the outer `none` the
panic of the index expression. -/
def Get (c : List (Option Comment)) (index : Int) : Option (Option Comment) :=
  if c.length = 0 ∨ index ≥ (c.length : Int) then some none
  else sliceIndex c index

/-- Model of `(*Comment).Markdown`. -/
def Markdown (c : Option Comment) : Option (List Char) :=
  match c with
  | none => some []
  | some c => if c.Content = "" then some [] else htmlToMarkdown c.Content.toList

/-! ## The query of GetIncidents -/

/-- Value of a query parameter (`req.Query` is `map[string]any`): the request builder
stores strings and one slice of strings. -/
inductive QueryValue where
  | str (s : String)
  | strs (l : List String)
  deriving DecidableEq, Repr

/-- Model of `req.Query`, a map from keys to values: the value stored under a key,
`none` for a key that is absent. -/
abbrev Query := String → Option QueryValue

/-- The empty map. -/
def Query.empty : Query := fun _ => none

/-- Map assignment `q[k] = v`. -/
def Query.set (q : Query) (k : String) (v : QueryValue) : Query :=
  fun k' => if k' = k then some v else q k'

/-- Model of `strutil.Q` of the ek library: the first non-empty string of its
arguments, the empty string when there is none. -/
def Q : List String → String
  | [] => ""
  | v :: vs => if v ≠ "" then v else Q vs

/-- Source: `IncidentsRequest`. -/
structure IncidentsRequest where
  Lang : String
  From : Time
  To : Time
  Status : String
  Region : String
  Zones : List String
  deriving DecidableEq, Repr

/-- Model of `convertIncidentsRequest`; `format` stands for `timeutil.Format` of the ek
library, which is called with the layout `%Y-%m-%d`. -/
def convertIncidentsRequest (format : Time → String → String) (r : IncidentsRequest) : Query :=
  let q : Query := (Query.empty.set "lang" (QueryValue.str (Q [r.Lang, LANG_RU]))).set
    "installation" (QueryValue.str (Q [r.Region, "all"]))
  let q := if !r.From.IsZero then q.set "from" (QueryValue.str (format r.From "%Y-%m-%d")) else q
  let q := if !r.To.IsZero then q.set "to" (QueryValue.str (format r.To "%Y-%m-%d")) else q
  let q := if r.Status ≠ "" then q.set "status" (QueryValue.str r.Status) else q
  let q := if r.Zones.length > 0 then q.set "zones[]" (QueryValue.strs r.Zones) else q
  q

/-! ## Date.UnmarshalJSON -/

/-- Source: `isDigit` of Go's time package, on one character. -/
def isDigit (c : Char) : Bool := decide ('0' ≤ c ∧ c ≤ '9')

/-- Value of a decimal digit. -/
def digitOf (c : Char) : Nat := c.toNat - 48

/-- Model of `getnum` of Go's time package: a number of two digits, or of one digit
when `fixed` is false and no second digit follows; `none` is its error. -/
def getnum (s : List Char) (fixed : Bool) : Option (Nat × List Char) :=
  match s with
  | [] => none
  | a :: rest =>
    if isDigit a = false then none
    else
      match rest with
      | [] => if fixed then none else some (digitOf a, rest)
      | b :: rest' =>
        if isDigit b then some (digitOf a * 10 + digitOf b, rest')
        else if fixed then none else some (digitOf a, rest)

/-- Layout element `2006` of `time.Parse`: four digits. -/
def parseYear (s : List Char) : Option (Nat × List Char) :=
  match s with
  | a :: b :: c :: d :: rest =>
    if isDigit a ∧ isDigit b ∧ isDigit c ∧ isDigit d then
      some (digitOf a * 1000 + digitOf b * 100 + digitOf c * 10 + digitOf d, rest)
    else none
  | _ => none

/-- Source: `commaOrPeriod` of Go's time package. -/
def commaOrPeriod (c : Char) : Bool := decide (c = '.' ∨ c = ',')

/-- Number written by a list of digits. -/
def digitsToNat (ds : List Char) : Nat :=
  ds.foldl (fun n c => n * 10 + digitOf c) 0

/-- Model of `parseNanoseconds`: the first nine digits of the fraction, scaled to
nanoseconds. -/
def nanosOf (ds : List Char) : Nat :=
  digitsToNat (ds.take 9) * 10 ^ (9 - (ds.take 9).length)

/-- The fractional second `time.Parse` accepts after the seconds although the layout
has none: a comma or a period and the longest run of digits; without it nothing is
read and the nanoseconds are 0. -/
def parseFrac (s : List Char) : Nat × List Char :=
  match s with
  | sep :: d :: rest =>
    if commaOrPeriod sep ∧ isDigit d then
      (nanosOf ((d :: rest).takeWhile isDigit), (d :: rest).dropWhile isDigit)
    else (0, s)
  | _ => (0, s)

/-- Source: `isLeap` of Go's time package. -/
def isLeap (year : Nat) : Bool :=
  decide (year % 4 = 0 ∧ (year % 100 ≠ 0 ∨ year % 400 = 0))

/-- Source: `daysIn` of Go's time package. -/
def daysIn (month year : Nat) : Nat :=
  if month = 2 then (if isLeap year then 29 else 28)
  else if month = 4 ∨ month = 6 ∨ month = 9 ∨ month = 11 then 30
  else 31

/-- Days from 1 January 1970 to the given day of the proleptic Gregorian calendar. -/
def daysFromCivil (year month day : Nat) : Int :=
  let y : Int := if month ≤ 2 then (year : Int) - 1 else year
  let era : Int := y / 400
  let yoe : Int := y - era * 400
  let mp : Int := if month > 2 then (month : Int) - 3 else (month : Int) + 9
  let doy : Int := (153 * mp + 2) / 5 + (day : Int) - 1
  let doe : Int := yoe * 365 + yoe / 4 - yoe / 100 + doy
  era * 146097 + doe - 719468

/-- Model of `time.Date(year, month, day, hour, min, sec, nsec, time.UTC)` for fields
in range. -/
def dateUTC (year month day hour min sec nsec : Nat) : Time :=
  ⟨daysFromCivil year month day * 86400 + (hour : Int) * 3600 + (min : Int) * 60 + (sec : Int),
   nsec⟩

/-- Date part of `time.Parse` with the layout of `Date.UnmarshalJSON`,
`2006-01-02T`: year, month and day with their literal separators; the month is
checked against its range as it is read. `none` is the error. -/
def parseDate (v : List Char) : Option ((Nat × Nat × Nat) × List Char) :=
  (parseYear v).bind fun (year, v) =>
  (stripPrefix ['-'] v).bind fun v =>
  (getnum v true).bind fun (month, v) =>
  if month = 0 ∨ 12 < month then none else
  (stripPrefix ['-'] v).bind fun v =>
  (getnum v true).bind fun (day, v) =>
  (stripPrefix ['T'] v).bind fun v =>
  some ((year, month, day), v)

/-- Clock part of `time.Parse` with the layout of `Date.UnmarshalJSON`, `15:04:05Z`
and the closing quote: an hour of one or two digits, minute and second of two
digits, each checked against its range as it is read, and the fractional second
that may follow the seconds. `none` is the error. -/
def parseClock (v : List Char) : Option ((Nat × Nat × Nat × Nat) × List Char) :=
  (getnum v false).bind fun (hour, v) =>
  if 24 ≤ hour then none else
  (stripPrefix [':'] v).bind fun v =>
  (getnum v true).bind fun (min, v) =>
  if 60 ≤ min then none else
  (stripPrefix [':'] v).bind fun v =>
  (getnum v true).bind fun (sec, v) =>
  if 60 ≤ sec then none else
  (stripPrefix ['Z', '"'] (parseFrac v).2).bind fun rest =>
  some ((hour, min, sec, (parseFrac v).1), rest)

/-- Model of `time.Parse` with the layout of `Date.UnmarshalJSON`, the quoted
`2006-01-02T15:04:05Z`: the opening quote, the date part, the clock part; nothing may
follow the closing quote, and the day is checked against the length of its month
once the whole text is read. `none` is the error. -/
def parseTime (value : List Char) : Option Time :=
  (stripPrefix ['"'] value).bind fun v =>
  (parseDate v).bind fun (ymd, v) =>
  (parseClock v).bind fun (hmsn, rest) =>
  if rest ≠ [] then none else
  if ymd.2.2 < 1 ∨ daysIn ymd.2.1 ymd.1 < ymd.2.2 then none else
  some (dateUTC ymd.1 ymd.2.1 ymd.2.2 hmsn.1 hmsn.2.1 hmsn.2.2.1 hmsn.2.2.2)

/-- Model of `(*Date).UnmarshalJSON`: the new value of the date and whether an error
is returned. -/
def UnmarshalJSON (d : Date) (b : List Char) : Date × Bool :=
  if b = "null".toList ∨ b = "\"\"".toList then (⟨Time.zero⟩, false)
  else
    match parseTime b with
    | none => (d, true)
    | some date => (⟨date⟩, false)

/-- The shape of a fractional second: nothing, or a comma or period followed by at
least one digit and only digits. -/
def fracShape (frac : List Char) : Bool :=
  match frac with
  | [] => true
  | sep :: ds => commaOrPeriod sep && !ds.isEmpty && ds.all isDigit

/-- Nanoseconds written by a fractional second. -/
def fracNanos (frac : List Char) : Nat :=
  match frac with
  | [] => 0
  | _ :: ds => nanosOf ds

/-- The characters of a timestamp that `time.Parse` can accept with the layout of
`Date.UnmarshalJSON`: the digits of year, month and day, the digits of the hour (one
or two), the digits of minute and second, and the fractional second (empty, or a
comma or period followed by digits). -/
structure Stamp where
  y1 : Char
  y2 : Char
  y3 : Char
  y4 : Char
  mo1 : Char
  mo2 : Char
  d1 : Char
  d2 : Char
  hour : List Char
  mi1 : Char
  mi2 : Char
  s1 : Char
  s2 : Char
  frac : List Char

/-- Text of a timestamp, with its double quotes. -/
def Stamp.text (f : Stamp) : List Char :=
  '"' :: f.y1 :: f.y2 :: f.y3 :: f.y4 :: '-' :: f.mo1 :: f.mo2 :: '-' :: f.d1 :: f.d2 :: 'T' ::
    (f.hour ++ ':' :: f.mi1 :: f.mi2 :: ':' :: f.s1 :: f.s2 :: (f.frac ++ ['Z', '"']))

/-- Year of a timestamp. -/
def Stamp.year (f : Stamp) : Nat :=
  digitOf f.y1 * 1000 + digitOf f.y2 * 100 + digitOf f.y3 * 10 + digitOf f.y4

/-- Month of a timestamp. -/
def Stamp.month (f : Stamp) : Nat := digitOf f.mo1 * 10 + digitOf f.mo2

/-- Day of a timestamp. -/
def Stamp.day (f : Stamp) : Nat := digitOf f.d1 * 10 + digitOf f.d2

/-- Hour of a timestamp. -/
def Stamp.hourNum (f : Stamp) : Nat := digitsToNat f.hour

/-- Minute of a timestamp. -/
def Stamp.minute (f : Stamp) : Nat := digitOf f.mi1 * 10 + digitOf f.mi2

/-- Second of a timestamp. -/
def Stamp.second (f : Stamp) : Nat := digitOf f.s1 * 10 + digitOf f.s2

/-- Nanoseconds of a timestamp. -/
def Stamp.nanos (f : Stamp) : Nat := fracNanos f.frac

/-- The shape of a timestamp: digits where digits belong, an hour of one or two
digits, a fraction that is empty or a comma or period followed by at least one
digit. -/
def Stamp.wellFormed (f : Stamp) : Bool :=
  isDigit f.y1 && isDigit f.y2 && isDigit f.y3 && isDigit f.y4
  && isDigit f.mo1 && isDigit f.mo2 && isDigit f.d1 && isDigit f.d2
  && (f.hour.length == 1 || f.hour.length == 2) && f.hour.all isDigit
  && isDigit f.mi1 && isDigit f.mi2 && isDigit f.s1 && isDigit f.s2
  && fracShape f.frac

/-- The fields of a timestamp are in range: month 1..12, day 1..the days of the month,
hour below 24, minute and second below 60. -/
def Stamp.inRange (f : Stamp) : Bool :=
  decide (1 ≤ f.month ∧ f.month ≤ 12 ∧ 1 ≤ f.day ∧ f.day ≤ daysIn f.month f.year
    ∧ f.hourNum < 24 ∧ f.minute < 60 ∧ f.second < 60)

/-- The instant a timestamp denotes, in UTC. -/
def Stamp.instant (f : Stamp) : Time :=
  dateUTC f.year f.month f.day f.hourNum f.minute f.second f.nanos

/-- The form `YYYY-MM-DDTHH:MM:SSZ`: a two-digit hour and no fraction. -/
def Stamp.strict (f : Stamp) : Bool :=
  f.hour.length == 2 && f.frac.isEmpty

/-! ## Incident.ZoneList (C21) -/

/-- No nil pointer among the regions and among the zones of each region. -/
def noNilRegions (rs : List (Option Region)) : Bool :=
  rs.all fun r =>
    match r with
    | none => false
    | some r => r.Zones.all Option.isSome

/-- IDs of the zones of a list of zones, in order. -/
def zoneIDs : List (Option Zone) → List String
  | [] => []
  | none :: zs => zoneIDs zs
  | some z :: zs => z.ID :: zoneIDs zs

/-- In-order concatenation of the IDs of the zones nested under each region. -/
def nestedZoneIDs : List (Option Region) → List String
  | [] => []
  | none :: rs => nestedZoneIDs rs
  | some r :: rs => zoneIDs r.Zones ++ nestedZoneIDs rs

/-- Sum of the lengths of the zone lists of the regions. -/
def zoneCount : List (Option Region) → Nat
  | [] => 0
  | none :: rs => zoneCount rs
  | some r :: rs => r.Zones.length + zoneCount rs

/-! ## The list mode across nested and closed lists (C22) -/

/-- Source of an ordered list with a nested unordered list: the items `xs`, then an
item made of the text `t`, the unordered list of the items `us` and the text `t2`,
then the items `ys`. -/
def nestedSrc (xs : List (List Char)) (t : List Char) (us : List (List Char))
    (t2 : List Char) (ys : List (List Char)) : List Char :=
  "<ol>".toList ++ itemsSrc xs ++ ("<li>".toList ++ t ++ ulSrc us ++ t2 ++ "</li>".toList)
    ++ itemsSrc ys ++ "</ol>".toList

/-! # Theorems -/

theorem runStarNot_keepsCaps (ch : Char) (k : Cont) (hk : KeepsCaps k) :
    KeepsCaps (runStarNot ch k) := by
  intro s
  induction s with
  | nil => intro c r h; exact hk _ _ _ (by simpa [runStarNot] using h)
  | cons x xs ih =>
    intro c r h
    unfold runStarNot at h
    split at h
    · exact hk _ _ _ h
    · split at h
      · next r' hr' =>
        cases h
        exact ih _ _ hr'
      · exact hk _ _ _ h

theorem run_keepsCaps (re : Regex) : ∀ k : Cont, KeepsCaps k → KeepsCaps (run re k) := by
  induction re with
  | lit l =>
    intro k hk s c r h
    simp only [run] at h
    split at h
    · exact hk _ _ _ h
    · cases h
  | starNot ch => intro k hk; exact runStarNot_keepsCaps ch k hk
  | plusNot ch =>
    intro k hk s c r h
    simp only [run] at h
    split at h
    · cases h
    · split at h
      · cases h
      · exact runStarNot_keepsCaps ch k hk _ _ _ h
  | seq a b iha ihb => intro k hk; exact iha _ (ihb _ hk)
  | alt a b iha ihb =>
    intro k hk s c r h
    simp only [run] at h
    split at h
    · next r' hr' => cases h; exact iha k hk _ _ _ hr'
    · exact ihb k hk _ _ _ h
  | opt a iha =>
    intro k hk s c r h
    simp only [run] at h
    split at h
    · next r' hr' => cases h; exact iha k hk _ _ _ hr'
    · exact hk _ _ _ h
  | group i a iha =>
    intro k hk s c r h
    simp only [run] at h
    refine iha _ ?_ _ _ _ h
    intro s' c' r' h'
    have := hk _ _ _ h'
    simpa using this
  | eot =>
    intro k hk s c r h
    simp only [run] at h
    split at h
    · exact hk _ _ _ h
    · cases h

theorem matchAt_caps_length (re : Regex) (s rest : List Char) (caps : Caps)
    (h : matchAt re s = some (rest, caps)) : (submatches caps).length = re.numGroups := by
  have hk : KeepsCaps (fun s' caps => some (s', caps)) := by
    intro s c r h; cases h; rfl
  have := run_keepsCaps re _ hk _ _ _ h
  simpa [submatches] using this

theorem replaceAux_total {σ : Type} (re : Regex)
    (f : σ → List Char → List (List Char) → Option (σ × List Char))
    (hf : AnswersOn re.numGroups f) :
    ∀ (s : List Char) (n : Nat) (st : σ), ∃ r, replaceAux re f s n st = some r := by
  intro s
  induction s with
  | nil => intro n st; exact ⟨[], by simp [replaceAux]⟩
  | cons c cs ih =>
    intro n st
    cases n with
    | succ n => simpa [replaceAux] using ih n st
    | zero =>
      simp only [replaceAux]
      split
      · obtain ⟨r, hr⟩ := ih 0 st
        exact ⟨c :: r, by simp [hr]⟩
      · next rest caps hm =>
        obtain ⟨⟨st', out⟩, hr⟩ := hf st ((c :: cs).take ((c :: cs).length - rest.length))
          (submatches caps) (matchAt_caps_length re _ _ _ hm)
        obtain ⟨r, hr'⟩ := ih (cs.length - rest.length) st'
        refine ⟨out ++ r, ?_⟩
        rw [hr]
        simp only [hr', Option.map_some']

theorem imgCallback_answers : AnswersOn htmlImgTagRegex.numGroups imgCallback := by
  intro st found sub h
  match sub, h with
  | [a], _ => exact ⟨_, rfl⟩

theorem linkCallback_answers : AnswersOn htmlLinkTagRegex.numGroups linkCallback := by
  intro st found sub h
  match sub, h with
  | [a, b], _ => exact ⟨_, rfl⟩

theorem tagEndCallback_answers : AnswersOn htmlTagEndRegex.numGroups tagEndCallback := by
  intro st found sub h
  match sub, h with
  | [a], _ =>
    simp only [tagEndCallback, List.getElem?_cons_zero]
    split_ifs <;> exact ⟨_, rfl⟩

theorem tagStartCallback_answers : AnswersOn htmlTagStartRegex.numGroups tagStartCallback := by
  intro st found sub h
  match sub, h with
  | [a, b], _ =>
    simp only [tagStartCallback, List.getElem?_cons_zero]
    split_ifs <;> exact ⟨_, rfl⟩

/-! ### Scanning a text -/

theorem replaceAux_eq_scan {σ : Type} (re : Regex)
    (f : σ → List Char → List (List Char) → Option (σ × List Char))
    (hf : AnswersOn re.numGroups f) (s : List Char) (n : Nat) (st : σ) :
    replaceAux re f s n st = some (scan re f s n st) := by
  obtain ⟨r, hr⟩ := replaceAux_total re f hf s n st
  simp [scan, hr]

theorem scan_nil {σ : Type} (re : Regex)
    (f : σ → List Char → List (List Char) → Option (σ × List Char)) (n : Nat) (st : σ) :
    scan re f [] n st = [] := by
  simp [scan, replaceAux]

theorem scan_drop {σ : Type} (re : Regex)
    (f : σ → List Char → List (List Char) → Option (σ × List Char))
    (m rest : List Char) (st : σ) :
    scan re f (m ++ rest) m.length st = scan re f rest 0 st := by
  induction m with
  | nil => rfl
  | cons c m ih => simpa [scan, replaceAux] using ih

theorem scan_nomatch {σ : Type} (re : Regex)
    (f : σ → List Char → List (List Char) → Option (σ × List Char))
    (hf : AnswersOn re.numGroups f) (c : Char) (cs : List Char) (st : σ)
    (h : matchAt re (c :: cs) = none) :
    scan re f (c :: cs) 0 st = c :: scan re f cs 0 st := by
  obtain ⟨r, hr⟩ := replaceAux_total re f hf cs 0 st
  simp only [scan, replaceAux, h, hr, Option.map_some', Option.getD_some]

theorem scan_match {σ : Type} (re : Regex)
    (f : σ → List Char → List (List Char) → Option (σ × List Char))
    (hf : AnswersOn re.numGroups f) (c : Char) (m rest : List Char) (caps : Caps)
    (st st' : σ) (out : List Char)
    (h : matchAt re (c :: (m ++ rest)) = some (rest, caps))
    (hcb : f st (c :: m) (submatches caps) = some (st', out)) :
    scan re f (c :: (m ++ rest)) 0 st = out ++ scan re f rest 0 st' := by
  have h1 : (c :: (m ++ rest)).take ((c :: (m ++ rest)).length - rest.length) = c :: m := by
    have : (c :: (m ++ rest)).length - rest.length = (c :: m).length := by
      simp only [List.length_cons, List.length_append]; omega
    rw [this, ← List.cons_append, List.take_left]
  have h2 : (m ++ rest).length - rest.length = m.length := by
    simp only [List.length_append]; omega
  have h3 := scan_drop re f m rest st'
  have h4 := replaceAux_eq_scan re f hf (m ++ rest) m.length st'
  unfold scan
  simp only [replaceAux, h, h1, h2, hcb, h4, h3, Option.map_some', Option.getD_some]
  rfl

theorem scan_plain {σ : Type} (re : Regex)
    (f : σ → List Char → List (List Char) → Option (σ × List Char))
    (hf : AnswersOn re.numGroups f) (hre : NoMatchOffLt re)
    (t rest : List Char) (st : σ) (ht : '<' ∉ t) :
    scan re f (t ++ rest) 0 st = t ++ scan re f rest 0 st := by
  induction t with
  | nil => rfl
  | cons c t ih =>
    have hc : c ≠ '<' := fun h => ht (by simp [h])
    have ht' : '<' ∉ t := fun h => ht (by simp [h])
    rw [List.cons_append, scan_nomatch re f hf c _ st (hre c _ hc), ih ht', List.cons_append]

theorem htmlTagStartRegex_noMatchOffLt : NoMatchOffLt htmlTagStartRegex := by
  intro c cs hc
  simp [matchAt, htmlTagStartRegex, run, stripPrefix, hc]

theorem htmlTagEndRegex_noMatchOffLt : NoMatchOffLt htmlTagEndRegex := by
  intro c cs hc
  simp [matchAt, htmlTagEndRegex, run, stripPrefix, hc]

theorem htmlImgTagRegex_noMatchOffLt : NoMatchOffLt htmlImgTagRegex := by
  intro c cs hc
  simp [matchAt, htmlImgTagRegex, run, stripPrefix, hc]

theorem htmlLinkTagRegex_noMatchOffLt : NoMatchOffLt htmlLinkTagRegex := by
  intro c cs hc
  simp [matchAt, htmlLinkTagRegex, run, stripPrefix, hc]

/-! ### The opening-tag and closing-tag passes -/

theorem nlPart_append_dropNL (rest : List Char) : nlPart rest ++ dropNL rest = rest := by
  cases rest with
  | nil => rfl
  | cons c cs => by_cases h : c = '\n' <;> simp [nlPart, dropNL, h]

theorem matchAt_start (name : List Char) (hn : name ∈ startNames) (rest : List Char) :
    matchAt htmlTagStartRegex ('<' :: (name ++ '>' :: rest))
      = some (dropNL rest, [some name, nlCap rest]) := by
  simp only [startNames, List.mem_cons, List.mem_singleton, List.not_mem_nil, or_false] at hn
  rcases hn with rfl | rfl | rfl | rfl | rfl | rfl | rfl | rfl | rfl | rfl <;>
  · cases rest with
    | nil =>
      simp [matchAt, htmlTagStartRegex, tagStartNames, run, stripPrefix, runStarNot,
        Regex.numGroups, dropNL, nlCap]
    | cons x xs =>
      by_cases hx : x = '\n' <;>
      simp [matchAt, htmlTagStartRegex, tagStartNames, run, stripPrefix, runStarNot,
        Regex.numGroups, dropNL, nlCap, hx]

theorem tagStartCallback_eq (index : Nat) (found tag g : List Char) :
    tagStartCallback index found [tag, g] = some (startOut index tag) := by
  obtain ⟨r, hr⟩ := tagStartCallback_answers index [] [tag, []] rfl
  have : tagStartCallback index found [tag, g] = tagStartCallback index [] [tag, []] := rfl
  rw [this, startOut, hr]; rfl

theorem startPass_open (name : List Char) (hn : name ∈ startNames) (rest : List Char)
    (index : Nat) :
    startPass index ('<' :: (name ++ '>' :: rest))
      = (startOut index name).2 ++ startPass (startOut index name).1 (dropNL rest) := by
  have hm := matchAt_start name hn rest
  have hs : name ++ '>' :: rest = (name ++ '>' :: nlPart rest) ++ dropNL rest := by
    rw [List.append_assoc, List.cons_append, nlPart_append_dropNL]
  rw [hs] at hm ⊢
  exact scan_match htmlTagStartRegex tagStartCallback tagStartCallback_answers '<' _ _ _
    index _ _ hm (tagStartCallback_eq index _ name _)

theorem startPass_nil (index : Nat) : startPass index [] = [] := scan_nil _ _ _ _

theorem startPass_plain (index : Nat) (t rest : List Char) (ht : '<' ∉ t) :
    startPass index (t ++ rest) = t ++ startPass index rest :=
  scan_plain _ _ tagStartCallback_answers htmlTagStartRegex_noMatchOffLt t rest index ht

theorem startPass_close (index : Nat) (rest : List Char) :
    startPass index ('<' :: '/' :: rest) = '<' :: '/' :: startPass index rest := by
  have h : matchAt htmlTagStartRegex ('<' :: '/' :: rest) = none := by
    simp [matchAt, htmlTagStartRegex, tagStartNames, run, stripPrefix]
  have h2 := startPass_plain index ['/'] rest (by decide)
  simp only [startPass, List.singleton_append] at h2 ⊢
  rw [scan_nomatch _ _ tagStartCallback_answers _ _ _ h, h2]

theorem matchAt_end (name : List Char) (hn : name ∈ endNames) (rest : List Char) :
    matchAt htmlTagEndRegex ('<' :: (('/' :: (name ++ ['>'])) ++ rest))
      = some (rest, [some name]) := by
  simp only [endNames, List.mem_cons, List.mem_singleton, List.not_mem_nil, or_false] at hn
  rcases hn with rfl | rfl | rfl | rfl | rfl | rfl | rfl | rfl | rfl <;>
  simp [matchAt, htmlTagEndRegex, tagEndNames, run, stripPrefix, Regex.numGroups]

theorem tagEndCallback_eq (found tag : List Char) :
    tagEndCallback () found [tag] = some ((), endOut tag) := by
  obtain ⟨r, hr⟩ := tagEndCallback_answers () [] [tag] rfl
  have : tagEndCallback () found [tag] = tagEndCallback () [] [tag] := rfl
  rw [this, endOut, hr]; rfl

theorem endPass_close (name : List Char) (hn : name ∈ endNames) (rest : List Char) :
    endPass ('<' :: '/' :: (name ++ '>' :: rest)) = endOut name ++ endPass rest := by
  have hm := matchAt_end name hn rest
  have hs : '<' :: '/' :: (name ++ '>' :: rest) = '<' :: (('/' :: (name ++ ['>'])) ++ rest) := by
    simp
  rw [hs]
  exact scan_match htmlTagEndRegex tagEndCallback tagEndCallback_answers '<' _ _ _
    () _ _ hm (tagEndCallback_eq _ name)

theorem endPass_nil : endPass [] = [] := scan_nil _ _ _ _

theorem endPass_plain (t rest : List Char) (ht : '<' ∉ t) :
    endPass (t ++ rest) = t ++ endPass rest :=
  scan_plain _ _ tagEndCallback_answers htmlTagEndRegex_noMatchOffLt t rest () ht

theorem htmlToMarkdown_eq (text : List Char) :
    htmlToMarkdown text = some (UnescapeString (endPass (startPass 0
      (if Contains (if Contains text "<img".toList then imgPass text else text) "<a ".toList
        then linkPass (if Contains text "<img".toList then imgPass text else text)
        else (if Contains text "<img".toList then imgPass text else text))))) := by
  unfold htmlToMarkdown
  have h1 := replaceAux_eq_scan _ _ imgCallback_answers text 0 ()
  have h2 := fun t => replaceAux_eq_scan _ _ linkCallback_answers t 0 ()
  have h3 := fun t => replaceAux_eq_scan _ _ tagStartCallback_answers t 0 0
  have h4 := fun t => replaceAux_eq_scan _ _ tagEndCallback_answers t 0 ()
  simp only [Replace, h1, h2, h3, h4, imgPass, linkPass, startPass, endPass]
  split_ifs <;> simp_all

/-! ### Plain text and the inline tags (C1) -/

theorem Contains_cons_ne (c : Char) (s sub : List Char) (hc : c ≠ '<') :
    Contains (c :: s) ('<' :: sub) = Contains s ('<' :: sub) := by
  have : ('<' == c) = false := by simpa using fun h => hc h.symm
  simp [Contains, List.isPrefixOf, this]

theorem Contains_plain (t rest sub : List Char) (ht : '<' ∉ t) :
    Contains (t ++ rest) ('<' :: sub) = Contains rest ('<' :: sub) := by
  induction t with
  | nil => rfl
  | cons c t ih =>
    have hc : c ≠ '<' := fun h => ht (by simp [h])
    have ht' : '<' ∉ t := fun h => ht (by simp [h])
    rw [List.cons_append, Contains_cons_ne _ _ _ hc, ih ht']

theorem dropNL_of_head (t : List Char) (h : t.head? ≠ some '\n') : dropNL t = t := by
  cases t with
  | nil => rfl
  | cons c cs =>
    have : c ≠ '\n' := by simpa using h
    simp [dropNL, this]

theorem UnescapeString_of_no_amp (s : List Char) (h : '&' ∉ s) : UnescapeString s = s := by
  have : s.contains '&' = false := by simpa using h
  unfold UnescapeString
  rw [this]
  rfl

theorem wrap_render (name : List Char) (hn : name ∈ wrapNames) (t : List Char)
    (hlt : '<' ∉ t) (hamp : '&' ∉ t) (hnl : t.head? ≠ some '\n') :
    htmlToMarkdown ('<' :: (name ++ '>' :: (t ++ '<' :: '/' :: (name ++ ['>']))))
      = some ((startOut 0 name).2 ++ t ++ endOut name) := by
  have hs : name ∈ startNames := by
    simp only [wrapNames, List.mem_cons, List.mem_singleton, List.not_mem_nil, or_false] at hn
    rcases hn with rfl | rfl | rfl | rfl | rfl | rfl <;> decide
  have he : name ∈ endNames := by
    simp only [wrapNames, List.mem_cons, List.mem_singleton, List.not_mem_nil, or_false] at hn
    rcases hn with rfl | rfl | rfl | rfl | rfl | rfl <;> decide
  have hidx : (startOut 0 name).1 = 0 := by
    simp only [wrapNames, List.mem_cons, List.mem_singleton, List.not_mem_nil, or_false] at hn
    rcases hn with rfl | rfl | rfl | rfl | rfl | rfl <;> decide
  have hout : '<' ∉ (startOut 0 name).2 ∧ '&' ∉ (startOut 0 name).2 ∧ '&' ∉ endOut name := by
    simp only [wrapNames, List.mem_cons, List.mem_singleton, List.not_mem_nil, or_false] at hn
    rcases hn with rfl | rfl | rfl | rfl | rfl | rfl <;> decide
  have hg1 : Contains ('<' :: (name ++ '>' :: (t ++ '<' :: '/' :: (name ++ ['>']))))
      "<img".toList = false := by
    simp only [wrapNames, List.mem_cons, List.mem_singleton, List.not_mem_nil, or_false] at hn
    rcases hn with rfl | rfl | rfl | rfl | rfl | rfl <;>
    simp [Contains, List.isPrefixOf, Contains_plain _ _ _ hlt]
  have hg2 : Contains ('<' :: (name ++ '>' :: (t ++ '<' :: '/' :: (name ++ ['>']))))
      "<a ".toList = false := by
    simp only [wrapNames, List.mem_cons, List.mem_singleton, List.not_mem_nil, or_false] at hn
    rcases hn with rfl | rfl | rfl | rfl | rfl | rfl <;>
    simp [Contains, List.isPrefixOf, Contains_plain _ _ _ hlt]
  have hd : dropNL (t ++ '<' :: '/' :: (name ++ ['>'])) = t ++ '<' :: '/' :: (name ++ ['>']) := by
    apply dropNL_of_head
    cases t with
    | nil => simp
    | cons c cs => simpa using hnl
  have hn1 : '<' ∉ name ++ ['>'] := by
    simp only [wrapNames, List.mem_cons, List.mem_singleton, List.not_mem_nil, or_false] at hn
    rcases hn with rfl | rfl | rfl | rfl | rfl | rfl <;> decide
  rw [htmlToMarkdown_eq, hg1]
  simp only [Bool.false_eq_true, if_false, hg2]
  rw [startPass_open name hs, hd, hidx, startPass_plain 0 t _ hlt, startPass_close,
    ← List.append_nil (name ++ ['>']), startPass_plain 0 _ _ hn1, startPass_nil,
    List.append_nil, endPass_plain _ _ hout.1, endPass_plain _ _ hlt]
  have : name ++ ['>'] = name ++ '>' :: [] := rfl
  rw [this, endPass_close name he, endPass_nil, List.append_nil, UnescapeString_of_no_amp]
  · simp
  · simp [hout.2.1, hout.2.2, hamp]

/-- C1: for a text `t` with no `<`, no `&` and no leading newline, `htmlToMarkdown`
wraps `t` in the marker of the enclosing inline tag: `*` for `i`, `**` for `b` and
`strong`, one backquote for `pre`, three for `code`, nothing for `p`. -/
theorem inline_tag_wraps_text (t : List Char) (hlt : '<' ∉ t) (hamp : '&' ∉ t)
    (hnl : t.head? ≠ some '\n') :
    htmlToMarkdown ("<i>".toList ++ t ++ "</i>".toList) = some ("*".toList ++ t ++ "*".toList)
    ∧ htmlToMarkdown ("<b>".toList ++ t ++ "</b>".toList)
        = some ("**".toList ++ t ++ "**".toList)
    ∧ htmlToMarkdown ("<strong>".toList ++ t ++ "</strong>".toList)
        = some ("**".toList ++ t ++ "**".toList)
    ∧ htmlToMarkdown ("<pre>".toList ++ t ++ "</pre>".toList)
        = some ("`".toList ++ t ++ "`".toList)
    ∧ htmlToMarkdown ("<code>".toList ++ t ++ "</code>".toList)
        = some ("```".toList ++ t ++ "```".toList)
    ∧ htmlToMarkdown ("<p>".toList ++ t ++ "</p>".toList) = some t := by
  refine ⟨?_, ?_, ?_, ?_, ?_, ?_⟩
  · exact wrap_render "i".toList (by decide) t hlt hamp hnl
  · exact wrap_render "b".toList (by decide) t hlt hamp hnl
  · exact wrap_render "strong".toList (by decide) t hlt hamp hnl
  · exact wrap_render "pre".toList (by decide) t hlt hamp hnl
  · exact wrap_render "code".toList (by decide) t hlt hamp hnl
  · have := wrap_render "p".toList (by decide) t hlt hamp hnl
    have h2 : (startOut 0 "p".toList).2 ++ t ++ endOut "p".toList = t := by
      show [] ++ t ++ [] = t
      simp
    rw [h2] at this
    exact this

/-- Witness of C1 at `t = "italic"`, the text of the tests of the repository. -/
theorem inline_tag_wraps_text_witness :
    htmlToMarkdown "<i>italic</i>".toList = some "*italic*".toList
    ∧ htmlToMarkdown "<code>italic</code>".toList = some "```italic```".toList
    ∧ htmlToMarkdown "<p>italic</p>".toList = some "italic".toList :=
  have h := inline_tag_wraps_text "italic".toList (by decide) (by decide) (by decide)
  ⟨h.1, h.2.2.2.2.1, h.2.2.2.2.2⟩

/-! ### Greedy runs; links and images (C2, C3) -/

theorem runStarNot_stop (c : Char) (k : Cont) (t rest : List Char) (caps : Caps)
    (r : MatchResult) (ht : c ∉ t) (hk : k (c :: rest) caps = some r) :
    runStarNot c k (t ++ c :: rest) caps = some r := by
  induction t with
  | nil => simpa [runStarNot] using hk
  | cons x t ih =>
    have hx : x ≠ c := fun h => ht (by simp [h])
    have ht' : c ∉ t := fun h => ht (by simp [h])
    simp [runStarNot, hx, ih ht']

theorem run_starNot_stop (c : Char) (k : Cont) (t rest : List Char) (caps : Caps)
    (r : MatchResult) (ht : c ∉ t) (hk : k (c :: rest) caps = some r) :
    run (.starNot c) k (t ++ c :: rest) caps = some r :=
  runStarNot_stop c k t rest caps r ht hk

theorem run_plusNot_stop (c : Char) (k : Cont) (x : Char) (t rest : List Char) (caps : Caps)
    (r : MatchResult) (hx : x ≠ c) (ht : c ∉ t) (hk : k (c :: rest) caps = some r) :
    run (.plusNot c) k (x :: (t ++ c :: rest)) caps = some r := by
  simp only [run, hx, if_false]
  exact runStarNot_stop c k t rest caps r ht hk

theorem take_length_sub (a b : List Char) :
    List.take ((a ++ b).length - b.length) (a ++ b) = a := by
  have : (a ++ b).length - b.length = a.length := by
    simp only [List.length_append]; omega
  rw [this, List.take_left]

theorem run_group_plusNot_stop (i : Nat) (c : Char) (k : Cont) (x : Char)
    (t rest : List Char) (caps : Caps) (r : MatchResult) (hx : x ≠ c) (ht : c ∉ t)
    (hk : k (c :: rest) (caps.set i (some (x :: t))) = some r) :
    run (.group i (.plusNot c)) k (x :: (t ++ c :: rest)) caps = some r := by
  simp only [run, hx, if_false]
  apply runStarNot_stop c _ t rest caps r ht
  have := take_length_sub (x :: t) (c :: rest)
  simp only [List.cons_append] at this
  simp only [this]
  exact hk

theorem run_seq_lit_of (l : List Char) (b : Regex) (k : Cont) (s rest : List Char)
    (caps : Caps) (r : MatchResult) (hs : stripPrefix l s = some rest)
    (hk : run b k rest caps = some r) : run (.seq (.lit l) b) k s caps = some r := by
  simp only [run, hs]
  exact hk

theorem run_lit_of (l : List Char) (k : Cont) (s rest : List Char)
    (caps : Caps) (r : MatchResult) (hs : stripPrefix l s = some rest)
    (hk : k rest caps = some r) : run (.lit l) k s caps = some r := by
  simp only [run, hs]
  exact hk

theorem run_seq_group_plusNot_of (i : Nat) (c : Char) (b : Regex) (k : Cont) (x : Char)
    (t rest : List Char) (caps : Caps) (r : MatchResult) (hx : x ≠ c) (ht : c ∉ t)
    (hk : run b k (c :: rest) (caps.set i (some (x :: t))) = some r) :
    run (.seq (.group i (.plusNot c)) b) k (x :: (t ++ c :: rest)) caps = some r :=
  run_group_plusNot_stop i c (run b k) x t rest caps r hx ht hk

theorem run_seq_starNot_of (c : Char) (b : Regex) (k : Cont)
    (t rest : List Char) (caps : Caps) (r : MatchResult) (ht : c ∉ t)
    (hk : run b k (c :: rest) caps = some r) :
    run (.seq (.starNot c) b) k (t ++ c :: rest) caps = some r :=
  runStarNot_stop c (run b k) t rest caps r ht hk

theorem run_seq_plusNot_of (c : Char) (b : Regex) (k : Cont) (x : Char)
    (t rest : List Char) (caps : Caps) (r : MatchResult) (hx : x ≠ c) (ht : c ∉ t)
    (hk : run b k (c :: rest) caps = some r) :
    run (.seq (.plusNot c) b) k (x :: (t ++ c :: rest)) caps = some r :=
  run_plusNot_stop c (run b k) x t rest caps r hx ht hk

theorem matchAt_link (x : Char) (u : List Char) (y : Char) (l attrs : List Char)
    (hx : x ≠ '"') (hu : '"' ∉ u) (hy : y ≠ '<') (hl : '<' ∉ l) (ha : '>' ∉ attrs) :
    matchAt htmlLinkTagRegex ("<a href=\"".toList ++ (x :: (u ++ '"' ::
        (attrs ++ '>' :: (y :: (l ++ '<' :: "/a>".toList))))))
      = some ([], [some (x :: u), some (y :: l)]) := by
  unfold matchAt htmlLinkTagRegex
  refine run_seq_lit_of _ _ _ _ _ _ _ rfl ?_
  refine run_seq_group_plusNot_of 0 '"' _ _ x u _ _ _ hx hu ?_
  refine run_seq_lit_of _ _ _ _ _ _ _ rfl ?_
  refine run_seq_starNot_of '>' _ _ attrs _ _ _ ha ?_
  refine run_seq_lit_of _ _ _ _ _ _ _ rfl ?_
  refine run_seq_group_plusNot_of 1 '<' _ _ y l _ _ _ hy hl ?_
  refine run_lit_of _ _ _ _ _ _ rfl ?_
  rfl

theorem matchAt_img (x : Char) (u : List Char) (y : Char) (tail : List Char)
    (hx : x ≠ '"') (hu : '"' ∉ u) (hy : y ≠ '>') (ht : '>' ∉ tail) :
    matchAt htmlImgTagRegex ("<img src=\"".toList ++ (x :: (u ++ '"' ::
        (y :: (tail ++ '>' :: [])))))
      = some ([], [some (x :: u)]) := by
  unfold matchAt htmlImgTagRegex
  refine run_seq_lit_of _ _ _ _ _ _ _ rfl ?_
  refine run_seq_group_plusNot_of 0 '"' _ _ x u _ _ _ hx hu ?_
  refine run_seq_lit_of _ _ _ _ _ _ _ rfl ?_
  refine run_seq_plusNot_of '>' _ _ y tail _ _ _ hy ht ?_
  refine run_lit_of _ _ _ _ _ _ rfl ?_
  rfl

theorem isPrefixOf_append_gt (r : List Char) :
    ∀ (sub a : List Char), '>' ∉ sub →
      List.isPrefixOf sub (a ++ '>' :: r) = List.isPrefixOf sub a := by
  intro sub
  induction sub with
  | nil => intro a _; simp [List.isPrefixOf]
  | cons s0 sub ih =>
    intro a h
    have h0 : s0 ≠ '>' := fun e => h (by simp [e])
    have h1 : '>' ∉ sub := fun e => h (by simp [e])
    cases a with
    | nil => simp [List.isPrefixOf, h0]
    | cons a0 a =>
      show (s0 == a0 && sub.isPrefixOf (a ++ '>' :: r)) = (s0 == a0 && sub.isPrefixOf a)
      rw [ih a h1]

theorem Contains_append_gt (sub r : List Char) (hs : '>' ∉ sub) (hne : sub ≠ []) :
    ∀ a : List Char,
      Contains (a ++ '>' :: r) sub = (Contains a sub || Contains ('>' :: r) sub) := by
  intro a
  induction a with
  | nil =>
    cases sub with
    | nil => exact absurd rfl hne
    | cons s0 sub => simp [Contains]
  | cons a0 a ih =>
    have := isPrefixOf_append_gt r sub (a0 :: a) hs
    simp only [List.cons_append] at this
    show (sub.isPrefixOf (a0 :: (a ++ '>' :: r)) || Contains (a ++ '>' :: r) sub)
      = ((sub.isPrefixOf (a0 :: a) || Contains a sub) || Contains ('>' :: r) sub)
    rw [this, ih, Bool.or_assoc]

theorem Contains_of_plain (t sub : List Char) (ht : '<' ∉ t) :
    Contains t ('<' :: sub) = false := by
  have := Contains_plain t [] sub ht
  simpa [Contains] using this

theorem plain_tail (s : List Char) (h1 : '<' ∉ s) (h2 : '&' ∉ s) :
    UnescapeString (endPass (startPass 0 s)) = s := by
  have e1 : startPass 0 s = s := by
    have := startPass_plain 0 s [] h1
    simpa [startPass_nil] using this
  have e2 : endPass s = s := by
    have := endPass_plain s [] h1
    simpa [endPass_nil] using this
  rw [e1, e2, UnescapeString_of_no_amp s h2]

theorem plain_tail_unescape (s : List Char) (h1 : '<' ∉ s) :
    UnescapeString (endPass (startPass 0 s)) = UnescapeString s := by
  have e1 : startPass 0 s = s := by
    have := startPass_plain 0 s [] h1
    simpa [startPass_nil] using this
  have e2 : endPass s = s := by
    have := endPass_plain s [] h1
    simpa [endPass_nil] using this
  rw [e1, e2]

theorem link_render_raw (x : Char) (u : List Char) (y : Char) (l attrs : List Char)
    (hx : x ≠ '"' ∧ x ≠ '<') (hu : '"' ∉ u ∧ '<' ∉ u)
    (hy : y ≠ '<') (hl : '<' ∉ l) (ha : '>' ∉ attrs)
    (hi : Contains attrs "<img".toList = false) :
    htmlToMarkdown ("<a href=\"".toList ++ (x :: (u ++ '"' ::
        (attrs ++ '>' :: (y :: (l ++ '<' :: "/a>".toList))))))
      = some (UnescapeString ('[' :: y :: (l ++ "](".toList ++ (x :: (u ++ ")".toList))))) := by
  have hg1 : Contains ("<a href=\"".toList ++ (x :: (u ++ '"' ::
        (attrs ++ '>' :: (y :: (l ++ '<' :: "/a>".toList)))))) "<img".toList = false := by
    have hxu : '<' ∉ x :: u := by simp [hx.2.symm, hu.2]
    have hyl : '<' ∉ y :: l := by simp [hy.symm, hl]
    have e1 := Contains_plain (x :: u) ('"' :: (attrs ++ '>' :: (y :: (l ++ '<' :: "/a>".toList))))
      "img".toList hxu
    have e2 := Contains_append_gt "<img".toList (y :: (l ++ '<' :: "/a>".toList))
      (by decide) (by decide) attrs
    have e3 := Contains_plain (y :: l) ('<' :: "/a>".toList) "img".toList hyl
    have e4 : Contains ('>' :: (y :: (l ++ '<' :: "/a>".toList))) "<img".toList = false := by
      have := Contains_cons_ne '>' (y :: (l ++ '<' :: "/a>".toList)) "img".toList (by decide)
      simp only [List.cons_append] at e3
      rw [show "<img".toList = '<' :: "img".toList from rfl, this, e3]
      decide
    have e5 : Contains ('"' :: (attrs ++ '>' :: (y :: (l ++ '<' :: "/a>".toList))))
        "<img".toList = false := by
      have := Contains_cons_ne '"' (attrs ++ '>' :: (y :: (l ++ '<' :: "/a>".toList)))
        "img".toList (by decide)
      rw [show "<img".toList = '<' :: "img".toList from rfl, this,
        ← show "<img".toList = '<' :: "img".toList from rfl, e2, hi, e4]
      rfl
    simp only [List.cons_append] at e1
    have e6 : Contains (x :: (u ++ '"' :: (attrs ++ '>' :: (y :: (l ++ '<' :: "/a>".toList)))))
        "<img".toList = false := by
      rw [show "<img".toList = '<' :: "img".toList from rfl, e1,
        ← show "<img".toList = '<' :: "img".toList from rfl, e5]
    generalize (x :: (u ++ '"' :: (attrs ++ '>' :: (y :: (l ++ '<' :: "/a>".toList))))) = w at e6 ⊢
    have e7 : Contains w ['<', 'i', 'm', 'g'] = false := e6
    simp [Contains, List.isPrefixOf, e7]
  have hg2 : Contains ("<a href=\"".toList ++ (x :: (u ++ '"' ::
        (attrs ++ '>' :: (y :: (l ++ '<' :: "/a>".toList)))))) "<a ".toList = true := by
    simp [Contains, List.isPrefixOf]
  have hm := matchAt_link x u y l attrs hx.1 hu.1 hy hl ha
  have hlp : linkPass ("<a href=\"".toList ++ (x :: (u ++ '"' ::
        (attrs ++ '>' :: (y :: (l ++ '<' :: "/a>".toList))))))
      = '[' :: y :: (l ++ "](".toList ++ (x :: (u ++ ")".toList))) := by
    have hform : "<a href=\"".toList ++ (x :: (u ++ '"' ::
        (attrs ++ '>' :: (y :: (l ++ '<' :: "/a>".toList)))))
        = '<' :: (("a href=\"".toList ++ (x :: (u ++ '"' ::
        (attrs ++ '>' :: (y :: (l ++ '<' :: "/a>".toList)))))) ++ []) := by
      rw [List.append_nil]; rfl
    rw [hform] at hm ⊢
    have := scan_match htmlLinkTagRegex linkCallback linkCallback_answers '<' _ [] _ () ()
      ('[' :: y :: (l ++ "](".toList ++ (x :: (u ++ ")".toList)))) hm (by
        simp [linkCallback, submatches])
    rw [linkPass, this, scan_nil, List.append_nil]
  rw [htmlToMarkdown_eq, hg1]
  simp only [Bool.false_eq_true, if_false, hg2, if_true, hlp]
  rw [plain_tail_unescape]
  simp [hy.symm, hl, hx.2.symm, hu.2]

theorem link_render_aux (x : Char) (u : List Char) (y : Char) (l attrs : List Char)
    (hx : x ≠ '"' ∧ x ≠ '<' ∧ x ≠ '&') (hu : '"' ∉ u ∧ '<' ∉ u ∧ '&' ∉ u)
    (hy : y ≠ '<' ∧ y ≠ '&') (hl : '<' ∉ l ∧ '&' ∉ l) (ha : '>' ∉ attrs)
    (hi : Contains attrs "<img".toList = false) :
    htmlToMarkdown ("<a href=\"".toList ++ (x :: (u ++ '"' ::
        (attrs ++ '>' :: (y :: (l ++ '<' :: "/a>".toList))))))
      = some ('[' :: y :: (l ++ "](".toList ++ (x :: (u ++ ")".toList)))) := by
  rw [link_render_raw x u y l attrs ⟨hx.1, hx.2.1⟩ ⟨hu.1, hu.2.1⟩ hy.1 hl.1 ha hi,
    UnescapeString_of_no_amp]
  simp [hy.2.symm, hl.2, hx.2.2.symm, hu.2.2]

/-- C2, as amended: for a non-empty URL `u` without `"`, `<`, `&`, a non-empty label
`l` without `<`, `&`, and extra attributes without `>` that do not contain `<img`,
the link is rendered as `[l](u)`; the extra attributes are dropped. -/
theorem link_renders_label_and_href (u l attrs : List Char)
    (hu : u ≠ []) (hu1 : '"' ∉ u) (hu2 : '<' ∉ u) (hu3 : '&' ∉ u)
    (hl : l ≠ []) (hl1 : '<' ∉ l) (hl2 : '&' ∉ l)
    (ha : '>' ∉ attrs) (hi : Contains attrs "<img".toList = false) :
    htmlToMarkdown ("<a href=\"".toList ++ u ++ "\"".toList ++ attrs ++ ">".toList ++ l
        ++ "</a>".toList)
      = some ("[".toList ++ l ++ "](".toList ++ u ++ ")".toList) := by
  cases u with
  | nil => exact absurd rfl hu
  | cons x u =>
    cases l with
    | nil => exact absurd rfl hl
    | cons y l =>
      have hx : x ≠ '"' ∧ x ≠ '<' ∧ x ≠ '&' :=
        ⟨fun e => hu1 (by simp [e]), fun e => hu2 (by simp [e]), fun e => hu3 (by simp [e])⟩
      have hu' : '"' ∉ u ∧ '<' ∉ u ∧ '&' ∉ u :=
        ⟨fun e => hu1 (by simp [e]), fun e => hu2 (by simp [e]), fun e => hu3 (by simp [e])⟩
      have hy : y ≠ '<' ∧ y ≠ '&' := ⟨fun e => hl1 (by simp [e]), fun e => hl2 (by simp [e])⟩
      have hl' : '<' ∉ l ∧ '&' ∉ l := ⟨fun e => hl1 (by simp [e]), fun e => hl2 (by simp [e])⟩
      have := link_render_aux x u y l attrs hx hu' hy hl' ha hi
      simpa [List.append_assoc] using this

/-- Witness of C2 at the link of the tests of the repository. -/
theorem link_renders_label_and_href_witness :
    htmlToMarkdown ("<a href=\"".toList ++ "https://domain.com".toList ++ "\"".toList
        ++ " title=\"title\"".toList ++ ">".toList ++ "Link".toList ++ "</a>".toList)
      = some ("[".toList ++ "Link".toList ++ "](".toList ++ "https://domain.com".toList
        ++ ")".toList) :=
  link_renders_label_and_href "https://domain.com".toList "Link".toList
    " title=\"title\"".toList (by decide) (by decide) (by decide) (by decide) (by decide)
    (by decide) (by decide) (by decide) (by decide)

/-- C2 as stated fails: the extra attributes ` <img src="x" ` contain no `>`, yet the
image pass rewrites them first and the link pattern no longer matches. -/
theorem link_attrs_counterexample :
    "u".toList ≠ [] ∧ '"' ∉ "u".toList ∧ '<' ∉ "u".toList ∧ '&' ∉ "u".toList
    ∧ "l".toList ≠ [] ∧ '<' ∉ "l".toList ∧ '&' ∉ "l".toList
    ∧ '>' ∉ " <img src=\"x\" ".toList
    ∧ htmlToMarkdown ("<a href=\"".toList ++ "u".toList ++ "\"".toList
        ++ " <img src=\"x\" ".toList ++ ">".toList ++ "l".toList ++ "</a>".toList)
      = some "<a href=\"u\" ![IMG](x)l</a>".toList
    ∧ htmlToMarkdown ("<a href=\"".toList ++ "u".toList ++ "\"".toList
        ++ " <img src=\"x\" ".toList ++ ">".toList ++ "l".toList ++ "</a>".toList)
      ≠ some ("[".toList ++ "l".toList ++ "](".toList ++ "u".toList ++ ")".toList) := by
  decide

theorem img_render_aux (x : Char) (u : List Char) (y : Char) (tail : List Char)
    (hx : x ≠ '"' ∧ x ≠ '<' ∧ x ≠ '&') (hu : '"' ∉ u ∧ '<' ∉ u ∧ '&' ∉ u)
    (hy : y ≠ '>') (ht : '>' ∉ tail) :
    htmlToMarkdown ("<img src=\"".toList ++ (x :: (u ++ '"' :: (y :: (tail ++ '>' :: [])))))
      = some ("![IMG](".toList ++ (x :: (u ++ ")".toList))) := by
  have hg1 : Contains ("<img src=\"".toList ++ (x :: (u ++ '"' :: (y :: (tail ++ '>' :: [])))))
      "<img".toList = true := by
    simp [Contains, List.isPrefixOf]
  have hm := matchAt_img x u y tail hx.1 hu.1 hy ht
  have hip : imgPass ("<img src=\"".toList ++ (x :: (u ++ '"' :: (y :: (tail ++ '>' :: [])))))
      = "![IMG](".toList ++ (x :: (u ++ ")".toList)) := by
    have hform : "<img src=\"".toList ++ (x :: (u ++ '"' :: (y :: (tail ++ '>' :: []))))
        = '<' :: (("img src=\"".toList ++ (x :: (u ++ '"' :: (y :: (tail ++ '>' :: []))))) ++ [])
        := by
      rw [List.append_nil]; rfl
    rw [hform] at hm ⊢
    have := scan_match htmlImgTagRegex imgCallback imgCallback_answers '<' _ [] _ () ()
      ("![IMG](".toList ++ (x :: (u ++ ")".toList))) hm (by simp [imgCallback, submatches])
    rw [imgPass, this, scan_nil, List.append_nil]
  have hplain : '<' ∉ "![IMG](".toList ++ (x :: (u ++ ")".toList)) := by
    simp [hx.2.1.symm, hu.2.1]
  have hg2 : Contains ("![IMG](".toList ++ (x :: (u ++ ")".toList))) "<a ".toList = false :=
    Contains_of_plain _ _ hplain
  rw [htmlToMarkdown_eq, hg1]
  simp only [if_true, hip, hg2, Bool.false_eq_true, if_false]
  rw [plain_tail _ hplain]
  simp [hx.2.2.symm, hu.2.2]

/-- C3: for a non-empty URL `u` without `"`, `<`, `&` and a non-empty tail without
`>` after the closing quote, the image tag is rendered as `![IMG](u)`. -/
theorem img_renders_src (u tail : List Char)
    (hu : u ≠ []) (hu1 : '"' ∉ u) (hu2 : '<' ∉ u) (hu3 : '&' ∉ u)
    (ht : tail ≠ []) (ht1 : '>' ∉ tail) :
    htmlToMarkdown ("<img src=\"".toList ++ u ++ "\"".toList ++ tail ++ ">".toList)
      = some ("![IMG](".toList ++ u ++ ")".toList) := by
  cases u with
  | nil => exact absurd rfl hu
  | cons x u =>
    cases tail with
    | nil => exact absurd rfl ht
    | cons y tail =>
      have hx : x ≠ '"' ∧ x ≠ '<' ∧ x ≠ '&' :=
        ⟨fun e => hu1 (by simp [e]), fun e => hu2 (by simp [e]), fun e => hu3 (by simp [e])⟩
      have hu' : '"' ∉ u ∧ '<' ∉ u ∧ '&' ∉ u :=
        ⟨fun e => hu1 (by simp [e]), fun e => hu2 (by simp [e]), fun e => hu3 (by simp [e])⟩
      have := img_render_aux x u y tail hx hu' (fun e => ht1 (by simp [e]))
        (fun e => ht1 (by simp [e]))
      simpa [List.append_assoc] using this

/-- Witness of C3 at the image of the tests of the repository (tail ` /`). -/
theorem img_renders_src_witness :
    htmlToMarkdown ("<img src=\"".toList ++ "https://domain.com/image.png".toList
        ++ "\"".toList ++ " /".toList ++ ">".toList)
      = some ("![IMG](".toList ++ "https://domain.com/image.png".toList ++ ")".toList) :=
  img_renders_src "https://domain.com/image.png".toList " /".toList
    (by decide) (by decide) (by decide) (by decide) (by decide) (by decide)

/-! ### Stretches of text through both tag passes -/

theorem head_append_ne (s rest : List Char) (hs : s.head? ≠ some '\n')
    (hr : rest.head? ≠ some '\n') : (s ++ rest).head? ≠ some '\n' := by
  cases s with
  | nil => simpa using hr
  | cons c s => simpa using hs

theorem seg_nil : Seg [] (fun _ => []) (fun _ => []) id := by
  refine ⟨?_, ?_, ?_, ?_, ?_, ?_⟩ <;> simp

theorem seg_append {s1 s2 : List Char} {m1 o1 m2 o2 : Nat → List Char} {n1 n2 : Nat → Nat}
    (h1 : Seg s1 m1 o1 n1) (h2 : Seg s2 m2 o2 n2) :
    Seg (s1 ++ s2) (fun i => m1 i ++ m2 (n1 i)) (fun i => o1 i ++ o2 (n1 i))
      (fun i => n2 (n1 i)) := by
  obtain ⟨a1, b1, c1, d1, e1, f1⟩ := h1
  obtain ⟨a2, b2, c2, d2, e2, f2⟩ := h2
  refine ⟨?_, ?_, ?_, ?_, ?_, ?_⟩
  · intro i rest hr
    rw [List.append_assoc, a1 i _ (head_append_ne s2 rest f2 hr), a2 _ rest hr,
      List.append_assoc]
  · intro i rest
    show endPass ((m1 i ++ m2 (n1 i)) ++ rest) = (o1 i ++ o2 (n1 i)) ++ endPass rest
    rw [List.append_assoc, b1, b2, List.append_assoc]
  · intro rest
    rw [List.append_assoc, c1, c2]
  · intro rest
    rw [List.append_assoc, d1, d2]
  · intro i
    simp [e1 i, e2 (n1 i)]
  · exact head_append_ne s1 s2 f1 f2

theorem seg_text (t : List Char) (h1 : '<' ∉ t) (h2 : '&' ∉ t) (h3 : t.head? ≠ some '\n') :
    Seg t (fun _ => t) (fun _ => t) id := by
  refine ⟨?_, ?_, ?_, ?_, ?_, h3⟩
  · intro i rest _
    exact startPass_plain i t rest h1
  · intro i rest
    exact endPass_plain t rest h1
  · intro rest
    exact Contains_plain t rest _ h1
  · intro rest
    exact Contains_plain t rest _ h1
  · intro _
    exact h2

theorem seg_render {s : List Char} {m o : Nat → List Char} {n : Nat → Nat}
    (h : Seg s m o n) : htmlToMarkdown s = some (o 0) := by
  obtain ⟨a, b, c, d, e, f⟩ := h
  have hg1 : Contains s "<img".toList = false := by
    have := c []
    rw [List.append_nil] at this
    rw [this]; rfl
  have hg2 : Contains s "<a ".toList = false := by
    have := d []
    rw [List.append_nil] at this
    rw [this]; rfl
  have hs : startPass 0 s = m 0 := by
    have := a 0 [] (by simp)
    rw [List.append_nil, startPass_nil, List.append_nil] at this
    exact this
  have he : endPass (m 0) = o 0 := by
    have := b 0 []
    rw [List.append_nil, endPass_nil, List.append_nil] at this
    exact this
  rw [htmlToMarkdown_eq, hg1]
  simp only [Bool.false_eq_true, if_false, hg2]
  rw [hs, he, UnescapeString_of_no_amp _ (e 0)]

theorem digitChar_harmless (m : Nat) (h : m < 10) : Harmless (Nat.digitChar m) := by
  interval_cases m <;> exact ⟨by decide, by decide⟩

theorem toDigitsCore_harmless (fuel : Nat) :
    ∀ (n : Nat) (ds : List Char), (∀ c ∈ ds, Harmless c) →
      ∀ c ∈ Nat.toDigitsCore 10 fuel n ds, Harmless c := by
  induction fuel with
  | zero => intro n ds h; simpa [Nat.toDigitsCore] using h
  | succ fuel ih =>
    intro n ds h
    have hd : Harmless (Nat.digitChar (n % 10)) :=
      digitChar_harmless _ (Nat.mod_lt _ (by decide))
    have hds : ∀ c ∈ Nat.digitChar (n % 10) :: ds, Harmless c := by
      intro c hc
      rcases List.mem_cons.1 hc with rfl | hc
      · exact hd
      · exact h c hc
    simp only [Nat.toDigitsCore]
    split
    · exact hds
    · exact ih _ _ hds

theorem repr_harmless (n : Nat) : ∀ c ∈ (Nat.repr n).toList, Harmless c := by
  have := toDigitsCore_harmless (n + 1) n [] (by simp)
  simpa [Nat.repr, Nat.toDigits, List.asString] using this

theorem startOut_harmless (i : Nat) (name : List Char) (hn : name ∈ startNames) :
    ∀ c ∈ (startOut i name).2, Harmless c := by
  simp only [startNames, List.mem_cons, List.mem_singleton, List.not_mem_nil, or_false] at hn
  rcases hn with rfl | rfl | rfl | rfl | rfl | rfl | rfl | rfl | rfl | rfl
  case inr.inr.inr.inr.inr.inl =>
    intro c hc
    by_cases hi : i = 0
    · subst hi
      have : (startOut 0 "li".toList).2 = "â€¢ ".toList := rfl
      rw [this] at hc
      have key : ∀ c ∈ "â€¢ ".toList, Harmless c := by decide
      exact key c hc
    · have : (startOut i "li".toList).2 = (Nat.repr (i + 1 - 1)).toList ++ ". ".toList := by
        simp [startOut, tagStartCallback, hi]
      rw [this] at hc
      rcases List.mem_append.1 hc with h | h
      · exact repr_harmless _ c h
      · have key : ∀ c ∈ ". ".toList, Harmless c := by decide
        exact key c h
  all_goals
    intro c hc
    have hc' := hc
    simp [startOut, tagStartCallback] at hc'
    try (rcases hc' with rfl | rfl) <;> exact ⟨by decide, by decide⟩

theorem not_mem_of_harmless (l : List Char) (h : ∀ c ∈ l, Harmless c) :
    '<' ∉ l ∧ '&' ∉ l :=
  ⟨fun hm => (h _ hm).1 rfl, fun hm => (h _ hm).2 rfl⟩

theorem Contains_open (name : List Char) (hn : name ∈ startNames) (rest : List Char) :
    Contains ('<' :: (name ++ '>' :: rest)) "<img".toList = Contains rest "<img".toList
    ∧ Contains ('<' :: (name ++ '>' :: rest)) "<a ".toList = Contains rest "<a ".toList := by
  simp only [startNames, List.mem_cons, List.mem_singleton, List.not_mem_nil, or_false] at hn
  rcases hn with rfl | rfl | rfl | rfl | rfl | rfl | rfl | rfl | rfl | rfl <;>
  simp [Contains, List.isPrefixOf]

theorem Contains_close (name : List Char) (hn : name ∈ endNames) (rest : List Char) :
    Contains ('<' :: '/' :: (name ++ '>' :: rest)) "<img".toList = Contains rest "<img".toList
    ∧ Contains ('<' :: '/' :: (name ++ '>' :: rest)) "<a ".toList
      = Contains rest "<a ".toList := by
  simp only [endNames, List.mem_cons, List.mem_singleton, List.not_mem_nil, or_false] at hn
  rcases hn with rfl | rfl | rfl | rfl | rfl | rfl | rfl | rfl | rfl <;>
  simp [Contains, List.isPrefixOf]

theorem seg_openTag (name : List Char) (hn : name ∈ startNames) :
    Seg ('<' :: (name ++ ['>'])) (fun i => (startOut i name).2)
      (fun i => (startOut i name).2) (fun i => (startOut i name).1) := by
  have hf : ∀ rest, ('<' :: (name ++ ['>'])) ++ rest = '<' :: (name ++ '>' :: rest) := by
    intro rest; simp
  refine ⟨?_, ?_, ?_, ?_, ?_, by simp⟩
  · intro i rest hr
    rw [hf, startPass_open name hn, dropNL_of_head rest hr]
  · intro i rest
    exact endPass_plain _ rest (not_mem_of_harmless _ (startOut_harmless i name hn)).1
  · intro rest
    rw [hf]; exact (Contains_open name hn rest).1
  · intro rest
    rw [hf]; exact (Contains_open name hn rest).2
  · intro i
    exact (not_mem_of_harmless _ (startOut_harmless i name hn)).2

theorem endOut_no_amp (name : List Char) (hn : name ∈ endNames) : '&' ∉ endOut name := by
  revert name
  decide

theorem name_plain (name : List Char) (hn : name ∈ endNames) : '<' ∉ name ++ ['>'] := by
  revert name
  decide

theorem seg_closeTag (name : List Char) (hn : name ∈ endNames) :
    Seg ('<' :: '/' :: (name ++ ['>'])) (fun _ => '<' :: '/' :: (name ++ ['>']))
      (fun _ => endOut name) id := by
  have hf : ∀ rest, ('<' :: '/' :: (name ++ ['>'])) ++ rest
      = '<' :: '/' :: (name ++ '>' :: rest) := by
    intro rest; simp
  refine ⟨?_, ?_, ?_, ?_, ?_, by simp⟩
  · intro i rest _
    have := startPass_plain i (name ++ ['>']) rest (name_plain name hn)
    simp only [List.cons_append, startPass_close, this, id]
  · intro i rest
    rw [hf, endPass_close name hn]
  · intro rest
    rw [hf]; exact (Contains_close name hn rest).1
  · intro rest
    rw [hf]; exact (Contains_close name hn rest).2
  · intro _
    exact endOut_no_amp name hn

theorem bodyOut_seg {t m o : List Char} (h : BodyOut t m o) (hh : t.head? ≠ some '\n') :
    Seg t (fun _ => m) (fun _ => o) id :=
  ⟨h.1, fun _ => h.2.1, h.2.2.1, h.2.2.2.1, fun _ => h.2.2.2.2, hh⟩

/-! ### Item bodies with inline tags -/

theorem dropNL_append (t rest : List Char) (hr : rest.head? ≠ some '\n') :
    dropNL (t ++ rest) = dropNL t ++ rest := by
  cases t with
  | nil => simpa [dropNL] using dropNL_of_head rest hr
  | cons c t => by_cases hc : c = '\n' <;> simp [dropNL, hc]

theorem mem_dropNL (c : Char) (t : List Char) (h : c ∉ t) : c ∉ dropNL t := by
  cases t with
  | nil => simp [dropNL]
  | cons x t =>
    by_cases hx : x = '\n'
    · simp only [dropNL, hx, if_true]
      exact fun hm => h (List.mem_cons_of_mem _ hm)
    · simpa [dropNL, hx] using h

theorem startOut_inline (i : Nat) (name : List Char) (hn : name ∈ inlineNames) :
    startOut i name = (i, (startOut 0 name).2) := by
  simp only [inlineNames, List.mem_cons, List.mem_singleton, List.not_mem_nil, or_false] at hn
  rcases hn with rfl | rfl | rfl | rfl | rfl <;> rfl

theorem inline_start (name : List Char) (hn : name ∈ inlineNames) : name ∈ startNames := by
  revert name; decide

theorem inline_end (name : List Char) (hn : name ∈ inlineNames) : name ∈ endNames := by
  revert name; decide

theorem bodyOut_cons {t m o : List Char} (c : Char) (h : BodyOut t m o) (h1 : c ≠ '<')
    (h2 : c ≠ '&') : BodyOut (c :: t) (c :: m) (c :: o) := by
  obtain ⟨a, b, d, e, f⟩ := h
  have hc : '<' ∉ [c] := by simpa using h1.symm
  refine ⟨?_, ?_, ?_, ?_, ?_⟩
  · intro i rest hr
    have := startPass_plain i [c] (t ++ rest) hc
    simp only [List.singleton_append] at this
    rw [List.cons_append, this, a i rest hr, List.cons_append]
  · intro rest
    have := endPass_plain [c] (m ++ rest) hc
    simp only [List.singleton_append] at this
    rw [List.cons_append, this, b rest, List.cons_append]
  · intro rest
    rw [List.cons_append, show "<img".toList = '<' :: "img".toList from rfl,
      Contains_cons_ne _ _ _ h1]
    exact d rest
  · intro rest
    rw [List.cons_append, show "<a ".toList = '<' :: "a ".toList from rfl,
      Contains_cons_ne _ _ _ h1]
    exact e rest
  · simp [h2.symm, f]

theorem inlineBody_out {t : List Char} (h : InlineBody t) :
    '&' ∉ t → (∃ m o, BodyOut t m o) ∧ (∃ m o, BodyOut (dropNL t) m o) := by
  induction h with
  | nil =>
    intro _
    have : BodyOut [] [] [] := by
      refine ⟨?_, ?_, ?_, ?_, ?_⟩ <;> simp
    exact ⟨⟨[], [], this⟩, ⟨[], [], this⟩⟩
  | char c t hc _ ih =>
    intro hamp
    have hc2 : c ≠ '&' := fun e => hamp (by simp [e])
    have ht : '&' ∉ t := fun e => hamp (by simp [e])
    obtain ⟨⟨m, o, hmo⟩, _⟩ := ih ht
    have hfull : ∃ m o, BodyOut (c :: t) m o := ⟨_, _, bodyOut_cons c hmo hc hc2⟩
    refine ⟨hfull, ?_⟩
    by_cases hn : c = '\n'
    · simp only [dropNL, hn, if_true]
      exact ⟨m, o, hmo⟩
    · simp only [dropNL, hn, if_false]
      exact hfull
  | openTag name t hn _ ih =>
    intro hamp
    have ht : '&' ∉ t := fun e => hamp (by simp [e])
    obtain ⟨⟨m0, o0, a0, b0, d0, e0, f0⟩, ⟨m, o, a, b, d, e, f⟩⟩ := ih ht
    have hs := inline_start name hn
    have hh := not_mem_of_harmless _ (startOut_harmless 0 name hs)
    have hfull : ∃ m o, BodyOut ('<' :: (name ++ '>' :: t)) m o := by
      refine ⟨(startOut 0 name).2 ++ m, (startOut 0 name).2 ++ o, ?_, ?_, ?_, ?_, ?_⟩
      · intro i rest hr
        have : '<' :: (name ++ '>' :: t) ++ rest = '<' :: (name ++ '>' :: (t ++ rest)) := by
          simp
        rw [this, startPass_open name hs, startOut_inline i name hn, dropNL_append t rest hr]
        show (startOut 0 name).2 ++ startPass i (dropNL t ++ rest) = _
        rw [a i rest hr, List.append_assoc]
      · intro rest
        rw [List.append_assoc, endPass_plain _ _ hh.1, b rest, List.append_assoc]
      · intro rest
        have : '<' :: (name ++ '>' :: t) ++ rest = '<' :: (name ++ '>' :: (t ++ rest)) := by
          simp
        rw [this, (Contains_open name hs _).1, d0]
      · intro rest
        have : '<' :: (name ++ '>' :: t) ++ rest = '<' :: (name ++ '>' :: (t ++ rest)) := by
          simp
        rw [this, (Contains_open name hs _).2, e0]
      · simp [hh.2, f]
    refine ⟨hfull, ?_⟩
    have : dropNL ('<' :: (name ++ '>' :: t)) = '<' :: (name ++ '>' :: t) := by
      simp [dropNL]
    rw [this]
    exact hfull
  | closeTag name t hn _ ih =>
    intro hamp
    have ht : '&' ∉ t := fun e => hamp (by simp [e])
    obtain ⟨⟨m0, o0, a0, b0, d0, e0, f0⟩, _⟩ := ih ht
    have he := inline_end name hn
    have hfull : ∃ m o, BodyOut ('<' :: '/' :: (name ++ '>' :: t)) m o := by
      refine ⟨'<' :: '/' :: (name ++ '>' :: m0), endOut name ++ o0, ?_, ?_, ?_, ?_, ?_⟩
      · intro i rest hr
        have h1 : '<' :: '/' :: (name ++ '>' :: t) ++ rest
            = '<' :: '/' :: ((name ++ ['>']) ++ (t ++ rest)) := by simp
        rw [h1, startPass_close, startPass_plain i _ _ (name_plain name he), a0 i rest hr]
        simp
      · intro rest
        have h1 : '<' :: '/' :: (name ++ '>' :: m0) ++ rest
            = '<' :: '/' :: (name ++ '>' :: (m0 ++ rest)) := by simp
        rw [h1, endPass_close name he, b0 rest, List.append_assoc]
      · intro rest
        have : '<' :: '/' :: (name ++ '>' :: t) ++ rest
            = '<' :: '/' :: (name ++ '>' :: (t ++ rest)) := by simp
        rw [this, (Contains_close name he _).1, d0]
      · intro rest
        have : '<' :: '/' :: (name ++ '>' :: t) ++ rest
            = '<' :: '/' :: (name ++ '>' :: (t ++ rest)) := by simp
        rw [this, (Contains_close name he _).2, e0]
      · simp [endOut_no_amp name he, f0]
    refine ⟨hfull, ?_⟩
    have : dropNL ('<' :: '/' :: (name ++ '>' :: t)) = '<' :: '/' :: (name ++ '>' :: t) := by
      simp [dropNL]
    rw [this]
    exact hfull

/-! ### Lists (C4, C5, C9) -/

theorem renders_append {s1 s2 : List Char} {o1 o2 : Nat → List Char} {n1 n2 : Nat → Nat}
    (h1 : Renders s1 o1 n1) (h2 : Renders s2 o2 n2) :
    Renders (s1 ++ s2) (fun i => o1 i ++ o2 (n1 i)) (fun i => n2 (n1 i)) := by
  obtain ⟨m1, h1⟩ := h1
  obtain ⟨m2, h2⟩ := h2
  exact ⟨_, seg_append h1 h2⟩

theorem renders_congr {s s' : List Char} {o o' : Nat → List Char} {n n' : Nat → Nat}
    (h : Renders s o n) (hs : s = s') (ho : ∀ i, o i = o' i) (hn : ∀ i, n i = n' i) :
    Renders s' o' n' := by
  have e1 : o = o' := funext ho
  have e2 : n = n' := funext hn
  subst hs e1 e2
  exact h

theorem renders_render {s : List Char} {o : Nat → List Char} {n : Nat → Nat}
    (h : Renders s o n) : htmlToMarkdown s = some (o 0) := by
  obtain ⟨m, h⟩ := h
  exact seg_render h

theorem renders_nil : Renders [] (fun _ => []) id := ⟨_, seg_nil⟩

theorem renders_openTag (name : List Char) (hn : name ∈ startNames) :
    Renders ('<' :: (name ++ ['>'])) (fun i => (startOut i name).2)
      (fun i => (startOut i name).1) := ⟨_, seg_openTag name hn⟩

theorem renders_closeTag (name : List Char) (hn : name ∈ endNames) :
    Renders ('<' :: '/' :: (name ++ ['>'])) (fun _ => endOut name) id :=
  ⟨_, seg_closeTag name hn⟩

theorem bodyRenders_renders {t r : List Char} (h : BodyRenders t r) :
    Renders t (fun _ => r) id := by
  obtain ⟨⟨m, hm⟩, hh⟩ := h
  exact ⟨_, bodyOut_seg hm hh⟩

theorem bodyRenders_plain (t : List Char) (h1 : '<' ∉ t) (h2 : '&' ∉ t)
    (h3 : t.head? ≠ some '\n') : BodyRenders t t := by
  obtain ⟨a, b, c, d, e, _⟩ := seg_text t h1 h2 h3
  exact ⟨⟨t, a, b 0, c, d, e 0⟩, h3⟩

theorem bodyRenders_inline (t : List Char) (h1 : InlineBody t) (h2 : '&' ∉ t)
    (h3 : t.head? ≠ some '\n') : ∃ r, BodyRenders t r := by
  obtain ⟨⟨m, o, h⟩, _⟩ := inlineBody_out h1 h2
  exact ⟨o, ⟨m, h⟩, h3⟩

theorem item_renders (t r : List Char) (h : BodyRenders t r) :
    Renders ("<li>".toList ++ t ++ "</li>".toList)
      (fun i => (startOut i "li".toList).2 ++ r) (fun i => (startOut i "li".toList).1) := by
  have h1 := renders_openTag "li".toList (by decide)
  have h3 := renders_closeTag "li".toList (by decide)
  refine renders_congr (renders_append (renders_append h1 (bodyRenders_renders h)) h3) ?_ ?_ ?_
  · simp
  · intro i
    show ((startOut i "li".toList).2 ++ r) ++ [] = _
    rw [List.append_nil]
  · intro i; rfl

theorem items_renders (bodies rs : List (List Char))
    (h : List.Forall₂ BodyRenders bodies rs) :
    Renders (itemsSrc bodies) (fun i => itemsOut i rs) (fun i => itemsNext i rs.length) := by
  induction h with
  | nil => exact renders_nil
  | cons hb _ ih =>
    refine renders_congr (renders_append (item_renders _ _ hb) ih) rfl ?_ ?_
    · intro i; rfl
    · intro i; rfl

theorem itemsOut_zero (rs : List (List Char)) : itemsOut 0 rs = marked rs := by
  induction rs with
  | nil => rfl
  | cons r rs ih =>
    show liMarker ++ r ++ itemsOut 0 rs = _
    rw [ih]; rfl

theorem itemsOut_succ (rs : List (List Char)) :
    ∀ k : Nat, itemsOut (k + 1) rs = numbered (k + 1) rs := by
  induction rs with
  | nil => intro k; rfl
  | cons r rs ih =>
    intro k
    have h : startOut (k + 1) "li".toList
        = (k + 1 + 1, (Nat.repr (k + 1 + 1 - 1)).toList ++ ". ".toList) := by
      simp [startOut, tagStartCallback]
    simp only [itemsOut, numbered, h, ih, Nat.add_sub_cancel]

theorem itemsNext_zero (n : Nat) : itemsNext 0 n = 0 := by
  induction n with
  | zero => rfl
  | succ n ih => exact ih

theorem ol_renders (bodies rs : List (List Char))
    (h : List.Forall₂ BodyRenders bodies rs) :
    Renders (olSrc bodies) (fun _ => numbered 1 rs) (fun _ => itemsNext 1 rs.length) := by
  have h1 := renders_openTag "ol".toList (by decide)
  have h3 := renders_closeTag "ol".toList (by decide)
  refine renders_congr (renders_append (renders_append h1 (items_renders bodies rs h)) h3) ?_ ?_ ?_
  · simp [olSrc]
  · intro i
    show ([] ++ itemsOut 1 rs) ++ [] = _
    rw [List.append_nil, List.nil_append, itemsOut_succ rs 0]
  · intro i; rfl

theorem ul_renders (bodies rs : List (List Char))
    (h : List.Forall₂ BodyRenders bodies rs) :
    Renders (ulSrc bodies) (fun _ => marked rs) (fun _ => 0) := by
  have h1 := renders_openTag "ul".toList (by decide)
  have h3 := renders_closeTag "ul".toList (by decide)
  refine renders_congr (renders_append (renders_append h1 (items_renders bodies rs h)) h3) ?_ ?_ ?_
  · simp [ulSrc]
  · intro i
    show ([] ++ itemsOut 0 rs) ++ [] = _
    rw [List.append_nil, List.nil_append, itemsOut_zero]
  · intro i
    show itemsNext 0 rs.length = 0
    exact itemsNext_zero _

theorem inlineBody_plain (t : List Char) (h : '<' ∉ t) : InlineBody t := by
  induction t with
  | nil => exact InlineBody.nil
  | cons c t ih =>
    exact InlineBody.char c t (fun e => h (by simp [e])) (ih (fun e => h (by simp [e])))

theorem bodies_render (bodies : List (List Char))
    (hb : ∀ t ∈ bodies, InlineBody t ∧ '&' ∉ t ∧ t.head? ≠ some '\n') :
    ∃ rs, List.Forall₂ BodyRenders bodies rs := by
  induction bodies with
  | nil => exact ⟨[], List.Forall₂.nil⟩
  | cons t ts ih =>
    obtain ⟨rs, hrs⟩ := ih (fun t' ht' => hb t' (List.mem_cons_of_mem _ ht'))
    obtain ⟨h1, h2, h3⟩ := hb t (List.mem_cons_self _ _)
    obtain ⟨r, hr⟩ := bodyRenders_inline t h1 h2 h3
    exact ⟨r :: rs, List.Forall₂.cons hr hrs⟩

theorem plain_bodies_render (bodies : List (List Char))
    (hb : ∀ t ∈ bodies, '<' ∉ t ∧ '&' ∉ t ∧ t.head? ≠ some '\n') :
    List.Forall₂ BodyRenders bodies bodies := by
  induction bodies with
  | nil => exact List.Forall₂.nil
  | cons t ts ih =>
    obtain ⟨h1, h2, h3⟩ := hb t (List.mem_cons_self _ _)
    exact List.Forall₂.cons (bodyRenders_plain t h1 h2 h3)
      (ih (fun t' ht' => hb t' (List.mem_cons_of_mem _ ht')))

/-- C4: in an ordered list whose item bodies hold no `<` outside the inline tags
`i`, `b`, `strong`, `pre`, `code`, no `&` and no leading newline, the k-th `<li>` is
replaced by the decimal of k and `. `: the output is the concatenation, for
k = 1, 2, ..., of k, `. ` and the rendering `r_k` that `htmlToMarkdown` gives to the
k-th body alone; for bodies without `<` it is the concatenation of k, `. ` and the
body itself. (The list may also be empty.) -/
theorem ol_items_numbered (bodies : List (List Char))
    (hb : ∀ t ∈ bodies, InlineBody t ∧ '&' ∉ t ∧ t.head? ≠ some '\n') :
    (∃ rs, List.Forall₂ (fun t r => htmlToMarkdown t = some r) bodies rs
        ∧ htmlToMarkdown (olSrc bodies) = some (numbered 1 rs))
    ∧ ((∀ t ∈ bodies, '<' ∉ t) → htmlToMarkdown (olSrc bodies) = some (numbered 1 bodies)) := by
  constructor
  · obtain ⟨rs, hrs⟩ := bodies_render bodies hb
    refine ⟨rs, ?_, renders_render (ol_renders bodies rs hrs)⟩
    exact List.Forall₂.imp (fun _ _ h => renders_render (bodyRenders_renders h)) hrs
  · intro hp
    have := plain_bodies_render bodies
      (fun t ht => ⟨hp t ht, (hb t ht).2.1, (hb t ht).2.2⟩)
    exact renders_render (ol_renders bodies bodies this)

/-- Witness of C4: two items with inline tags, rendered `1. ` and `2. `, and the list
of the tests of the repository. -/
theorem ol_items_numbered_witness :
    (∃ rs, List.Forall₂ (fun t r => htmlToMarkdown t = some r)
          ["<b>x</b>y".toList, "a<i>b</i>".toList] rs
        ∧ htmlToMarkdown (olSrc ["<b>x</b>y".toList, "a<i>b</i>".toList])
          = some (numbered 1 rs))
    ∧ htmlToMarkdown (olSrc ["Test".toList, "B".toList])
        = some (numbered 1 ["Test".toList, "B".toList]) := by
  have h1 : InlineBody "<b>x</b>y".toList :=
    InlineBody.openTag "b".toList _ (by decide) (InlineBody.char 'x' _ (by decide)
      (InlineBody.closeTag "b".toList _ (by decide) (inlineBody_plain "y".toList (by decide))))
  have h2 : InlineBody "a<i>b</i>".toList :=
    InlineBody.char 'a' _ (by decide) (InlineBody.openTag "i".toList _ (by decide)
      (InlineBody.char 'b' _ (by decide)
        (InlineBody.closeTag "i".toList _ (by decide) InlineBody.nil)))
  refine ⟨(ol_items_numbered ["<b>x</b>y".toList, "a<i>b</i>".toList] ?_).1,
    (ol_items_numbered ["Test".toList, "B".toList] ?_).2 (by decide)⟩
  · intro t ht
    simp only [List.mem_cons, List.mem_singleton, List.not_mem_nil, or_false] at ht
    rcases ht with rfl | rfl
    · exact ⟨h1, by decide, by decide⟩
    · exact ⟨h2, by decide, by decide⟩
  · intro t ht
    simp only [List.mem_cons, List.mem_singleton, List.not_mem_nil, or_false] at ht
    rcases ht with rfl | rfl
    · exact ⟨inlineBody_plain _ (by decide), by decide, by decide⟩
    · exact ⟨inlineBody_plain _ (by decide), by decide, by decide⟩

theorem marked_ne_bulleted (r : List Char) (rs : List (List Char)) :
    marked (r :: rs) ≠ bulleted (r :: rs) := by
  intro h
  have h2 : (marked (r :: rs)).head? = (bulleted (r :: rs)).head? := by rw [h]
  have e1 : (marked (r :: rs)).head? = some (Char.ofNat 0xE2) := rfl
  have e2 : (bulleted (r :: rs)).head? = some (Char.ofNat 0x2022) := rfl
  rw [e1, e2] at h2
  exact absurd h2 (by decide)

/-- C5, the code on an unordered list of plain items (no `<`, no `&`, no leading
newline): each item is preceded by the four characters U+00E2, U+20AC, U+00A2,
space that the source has as the literal for `li`, not by the bullet marker U+2022
and a space; on a list with at least one item the output differs from the
concatenation of the bullet marker and the items, and on the list of the tests of
the repository it is not `• Test`. -/
theorem ul_items_marker (bodies : List (List Char))
    (hb : ∀ t ∈ bodies, '<' ∉ t ∧ '&' ∉ t ∧ t.head? ≠ some '\n') :
    htmlToMarkdown (ulSrc bodies) = some (marked bodies)
    ∧ (bodies ≠ [] → htmlToMarkdown (ulSrc bodies) ≠ some (bulleted bodies))
    ∧ htmlToMarkdown "<ul><li>Test</li></ul>".toList
        = some [Char.ofNat 0xE2, Char.ofNat 0x20AC, Char.ofNat 0xA2, ' ', 'T', 'e', 's', 't']
    ∧ htmlToMarkdown "<ul><li>Test</li></ul>".toList ≠ some "• Test".toList := by
  have h := renders_render (ul_renders bodies bodies (plain_bodies_render bodies hb))
  refine ⟨h, ?_, by decide, by decide⟩
  intro hne heq
  rw [h] at heq
  cases bodies with
  | nil => exact hne rfl
  | cons r rs => exact marked_ne_bulleted r rs (Option.some.inj heq)

/-- Witness of C5 at a list of two items. -/
theorem ul_items_marker_witness :
    htmlToMarkdown (ulSrc ["Test".toList, "B".toList])
      = some (marked ["Test".toList, "B".toList])
    ∧ htmlToMarkdown (ulSrc ["Test".toList, "B".toList])
      ≠ some (bulleted ["Test".toList, "B".toList]) :=
  have h := ul_items_marker ["Test".toList, "B".toList] (by decide)
  ⟨h.1, h.2.1 (by decide)⟩

/-- C9, the code on two consecutive lists of plain items: every list-start tag resets
the list mode and the counter (a second ordered list is numbered from 1 again, an
unordered list after an ordered one is not numbered, an ordered list after an
unordered one is numbered from 1), but the items of an unordered list are preceded
by U+00E2, U+20AC, U+00A2, space and not by the bullet marker: the ordered list
followed by the unordered list of one item `b` gives `1. a` and then those four
characters and `b`, not `1. a• b`. -/
theorem list_start_resets (xs ys : List (List Char))
    (hx : ∀ t ∈ xs, '<' ∉ t ∧ '&' ∉ t ∧ t.head? ≠ some '\n')
    (hy : ∀ t ∈ ys, '<' ∉ t ∧ '&' ∉ t ∧ t.head? ≠ some '\n') :
    htmlToMarkdown (olSrc xs ++ olSrc ys) = some (numbered 1 xs ++ numbered 1 ys)
    ∧ htmlToMarkdown (olSrc xs ++ ulSrc ys) = some (numbered 1 xs ++ marked ys)
    ∧ htmlToMarkdown (ulSrc xs ++ olSrc ys) = some (marked xs ++ numbered 1 ys)
    ∧ htmlToMarkdown "<ol><li>a</li></ol><ul><li>b</li></ul>".toList
        = some ['1', '.', ' ', 'a', Char.ofNat 0xE2, Char.ofNat 0x20AC, Char.ofNat 0xA2, ' ', 'b']
    ∧ htmlToMarkdown "<ol><li>a</li></ol><ul><li>b</li></ul>".toList
        ≠ some "1. a• b".toList := by
  have ox := ol_renders xs xs (plain_bodies_render xs hx)
  have oy := ol_renders ys ys (plain_bodies_render ys hy)
  have ux := ul_renders xs xs (plain_bodies_render xs hx)
  have uy := ul_renders ys ys (plain_bodies_render ys hy)
  exact ⟨renders_render (renders_append ox oy), renders_render (renders_append ox uy),
    renders_render (renders_append ux oy), by decide, by decide⟩

/-- Witness of C9 with two items in each list. -/
theorem list_start_resets_witness :
    htmlToMarkdown (olSrc ["a".toList, "b".toList] ++ olSrc ["c".toList, "d".toList])
      = some "1. a2. b1. c2. d".toList
    ∧ htmlToMarkdown (olSrc ["a".toList, "b".toList] ++ ulSrc ["c".toList, "d".toList])
      = some ("1. a2. b".toList ++ marked ["c".toList, "d".toList])
    ∧ htmlToMarkdown (ulSrc ["a".toList, "b".toList] ++ olSrc ["c".toList, "d".toList])
      = some (marked ["a".toList, "b".toList] ++ "1. c2. d".toList) :=
  have h := list_start_resets ["a".toList, "b".toList] ["c".toList, "d".toList]
    (by decide) (by decide)
  ⟨h.1, h.2.1, h.2.2.1⟩

/-! ### Line breaks, tag-free text, totality (C6, C7, C8) -/

theorem matchAt_start_slash (name : List Char) (hn : name ∈ startNames) (rest : List Char) :
    matchAt htmlTagStartRegex ('<' :: (name ++ '/' :: '>' :: rest))
      = some (dropNL rest, [some name, nlCap rest]) := by
  simp only [startNames, List.mem_cons, List.mem_singleton, List.not_mem_nil, or_false] at hn
  rcases hn with rfl | rfl | rfl | rfl | rfl | rfl | rfl | rfl | rfl | rfl <;>
  · cases rest with
    | nil =>
      simp [matchAt, htmlTagStartRegex, tagStartNames, run, stripPrefix, runStarNot,
        Regex.numGroups, dropNL, nlCap]
    | cons x xs =>
      by_cases hx : x = '\n' <;>
      simp [matchAt, htmlTagStartRegex, tagStartNames, run, stripPrefix, runStarNot,
        Regex.numGroups, dropNL, nlCap, hx]

theorem startPass_open_slash (name : List Char) (hn : name ∈ startNames) (rest : List Char)
    (index : Nat) :
    startPass index ('<' :: (name ++ '/' :: '>' :: rest))
      = (startOut index name).2 ++ startPass (startOut index name).1 (dropNL rest) := by
  have hm := matchAt_start_slash name hn rest
  have hs : name ++ '/' :: '>' :: rest = (name ++ '/' :: '>' :: nlPart rest) ++ dropNL rest := by
    rw [List.append_assoc, List.cons_append, List.cons_append, nlPart_append_dropNL]
  rw [hs] at hm ⊢
  exact scan_match htmlTagStartRegex tagStartCallback tagStartCallback_answers '<' _ _ _
    index _ _ hm (tagStartCallback_eq index _ name _)

/-- C6: a line break tag is rendered as exactly one newline, in the forms `<br>`,
`<br/>` and `<br />`; between plain texts `s` and `t` (no `<`, no `&`, `t` without a
leading newline) `<br/>` becomes the single newline between `s` and `t`. -/
theorem br_renders_newline (s t : List Char) (hs : '<' ∉ s) (hs' : '&' ∉ s)
    (ht : '<' ∉ t) (ht' : '&' ∉ t) (hnl : t.head? ≠ some '\n') :
    htmlToMarkdown "<br>".toList = some "\n".toList
    ∧ htmlToMarkdown "<br/>".toList = some "\n".toList
    ∧ htmlToMarkdown "<br />".toList = some "\n".toList
    ∧ htmlToMarkdown (s ++ "<br/>".toList ++ t) = some (s ++ "\n".toList ++ t) := by
  refine ⟨by decide, by decide, by decide, ?_⟩
  have hform : s ++ "<br/>".toList ++ t = s ++ ('<' :: ("br".toList ++ '/' :: '>' :: t)) := by
    simp
  have hg1 : Contains (s ++ "<br/>".toList ++ t) "<img".toList = false := by
    rw [hform, show "<img".toList = '<' :: "img".toList from rfl, Contains_plain s _ _ hs]
    have : Contains t ['<', 'i', 'm', 'g'] = false := Contains_of_plain t "img".toList ht
    simp [Contains, List.isPrefixOf, this]
  have hg2 : Contains (s ++ "<br/>".toList ++ t) "<a ".toList = false := by
    rw [hform, show "<a ".toList = '<' :: "a ".toList from rfl, Contains_plain s _ _ hs]
    have : Contains t ['<', 'a', ' '] = false := Contains_of_plain t "a ".toList ht
    simp [Contains, List.isPrefixOf, this]
  have h1 : startPass 0 (s ++ "<br/>".toList ++ t) = s ++ "\n".toList ++ t := by
    rw [hform, startPass_plain 0 s _ hs, startPass_open_slash "br".toList (by decide),
      dropNL_of_head t hnl]
    have : startPass 0 t = t := by
      have := startPass_plain 0 t [] ht
      simpa [startPass_nil] using this
    show s ++ ("\n".toList ++ startPass 0 t) = _
    rw [this, List.append_assoc]
  have hp : '<' ∉ s ++ "\n".toList ++ t := by
    simp [hs, ht]
  have ha : '&' ∉ s ++ "\n".toList ++ t := by
    simp [hs', ht']
  have h2 : endPass (s ++ "\n".toList ++ t) = s ++ "\n".toList ++ t := by
    have := endPass_plain _ [] hp
    simpa [endPass_nil] using this
  rw [htmlToMarkdown_eq, hg1]
  simp only [Bool.false_eq_true, if_false, hg2]
  rw [h1, h2, UnescapeString_of_no_amp _ ha]

/-- Witness of C6 with text on both sides of the tag. -/
theorem br_renders_newline_witness :
    htmlToMarkdown "<br>".toList = some "\n".toList
    ∧ htmlToMarkdown "<br/>".toList = some "\n".toList
    ∧ htmlToMarkdown "<br />".toList = some "\n".toList
    ∧ htmlToMarkdown ("one".toList ++ "<br/>".toList ++ "two".toList)
      = some ("one".toList ++ "\n".toList ++ "two".toList) :=
  br_renders_newline "one".toList "two".toList (by decide) (by decide) (by decide)
    (by decide) (by decide)

/-- C7: an input without `<` comes out as its entity-decoded form and nothing else
is changed (an input without `<` and `&` comes out as it is); the tag delimiters that
entities decode to are not read as markup. The decoding is that of
`html.UnescapeString`: names of the full entity table with their `;` (`&mdash;`,
`&copy;`), names of two code points (`&NotEqualTilde;`), the longest known name
without `;` at the head of a run of letters (`&notit;`, `&amp`), decimal and
hexadecimal references with the Windows-1252 replacements (`&#65;`, `&#x42;`,
`&#128;`); an unknown name, a single decimal digit without `;` and a bare `&` stay as
written. -/
theorem no_tags_only_decoded (text : List Char) (h : '<' ∉ text) :
    htmlToMarkdown text = some (UnescapeString text)
    ∧ ('&' ∉ text → htmlToMarkdown text = some text)
    ∧ htmlToMarkdown "&lt;b&gt;x&lt;/b&gt;".toList = some "<b>x</b>".toList
    ∧ htmlToMarkdown "&lt;b&gt;x&lt;/b&gt;".toList ≠ some "**x**".toList
    ∧ htmlToMarkdown [] = some []
    ∧ htmlToMarkdown "&mdash; &copy; 2025".toList = some "— © 2025".toList
    ∧ htmlToMarkdown "&#65;&#x42;&#128;".toList = some "AB€".toList
    ∧ htmlToMarkdown "&notit; &amp".toList = some "¬it; &".toList
    ∧ htmlToMarkdown "&NotEqualTilde;".toList = some [Char.ofNat 0x2242, Char.ofNat 0x338]
    ∧ htmlToMarkdown "&foo; &#1a & b".toList = some "&foo; &#1a & b".toList := by
  have main : htmlToMarkdown text = some (UnescapeString text) := ?_
  · refine ⟨main, ?_, by decide, by decide, by decide, by decide, by decide, by decide,
      by decide, by decide⟩
    intro ha
    rw [main, UnescapeString_of_no_amp text ha]
  have hg1 : Contains text "<img".toList = false := Contains_of_plain text _ h
  have hg2 : Contains text "<a ".toList = false := Contains_of_plain text _ h
  have h1 : startPass 0 text = text := by
    have := startPass_plain 0 text [] h
    simpa [startPass_nil] using this
  have h2 : endPass text = text := by
    have := endPass_plain text [] h
    simpa [endPass_nil] using this
  rw [htmlToMarkdown_eq, hg1]
  simp only [Bool.false_eq_true, if_false, hg2]
  rw [h1, h2]

/-- Witness of C7 at a text with entities and no `<`, and at a text without `&`. -/
theorem no_tags_only_decoded_witness :
    htmlToMarkdown "a &amp; b &gt; c &hellip;".toList
      = some (UnescapeString "a &amp; b &gt; c &hellip;".toList)
    ∧ UnescapeString "a &amp; b &gt; c &hellip;".toList = "a & b > c …".toList
    ∧ htmlToMarkdown "a > b".toList = some "a > b".toList :=
  ⟨(no_tags_only_decoded "a &amp; b &gt; c &hellip;".toList (by decide)).1, by decide,
    (no_tags_only_decoded "a > b".toList (by decide)).2.1 (by decide)⟩

/-- C8: `htmlToMarkdown` returns a text for every input, and every access a callback
makes into the submatch list is in range: a match of the image, opening-tag and
closing-tag patterns has a submatch 0 and a match of the link pattern has
submatches 0 and 1, also when the trailing-newline group took no part. -/
theorem htmlToMarkdown_total (text : List Char) :
    (∃ out, htmlToMarkdown text = some out)
    ∧ (∀ rest caps, matchAt htmlImgTagRegex text = some (rest, caps) →
        ∃ a, submatches caps = [a] ∧ (submatches caps)[0]? = some a)
    ∧ (∀ rest caps, matchAt htmlLinkTagRegex text = some (rest, caps) →
        ∃ a b, submatches caps = [a, b] ∧ (submatches caps)[0]? = some a
          ∧ (submatches caps)[1]? = some b)
    ∧ (∀ rest caps, matchAt htmlTagStartRegex text = some (rest, caps) →
        ∃ a b, submatches caps = [a, b] ∧ (submatches caps)[0]? = some a)
    ∧ (∀ rest caps, matchAt htmlTagEndRegex text = some (rest, caps) →
        ∃ a, submatches caps = [a] ∧ (submatches caps)[0]? = some a)
    ∧ matchAt htmlTagStartRegex "<i>x".toList = some ("x".toList, [some "i".toList, none])
    ∧ tagStartCallback 0 "<i>".toList (submatches [some "i".toList, none])
        = some (0, "*".toList) := by
  refine ⟨⟨_, htmlToMarkdown_eq text⟩, ?_, ?_, ?_, ?_, by decide, by decide⟩
  · intro rest caps h
    have := matchAt_caps_length _ _ _ _ h
    match hc : submatches caps, this with
    | [a], _ => exact ⟨a, rfl, rfl⟩
  · intro rest caps h
    have := matchAt_caps_length _ _ _ _ h
    match hc : submatches caps, this with
    | [a, b], _ => exact ⟨a, b, rfl, rfl, rfl⟩
  · intro rest caps h
    have := matchAt_caps_length _ _ _ _ h
    match hc : submatches caps, this with
    | [a, b], _ => exact ⟨a, b, rfl, rfl⟩
  · intro rest caps h
    have := matchAt_caps_length _ _ _ _ h
    match hc : submatches caps, this with
    | [a], _ => exact ⟨a, rfl, rfl⟩

/-! ### The bare image tag (C10) -/

theorem runStarNot_none (c : Char) (k : Cont) (t rest : List Char) (caps : Caps)
    (hk : ∀ x xs cp, x ≠ c → k (x :: xs) cp = none)
    (hc : k (c :: rest) caps = none) (ht : c ∉ t) :
    runStarNot c k (t ++ c :: rest) caps = none := by
  induction t with
  | nil => simpa [runStarNot] using hc
  | cons x t ih =>
    have hx : x ≠ c := fun h => ht (by simp [h])
    have ht' : c ∉ t := fun h => ht (by simp [h])
    simp [runStarNot, hx, ih ht', hk x _ caps hx]

theorem matchAt_img_bare (x : Char) (u : List Char) (hx : x ≠ '"') (hu : '"' ∉ u) :
    matchAt htmlImgTagRegex ("<img src=\"".toList ++ (x :: (u ++ '"' :: '>' :: []))) = none := by
  have hlit : stripPrefix "<img src=\"".toList
      ("<img src=\"".toList ++ (x :: (u ++ '"' :: '>' :: [])))
      = some (x :: (u ++ '"' :: '>' :: [])) := rfl
  simp only [matchAt, htmlImgTagRegex, run, hlit, hx, if_false]
  apply runStarNot_none '"' _ u _ _ _ _ hu
  · intro y ys cp hy
    simp [stripPrefix, hy]
  · simp [stripPrefix]

theorem run_alt_left (a b : Regex) (k : Cont) (s : List Char) (caps : Caps) (r : MatchResult)
    (h : run a k s caps = some r) : run (.alt a b) k s caps = some r := by
  simp only [run, h]

theorem run_alt_right (a b : Regex) (k : Cont) (s : List Char) (caps : Caps) (r : MatchResult)
    (ha : run a k s caps = none) (h : run b k s caps = some r) :
    run (.alt a b) k s caps = some r := by
  simp only [run, ha, h]

theorem run_lit_none (l : List Char) (k : Cont) (s : List Char) (caps : Caps)
    (h : stripPrefix l s = none) : run (.lit l) k s caps = none := by
  simp only [run, h]

theorem run_seq_group_of (i : Nat) (a b : Regex) (k : Cont) (s : List Char) (caps : Caps)
    (r : MatchResult)
    (h : run a (fun s' caps' =>
        run b k s' (caps'.set i (some (s.take (s.length - s'.length))))) s caps = some r) :
    run (.seq (.group i a) b) k s caps = some r := h

theorem matchAt_start_img (w : List Char) (hw : '>' ∉ w) :
    matchAt htmlTagStartRegex ('<' :: 'i' :: (w ++ '>' :: []))
      = some ([], [some "i".toList, some []]) := by
  unfold matchAt htmlTagStartRegex
  refine run_seq_lit_of _ _ _ _ _ _ _ rfl ?_
  refine run_seq_group_of _ _ _ _ _ _ _ ?_
  unfold tagStartNames
  refine run_alt_right _ _ _ _ _ _ (run_lit_none _ _ _ _ rfl) ?_
  refine run_alt_right _ _ _ _ _ _ (run_lit_none _ _ _ _ rfl) ?_
  refine run_alt_right _ _ _ _ _ _ (run_lit_none _ _ _ _ rfl) ?_
  refine run_alt_right _ _ _ _ _ _ (run_lit_none _ _ _ _ rfl) ?_
  refine run_alt_right _ _ _ _ _ _ (run_lit_none _ _ _ _ rfl) ?_
  refine run_alt_right _ _ _ _ _ _ (run_lit_none _ _ _ _ rfl) ?_
  refine run_alt_right _ _ _ _ _ _ (run_lit_none _ _ _ _ rfl) ?_
  refine run_alt_left _ _ _ _ _ _ ?_
  refine run_lit_of _ _ _ (w ++ '>' :: []) _ _ rfl ?_
  refine run_seq_starNot_of '>' _ _ w [] _ _ hw ?_
  have ht := take_length_sub ['i'] (w ++ ['>'])
  simp only [List.cons_append, List.nil_append] at ht
  simp [run, stripPrefix, Regex.numGroups, ht]

/-- C10, the code at the bare image tag `<img src="u">`: it does not write the image; the image
pattern asks for at least one character between the closing quote and `>`, the tag
is left to the opening-tag pass, which reads it as an `i` tag and writes `*`; the
self-closed form `<img src="u"/>` is rendered as `![IMG](u)`. -/
theorem img_bare_tag_renders_star (u : List Char) (hu : u ≠ [])
    (hu1 : '"' ∉ u) (hu2 : '<' ∉ u) (hu3 : '>' ∉ u) (hu4 : '&' ∉ u) :
    htmlToMarkdown ("<img src=\"".toList ++ u ++ "\">".toList) = some "*".toList
    ∧ htmlToMarkdown ("<img src=\"".toList ++ u ++ "\"/>".toList)
      = some ("![IMG](".toList ++ u ++ ")".toList) := by
  constructor
  · cases u with
    | nil => exact absurd rfl hu
    | cons x u =>
      have hx : x ≠ '"' := fun e => hu1 (by simp [e])
      have hu' : '"' ∉ u := fun e => hu1 (by simp [e])
      have hform : "<img src=\"".toList ++ (x :: u) ++ "\">".toList
          = '<' :: ("img src=\"".toList ++ (x :: (u ++ '"' :: '>' :: []))) := by
        simp
      have hplain : '<' ∉ "img src=\"".toList ++ (x :: (u ++ '"' :: '>' :: [])) := by
        have h1 : x ≠ '<' := fun e => hu2 (by simp [e])
        have h2 : '<' ∉ u := fun e => hu2 (by simp [e])
        simp [h1.symm, h2]
      have hg1 : imgPass ("<img src=\"".toList ++ (x :: u) ++ "\">".toList)
          = "<img src=\"".toList ++ (x :: u) ++ "\">".toList := by
        have hm := matchAt_img_bare x u hx hu'
        rw [hform]
        have h0 : "<img src=\"".toList ++ (x :: (u ++ '"' :: '>' :: []))
            = '<' :: ("img src=\"".toList ++ (x :: (u ++ '"' :: '>' :: []))) := rfl
        rw [h0] at hm
        have hs := scan_plain htmlImgTagRegex imgCallback imgCallback_answers
          htmlImgTagRegex_noMatchOffLt _ [] () hplain
        rw [List.append_nil, scan_nil, List.append_nil] at hs
        rw [imgPass, scan_nomatch _ _ imgCallback_answers _ _ _ hm, hs]
      have hg2 : Contains ("<img src=\"".toList ++ (x :: u) ++ "\">".toList) "<a ".toList
          = false := by
        rw [hform]
        have h2 : Contains ("img src=\"".toList ++ (x :: (u ++ '"' :: '>' :: []))) "<a ".toList
            = false := Contains_of_plain _ "a ".toList hplain
        show (List.isPrefixOf "<a ".toList
            ('<' :: ("img src=\"".toList ++ (x :: (u ++ '"' :: '>' :: []))))
          || Contains ("img src=\"".toList ++ (x :: (u ++ '"' :: '>' :: []))) "<a ".toList)
          = false
        rw [h2]
        rfl
      have hw : '>' ∉ "mg src=\"".toList ++ (x :: (u ++ ['"'])) := by
        have h1 : x ≠ '>' := fun e => hu3 (by simp [e])
        have h2 : '>' ∉ u := fun e => hu3 (by simp [e])
        simp [h1.symm, h2]
      have hms := matchAt_start_img _ hw
      have hform2 : "<img src=\"".toList ++ (x :: u) ++ "\">".toList
          = '<' :: (('i' :: ("mg src=\"".toList ++ (x :: (u ++ ['"'])) ++ '>' :: [])) ++ []) := by
        simp
      have hsp : startPass 0 ("<img src=\"".toList ++ (x :: u) ++ "\">".toList) = "*".toList := by
        rw [hform2]
        have h0 : '<' :: 'i' :: ("mg src=\"".toList ++ (x :: (u ++ ['"'])) ++ '>' :: [])
            = '<' :: (('i' :: ("mg src=\"".toList ++ (x :: (u ++ ['"'])) ++ '>' :: [])) ++ [])
            := by simp
        rw [h0] at hms
        have := scan_match htmlTagStartRegex tagStartCallback tagStartCallback_answers '<' _ []
          _ 0 0 "*".toList hms rfl
        rw [startPass, this, scan_nil, List.append_nil]
      rw [htmlToMarkdown_eq]
      have hc : Contains ("<img src=\"".toList ++ (x :: u) ++ "\">".toList) "<img".toList
          = true := by
        simp [Contains, List.isPrefixOf]
      simp only [hc, if_true, hg1, hg2, Bool.false_eq_true, if_false, hsp]
      decide
  · cases u with
    | nil => exact absurd rfl hu
    | cons x u =>
      have hx : x ≠ '"' ∧ x ≠ '<' ∧ x ≠ '&' :=
        ⟨fun e => hu1 (by simp [e]), fun e => hu2 (by simp [e]), fun e => hu4 (by simp [e])⟩
      have hu' : '"' ∉ u ∧ '<' ∉ u ∧ '&' ∉ u :=
        ⟨fun e => hu1 (by simp [e]), fun e => hu2 (by simp [e]), fun e => hu4 (by simp [e])⟩
      have := img_render_aux x u '/' [] hx hu' (by decide) (by decide)
      simpa [List.append_assoc] using this

/-- Witness of C10: the bare and the self-closed image tag of
`https://domain.com/image.png`. -/
theorem img_bare_tag_renders_star_witness :
    htmlToMarkdown ("<img src=\"".toList ++ "https://domain.com/image.png".toList
        ++ "\">".toList) = some "*".toList
    ∧ htmlToMarkdown ("<img src=\"".toList ++ "https://domain.com/image.png".toList
        ++ "\"/>".toList)
      = some ("![IMG](".toList ++ "https://domain.com/image.png".toList ++ ")".toList) :=
  img_bare_tag_renders_star "https://domain.com/image.png".toList (by decide) (by decide)
    (by decide) (by decide) (by decide)

/-! ### Matches consume text -/

theorem stripPrefix_eq (l : List Char) :
    ∀ (s rest : List Char), stripPrefix l s = some rest → s = l ++ rest := by
  induction l with
  | nil => intro s rest h; simpa [stripPrefix] using h
  | cons c l ih =>
    intro s rest h
    cases s with
    | nil => simp [stripPrefix] at h
    | cons x xs =>
      simp only [stripPrefix] at h
      split at h
      · next hx => rw [hx, ih xs rest h]; rfl
      · cases h

theorem runStarNot_suffix (c : Char) (k : Cont) :
    ∀ (s : List Char) (caps : Caps) (r : MatchResult), runStarNot c k s caps = some r →
      ∃ s' caps', s' <:+ s ∧ k s' caps' = some r := by
  intro s
  induction s with
  | nil =>
    intro caps r h
    exact ⟨[], caps, List.suffix_refl _, by simpa [runStarNot] using h⟩
  | cons x xs ih =>
    intro caps r h
    unfold runStarNot at h
    split at h
    · exact ⟨_, caps, List.suffix_refl _, h⟩
    · split at h
      · next r' hr' =>
        cases h
        obtain ⟨s', caps', hs, hk⟩ := ih caps _ hr'
        exact ⟨s', caps', hs.trans (List.suffix_cons _ _), hk⟩
      · exact ⟨_, caps, List.suffix_refl _, h⟩

theorem run_suffix (re : Regex) :
    ∀ (k : Cont) (s : List Char) (caps : Caps) (r : MatchResult), run re k s caps = some r →
      ∃ s' caps', s' <:+ s ∧ k s' caps' = some r := by
  induction re with
  | lit l =>
    intro k s caps r h
    simp only [run] at h
    split at h
    · next rest hrest =>
      exact ⟨rest, caps, ⟨l, (stripPrefix_eq l s rest hrest).symm⟩, h⟩
    · cases h
  | starNot c => intro k; exact runStarNot_suffix c k
  | plusNot c =>
    intro k s caps r h
    simp only [run] at h
    split at h
    · cases h
    · split at h
      · cases h
      · obtain ⟨s', caps', hs, hk⟩ := runStarNot_suffix c k _ _ _ h
        exact ⟨s', caps', hs.trans (List.suffix_cons _ _), hk⟩
  | seq a b iha ihb =>
    intro k s caps r h
    obtain ⟨s1, c1, hs1, h1⟩ := iha _ _ _ _ h
    obtain ⟨s2, c2, hs2, h2⟩ := ihb _ _ _ _ h1
    exact ⟨s2, c2, hs2.trans hs1, h2⟩
  | alt a b iha ihb =>
    intro k s caps r h
    simp only [run] at h
    split at h
    · next r' hr' => cases h; exact iha _ _ _ _ hr'
    · exact ihb _ _ _ _ h
  | opt a iha =>
    intro k s caps r h
    simp only [run] at h
    split at h
    · next r' hr' => cases h; exact iha _ _ _ _ hr'
    · exact ⟨s, caps, List.suffix_refl _, h⟩
  | group i a iha =>
    intro k s caps r h
    simp only [run] at h
    obtain ⟨s', caps', hs, hk⟩ := iha _ _ _ _ h
    exact ⟨s', _, hs, hk⟩
  | eot =>
    intro k s caps r h
    simp only [run] at h
    split at h
    · exact ⟨[], caps, List.suffix_refl _, h⟩
    · cases h

theorem matchAt_suffix (re : Regex) (s rest : List Char) (caps : Caps)
    (h : matchAt re s = some (rest, caps)) : rest <:+ s := by
  obtain ⟨s', caps', hs, hk⟩ := run_suffix re _ _ _ _ h
  cases hk
  exact hs

theorem run_lit_seq_consumes (c : Char) (l : List Char) (b : Regex) (s rest : List Char)
    (caps : Caps) (h : matchAt (.seq (.lit (c :: l)) b) s = some (rest, caps)) :
    rest.length < s.length := by
  unfold matchAt at h
  simp only [run] at h
  split at h
  · next rest0 hrest0 =>
    obtain ⟨s3, c3, hs3, h3⟩ := run_suffix b _ _ _ _ h
    cases h3
    have hs := stripPrefix_eq _ _ _ hrest0
    have hle := hs3.length_le
    rw [hs]
    simp only [List.length_append, List.length_cons]
    omega
  · cases h

/-- Every match of the four patterns takes at least one character and ends inside
the text it started in. -/
theorem matchAt_consumes (s rest : List Char) (caps : Caps) :
    (matchAt htmlTagStartRegex s = some (rest, caps) → rest <:+ s ∧ rest.length < s.length)
    ∧ (matchAt htmlTagEndRegex s = some (rest, caps) → rest <:+ s ∧ rest.length < s.length)
    ∧ (matchAt htmlImgTagRegex s = some (rest, caps) → rest <:+ s ∧ rest.length < s.length)
    ∧ (matchAt htmlLinkTagRegex s = some (rest, caps) → rest <:+ s ∧ rest.length < s.length) :=
  ⟨fun h => ⟨matchAt_suffix _ _ _ _ h, run_lit_seq_consumes _ _ _ _ _ _ h⟩,
   fun h => ⟨matchAt_suffix _ _ _ _ h, run_lit_seq_consumes _ _ _ _ _ _ h⟩,
   fun h => ⟨matchAt_suffix _ _ _ _ h, run_lit_seq_consumes _ _ _ _ _ _ h⟩,
   fun h => ⟨matchAt_suffix _ _ _ _ h, run_lit_seq_consumes _ _ _ _ _ _ h⟩⟩

/-! ### Tags outside the vocabulary (C11) -/

theorem stripPrefix_none_of_not_prefix (l : List Char) :
    ∀ s : List Char, l.isPrefixOf s = false → stripPrefix l s = none := by
  induction l with
  | nil => intro s h; simp [List.isPrefixOf] at h
  | cons c l ih =>
    intro s h
    cases s with
    | nil => rfl
    | cons x xs =>
      simp only [stripPrefix]
      by_cases hx : x = c
      · subst hx
        simp only [if_true]
        apply ih
        simpa [List.isPrefixOf] using h
      · simp [hx]

theorem matchAt_start_none (s : List Char)
    (hp : ∀ v ∈ startNames, v.isPrefixOf s = false) :
    matchAt htmlTagStartRegex ('<' :: s) = none := by
  have h := fun v hv => stripPrefix_none_of_not_prefix v s (hp v hv)
  have h1 := h "strong".toList (by decide)
  have h2 := h "pre".toList (by decide)
  have h3 := h "code".toList (by decide)
  have h4 := h "ol".toList (by decide)
  have h5 := h "ul".toList (by decide)
  have h6 := h "li".toList (by decide)
  have h7 := h "br".toList (by decide)
  have h8 := h "i".toList (by decide)
  have h9 := h "b".toList (by decide)
  have h10 := h "p".toList (by decide)
  have hlt : stripPrefix "<".toList ('<' :: s) = some s := rfl
  simp only [matchAt, htmlTagStartRegex, tagStartNames, run, hlt, h1, h2, h3, h4, h5, h6, h7,
    h8, h9, h10]

theorem alnum_harmless (c : Char) (h : isAlnum c = true) :
    c ≠ '<' ∧ c ≠ '&' ∧ c ≠ '>' ∧ c ≠ ' ' ∧ c ≠ '/' := by
  refine ⟨?_, ?_, ?_, ?_, ?_⟩ <;> (intro e; subst e; revert h; decide)

theorem unknown_tag_aux (c : Char) (cs : List Char)
    (halnum : ∀ x ∈ c :: cs, isAlnum x = true)
    (hp : ∀ v ∈ startNames, v.isPrefixOf (c :: cs) = false) :
    htmlToMarkdown ('<' :: (c :: cs ++ ['>'])) = some ('<' :: (c :: cs ++ ['>'])) := by
  have hc := alnum_harmless c (halnum c (List.mem_cons_self _ _))
  have hcs : ∀ x ∈ cs, x ≠ '<' ∧ x ≠ '&' ∧ x ≠ '>' ∧ x ≠ ' ' ∧ x ≠ '/' :=
    fun x hx => alnum_harmless x (halnum x (List.mem_cons_of_mem _ hx))
  have hplain : '<' ∉ c :: cs ++ ['>'] := by
    intro hm
    rcases List.mem_append.1 hm with h | h
    · rcases List.mem_cons.1 h with h | h
      · exact hc.1 h.symm
      · exact (hcs _ h).1 rfl
    · simp at h
  have hamp : '&' ∉ '<' :: (c :: cs ++ ['>']) := by
    intro hm
    rcases List.mem_cons.1 hm with h | hm
    · exact absurd h (by decide)
    rcases List.mem_append.1 hm with h | h
    · rcases List.mem_cons.1 h with h | h
      · exact hc.2.1 h.symm
      · exact (hcs _ h).2.1 rfl
    · simp at h
  have hi : c ≠ 'i' := by
    have := hp "i".toList (by decide)
    intro e
    subst e
    simp [List.isPrefixOf] at this
  have hg1 : Contains ('<' :: (c :: cs ++ ['>'])) "<img".toList = false := by
    show (List.isPrefixOf "<img".toList ('<' :: (c :: cs ++ ['>']))
      || Contains (c :: cs ++ ['>']) "<img".toList) = false
    rw [show Contains (c :: cs ++ ['>']) "<img".toList = false from
      Contains_of_plain _ "img".toList hplain]
    have hi' : ('i' == c) = false := by simpa using fun e => hi e.symm
    simp [List.isPrefixOf, hi']
  have hg2 : Contains ('<' :: (c :: cs ++ ['>'])) "<a ".toList = false := by
    show (List.isPrefixOf "<a ".toList ('<' :: (c :: cs ++ ['>']))
      || Contains (c :: cs ++ ['>']) "<a ".toList) = false
    rw [show Contains (c :: cs ++ ['>']) "<a ".toList = false from
      Contains_of_plain _ "a ".toList hplain]
    cases cs with
    | nil => simp [List.isPrefixOf]
    | cons d ds =>
      have hd : (' ' == d) = false := by
        simpa using fun e => (hcs d (List.mem_cons_self _ _)).2.2.2.1 e.symm
      simp [List.isPrefixOf, hd]
  have hs : startPass 0 ('<' :: (c :: cs ++ ['>'])) = '<' :: (c :: cs ++ ['>']) := by
    have hm : matchAt htmlTagStartRegex ('<' :: (c :: cs ++ ['>'])) = none := by
      apply matchAt_start_none
      intro v hv
      have h1 := isPrefixOf_append_gt [] v (c :: cs) (by revert v; decide)
      rw [h1]
      exact hp v hv
    have h2 := startPass_plain 0 (c :: cs ++ ['>']) [] hplain
    rw [List.append_nil, startPass_nil, List.append_nil] at h2
    rw [startPass, scan_nomatch _ _ tagStartCallback_answers _ _ _ hm]
    exact congrArg _ h2
  have he : endPass ('<' :: (c :: cs ++ ['>'])) = '<' :: (c :: cs ++ ['>']) := by
    have hm : matchAt htmlTagEndRegex ('<' :: (c :: cs ++ ['>'])) = none := by
      have : stripPrefix "</".toList ('<' :: (c :: cs ++ ['>'])) = none := by
        simp [stripPrefix, hc.2.2.2.2]
      simp only [matchAt, htmlTagEndRegex, run, this]
    have h2 := endPass_plain (c :: cs ++ ['>']) [] hplain
    rw [List.append_nil, endPass_nil, List.append_nil] at h2
    rw [endPass, scan_nomatch _ _ tagEndCallback_answers _ _ _ hm]
    exact congrArg _ h2
  rw [htmlToMarkdown_eq, hg1]
  simp only [Bool.false_eq_true, if_false, hg2]
  rw [hs, he, UnescapeString_of_no_amp _ hamp]

/-- C11, the code on tags outside the vocabulary: a tag whose name of letters and
digits does not begin with one of the names of the opening-tag pattern (`strong`,
`pre`, `code`, `ol`, `ul`, `li`, `br`, `i`, `b`, `p`) is left as literal text, as
`<span>` is; a name that begins with one of them is taken for that tag, so `<body>`
and `<blockquote>` are rendered `**`, `<iframe>` and `<input>` `*`, and `<picture>`
is removed. -/
theorem unknown_tag_left_literal (name : List Char) (hne : name ≠ [])
    (halnum : ∀ x ∈ name, isAlnum x = true)
    (hp : ∀ v ∈ startNames, v.isPrefixOf name = false) :
    htmlToMarkdown ("<".toList ++ name ++ ">".toList) = some ("<".toList ++ name ++ ">".toList)
    ∧ htmlToMarkdown "<span>".toList = some "<span>".toList
    ∧ htmlToMarkdown "<body>".toList = some "**".toList
    ∧ htmlToMarkdown "<blockquote>".toList = some "**".toList
    ∧ htmlToMarkdown "<iframe>".toList = some "*".toList
    ∧ htmlToMarkdown "<input>".toList = some "*".toList
    ∧ htmlToMarkdown "<picture>".toList = some [] := by
  refine ⟨?_, by decide, by decide, by decide, by decide, by decide, by decide⟩
  cases name with
  | nil => exact absurd rfl hne
  | cons c cs => exact unknown_tag_aux c cs halnum hp

/-- Witness of C11 at the tag `<table>`. -/
theorem unknown_tag_left_literal_witness :
    htmlToMarkdown ("<".toList ++ "table".toList ++ ">".toList)
      = some ("<".toList ++ "table".toList ++ ">".toList) :=
  (unknown_tag_left_literal "table".toList (by decide) (by decide) (by decide)).1

/-! ### Closing tags, entities in links, newlines after tags, fresh state (C12, C13, C18, C19) -/

theorem close_render (name : List Char) (hn : name ∈ endNames) (s t : List Char)
    (hs : '<' ∉ s) (hs' : '&' ∉ s) (ht : '<' ∉ t) (ht' : '&' ∉ t) :
    htmlToMarkdown (s ++ '<' :: '/' :: (name ++ '>' :: t)) = some (s ++ (endOut name ++ t)) := by
  have ht0 : Contains t "<img".toList = false := Contains_of_plain t _ ht
  have ht1 : Contains t "<a ".toList = false := Contains_of_plain t _ ht
  have hg1 : Contains (s ++ '<' :: '/' :: (name ++ '>' :: t)) "<img".toList = false := by
    rw [show "<img".toList = '<' :: "img".toList from rfl, Contains_plain s _ _ hs,
      ← show "<img".toList = '<' :: "img".toList from rfl, (Contains_close name hn t).1, ht0]
  have hg2 : Contains (s ++ '<' :: '/' :: (name ++ '>' :: t)) "<a ".toList = false := by
    rw [show "<a ".toList = '<' :: "a ".toList from rfl, Contains_plain s _ _ hs,
      ← show "<a ".toList = '<' :: "a ".toList from rfl, (Contains_close name hn t).2, ht1]
  have e1 : startPass 0 t = t := by
    have := startPass_plain 0 t [] ht
    simpa [startPass_nil] using this
  have e2 : endPass t = t := by
    have := endPass_plain t [] ht
    simpa [endPass_nil] using this
  have h1 : startPass 0 (s ++ '<' :: '/' :: (name ++ '>' :: t))
      = s ++ '<' :: '/' :: (name ++ '>' :: t) := by
    have hf : name ++ '>' :: t = (name ++ ['>']) ++ t := by simp
    rw [startPass_plain 0 s _ hs, startPass_close, hf,
      startPass_plain 0 _ _ (name_plain name hn), e1]
  have h2 : endPass (s ++ '<' :: '/' :: (name ++ '>' :: t)) = s ++ (endOut name ++ t) := by
    rw [endPass_plain s _ hs, endPass_close name hn, e2]
  have hamp : '&' ∉ s ++ (endOut name ++ t) := by
    simp [hs', ht', endOut_no_amp name hn]
  rw [htmlToMarkdown_eq, hg1]
  simp only [Bool.false_eq_true, if_false, hg2]
  rw [h1, h2, UnescapeString_of_no_amp _ hamp]

/-- C12, as amended: the closing-tag pass removes the closing list tags: between
plain texts `s` and `t` (no `<`, no `&`) each of `</ol>`, `</ul>`, `</li>` vanishes from
the output, and alone each of them is rendered as the empty text. -/
theorem closing_list_tags_removed (s t : List Char)
    (hs : '<' ∉ s) (hs' : '&' ∉ s) (ht : '<' ∉ t) (ht' : '&' ∉ t) :
    htmlToMarkdown (s ++ "</ol>".toList ++ t) = some (s ++ t)
    ∧ htmlToMarkdown (s ++ "</ul>".toList ++ t) = some (s ++ t)
    ∧ htmlToMarkdown (s ++ "</li>".toList ++ t) = some (s ++ t)
    ∧ htmlToMarkdown "</ol>".toList = some []
    ∧ htmlToMarkdown "</ul>".toList = some []
    ∧ htmlToMarkdown "</li>".toList = some [] := by
  refine ⟨?_, ?_, ?_, by decide, by decide, by decide⟩
  · have := close_render "ol".toList (by decide) s t hs hs' ht ht'
    simpa [List.append_assoc] using this
  · have := close_render "ul".toList (by decide) s t hs hs' ht ht'
    simpa [List.append_assoc] using this
  · have := close_render "li".toList (by decide) s t hs hs' ht ht'
    simpa [List.append_assoc] using this

/-- Witness of C12 with text on both sides of the closing tags. -/
theorem closing_list_tags_removed_witness :
    htmlToMarkdown ("one".toList ++ "</ol>".toList ++ "two".toList)
      = some ("one".toList ++ "two".toList)
    ∧ htmlToMarkdown ("one".toList ++ "</li>".toList ++ "two".toList)
      = some ("one".toList ++ "two".toList) :=
  have h := closing_list_tags_removed "one".toList "two".toList (by decide) (by decide)
    (by decide) (by decide)
  ⟨h.1, h.2.2.1⟩

/-- C12 as stated fails: `</li>` and `</ol>` are not left in the output. -/
theorem closing_list_tags_counterexample :
    htmlToMarkdown "</li>".toList ≠ some "</li>".toList
    ∧ htmlToMarkdown "</ol>".toList ≠ some "</ol>".toList
    ∧ htmlToMarkdown "</li>".toList = some []
    ∧ htmlToMarkdown "</ol>".toList = some []
    ∧ htmlToMarkdown "<ul><li>Test</li></ul>x".toList
        = some [Char.ofNat 0xE2, Char.ofNat 0x20AC, Char.ofNat 0xA2, ' ', 'T', 'e', 's', 't', 'x']
        := by
  decide

/-- C13, as amended: the final pass decodes the entities of the whole text, those of
the href value like those of the label: a link with a non-empty href without `"` and
`<` and a non-empty label without `<` is rendered as the entity-decoded form of
`[label](href)`, so that `&amp;` written in the href comes out as `&`; the decoding is
that of `html.UnescapeString` with its full entity table, so that in the href
`u?a=1&copy=2` the run `&copy` comes out as the copyright sign, and `&hellip;` in the
label as the ellipsis. -/
theorem link_entities_decoded (u l : List Char)
    (hu : u ≠ []) (hu1 : '"' ∉ u) (hu2 : '<' ∉ u) (hl : l ≠ []) (hl1 : '<' ∉ l) :
    htmlToMarkdown ("<a href=\"".toList ++ u ++ "\">".toList ++ l ++ "</a>".toList)
      = some (UnescapeString ("[".toList ++ l ++ "](".toList ++ u ++ ")".toList))
    ∧ htmlToMarkdown "<a href=\"https://d.com/?a=1&amp;b=2\">x &amp; y</a>".toList
      = some "[x & y](https://d.com/?a=1&b=2)".toList
    ∧ htmlToMarkdown "<a href=\"u?a=1&copy=2\">x &hellip;</a>".toList
      = some "[x …](u?a=1©=2)".toList
    ∧ htmlToMarkdown "<a href=\"u?a=1&b=2\">x &#38; &#x79;</a>".toList
      = some "[x & y](u?a=1&b=2)".toList := by
  refine ⟨?_, by decide, by decide, by decide⟩
  cases u with
  | nil => exact absurd rfl hu
  | cons x u =>
    cases l with
    | nil => exact absurd rfl hl
    | cons y l =>
      have hx : x ≠ '"' ∧ x ≠ '<' := ⟨fun e => hu1 (by simp [e]), fun e => hu2 (by simp [e])⟩
      have hu' : '"' ∉ u ∧ '<' ∉ u := ⟨fun e => hu1 (by simp [e]), fun e => hu2 (by simp [e])⟩
      have := link_render_raw x u y l [] hx hu' (fun e => hl1 (by simp [e]))
        (fun e => hl1 (by simp [e])) (by simp) (by decide)
      simpa [List.append_assoc] using this

/-- Witness of C13: an href and a label that both hold `&amp;`. -/
theorem link_entities_decoded_witness :
    htmlToMarkdown ("<a href=\"".toList ++ "u?a&amp;b".toList ++ "\">".toList ++ "x&amp;y".toList
        ++ "</a>".toList)
      = some (UnescapeString ("[".toList ++ "x&amp;y".toList ++ "](".toList
        ++ "u?a&amp;b".toList ++ ")".toList))
    ∧ UnescapeString ("[".toList ++ "x&amp;y".toList ++ "](".toList
        ++ "u?a&amp;b".toList ++ ")".toList) = "[x&y](u?a&b)".toList :=
  ⟨(link_entities_decoded "u?a&amp;b".toList "x&amp;y".toList (by decide) (by decide)
    (by decide) (by decide) (by decide)).1, by decide⟩

/-- C13 as stated fails: the href `https://d.com/?a=1&amp;b=2` does not come out as
written, its `&amp;` is decoded. -/
theorem link_href_entity_counterexample :
    htmlToMarkdown "<a href=\"https://d.com/?a=1&amp;b=2\">x &amp; y</a>".toList
      ≠ some "[x & y](https://d.com/?a=1&amp;b=2)".toList
    ∧ htmlToMarkdown "<a href=\"https://d.com/?a=1&amp;b=2\">x &amp; y</a>".toList
      = some "[x & y](https://d.com/?a=1&b=2)".toList := by
  decide

theorem open_nl_render (name : List Char) (hn : name ∈ startNames) (t : List Char)
    (ht : '<' ∉ t) (ht' : '&' ∉ t) :
    htmlToMarkdown ('<' :: (name ++ '>' :: '\n' :: t)) = some ((startOut 0 name).2 ++ t) := by
  have hh := not_mem_of_harmless _ (startOut_harmless 0 name hn)
  have ht0 : Contains ('\n' :: t) "<img".toList = false :=
    Contains_of_plain _ "img".toList (by simp [ht])
  have ht1 : Contains ('\n' :: t) "<a ".toList = false :=
    Contains_of_plain _ "a ".toList (by simp [ht])
  have hg1 : Contains ('<' :: (name ++ '>' :: '\n' :: t)) "<img".toList = false := by
    rw [(Contains_open name hn _).1, ht0]
  have hg2 : Contains ('<' :: (name ++ '>' :: '\n' :: t)) "<a ".toList = false := by
    rw [(Contains_open name hn _).2, ht1]
  have h1 : startPass 0 ('<' :: (name ++ '>' :: '\n' :: t)) = (startOut 0 name).2 ++ t := by
    have hd : dropNL ('\n' :: t) = t := by simp [dropNL]
    have e1 := startPass_plain (startOut 0 name).1 t [] ht
    rw [List.append_nil, startPass_nil, List.append_nil] at e1
    rw [startPass_open name hn, hd, e1]
  have hp : '<' ∉ (startOut 0 name).2 ++ t := by simp [hh.1, ht]
  have h2 : endPass ((startOut 0 name).2 ++ t) = (startOut 0 name).2 ++ t := by
    have := endPass_plain _ [] hp
    simpa [endPass_nil] using this
  have hamp : '&' ∉ (startOut 0 name).2 ++ t := by simp [hh.2, ht']
  rw [htmlToMarkdown_eq, hg1]
  simp only [Bool.false_eq_true, if_false, hg2]
  rw [h1, h2, UnescapeString_of_no_amp _ hamp]

/-- C18: an opening tag takes exactly one newline that follows it: for a text `t`
without `<` and `&` (which may itself begin with newlines), each of `<i>`, `<b>`,
`<strong>`, `<pre>`, `<code>`, `<br>`, `<p>` followed by a newline and `t` is rendered as
the marker of the tag and `t`; a newline that follows a closing tag stays. -/
theorem open_tag_takes_one_newline (t : List Char) (ht : '<' ∉ t) (ht' : '&' ∉ t) :
    htmlToMarkdown ("<i>".toList ++ "\n".toList ++ t) = some ("*".toList ++ t)
    ∧ htmlToMarkdown ("<b>".toList ++ "\n".toList ++ t) = some ("**".toList ++ t)
    ∧ htmlToMarkdown ("<strong>".toList ++ "\n".toList ++ t) = some ("**".toList ++ t)
    ∧ htmlToMarkdown ("<pre>".toList ++ "\n".toList ++ t) = some ("`".toList ++ t)
    ∧ htmlToMarkdown ("<code>".toList ++ "\n".toList ++ t) = some ("```".toList ++ t)
    ∧ htmlToMarkdown ("<br>".toList ++ "\n".toList ++ t) = some ("\n".toList ++ t)
    ∧ htmlToMarkdown ("<p>".toList ++ "\n".toList ++ t) = some t
    ∧ htmlToMarkdown "<p>\nfoo".toList = some "foo".toList
    ∧ htmlToMarkdown "<br>\n\nfoo".toList = some "\n\nfoo".toList
    ∧ htmlToMarkdown ("</i>".toList ++ "\n".toList ++ t) = some ("*".toList ++ "\n".toList ++ t)
    ∧ htmlToMarkdown ("</b>".toList ++ "\n".toList ++ t) = some ("**".toList ++ "\n".toList ++ t)
    ∧ htmlToMarkdown ("</strong>".toList ++ "\n".toList ++ t)
        = some ("**".toList ++ "\n".toList ++ t)
    ∧ htmlToMarkdown ("</pre>".toList ++ "\n".toList ++ t) = some ("`".toList ++ "\n".toList ++ t)
    ∧ htmlToMarkdown ("</code>".toList ++ "\n".toList ++ t)
        = some ("```".toList ++ "\n".toList ++ t)
    ∧ htmlToMarkdown ("</p>".toList ++ "\n".toList ++ t) = some ("\n".toList ++ t) := by
  have hnt : '<' ∉ '\n' :: t := by simp [ht]
  have hnt' : '&' ∉ '\n' :: t := by simp [ht']
  refine ⟨?_, ?_, ?_, ?_, ?_, ?_, ?_, by decide, by decide, ?_, ?_, ?_, ?_, ?_, ?_⟩
  · exact open_nl_render "i".toList (by decide) t ht ht'
  · exact open_nl_render "b".toList (by decide) t ht ht'
  · exact open_nl_render "strong".toList (by decide) t ht ht'
  · exact open_nl_render "pre".toList (by decide) t ht ht'
  · exact open_nl_render "code".toList (by decide) t ht ht'
  · exact open_nl_render "br".toList (by decide) t ht ht'
  · exact open_nl_render "p".toList (by decide) t ht ht'
  · exact close_render "i".toList (by decide) [] ('\n' :: t) (by simp) (by simp) hnt hnt'
  · exact close_render "b".toList (by decide) [] ('\n' :: t) (by simp) (by simp) hnt hnt'
  · exact close_render "strong".toList (by decide) [] ('\n' :: t) (by simp) (by simp) hnt hnt'
  · exact close_render "pre".toList (by decide) [] ('\n' :: t) (by simp) (by simp) hnt hnt'
  · exact close_render "code".toList (by decide) [] ('\n' :: t) (by simp) (by simp) hnt hnt'
  · exact close_render "p".toList (by decide) [] ('\n' :: t) (by simp) (by simp) hnt hnt'

/-- Witness of C18 at a text that itself begins with a newline. -/
theorem open_tag_takes_one_newline_witness :
    htmlToMarkdown ("<i>".toList ++ "\n".toList ++ "\nfoo".toList)
      = some ("*".toList ++ "\nfoo".toList)
    ∧ htmlToMarkdown ("<br>".toList ++ "\n".toList ++ "\nfoo".toList)
      = some ("\n".toList ++ "\nfoo".toList)
    ∧ htmlToMarkdown ("</i>".toList ++ "\n".toList ++ "\nfoo".toList)
      = some ("*".toList ++ "\n".toList ++ "\nfoo".toList) :=
  have h := open_tag_takes_one_newline "\nfoo".toList (by decide) (by decide)
  ⟨h.1, h.2.2.2.2.2.1, h.2.2.2.2.2.2.2.2.2.1⟩

/-- C19, the code on `<li>` tags met before any list-start tag: every call starts the
opening-tag pass with `index = 0`, so the items are not numbered whatever was
rendered before; each `<li>` is written as U+00E2, U+20AC, U+00A2, space and not as
the bullet marker U+2022, space: after `<ol><li>a` gave `1. a`, the text `<li>b` gives
those four characters and `b`, neither `2. b` nor `• b`. -/
theorem li_without_list_start (bodies : List (List Char))
    (hb : ∀ t ∈ bodies, '<' ∉ t ∧ '&' ∉ t ∧ t.head? ≠ some '\n') :
    htmlToMarkdown (itemsSrc bodies) = some (marked bodies)
    ∧ (bodies ≠ [] → htmlToMarkdown (itemsSrc bodies) ≠ some (bulleted bodies))
    ∧ htmlToMarkdown "<ol><li>a".toList = some "1. a".toList
    ∧ htmlToMarkdown "<li>b".toList
        = some [Char.ofNat 0xE2, Char.ofNat 0x20AC, Char.ofNat 0xA2, ' ', 'b']
    ∧ htmlToMarkdown "<li>b".toList ≠ some "2. b".toList
    ∧ htmlToMarkdown "<li>b".toList ≠ some "• b".toList := by
  have h := renders_render (items_renders bodies bodies (plain_bodies_render bodies hb))
  have h' : htmlToMarkdown (itemsSrc bodies) = some (marked bodies) := by
    rw [h, itemsOut_zero]
  refine ⟨h', ?_, by decide, by decide, by decide, by decide⟩
  intro hne heq
  rw [h'] at heq
  cases bodies with
  | nil => exact hne rfl
  | cons r rs => exact marked_ne_bulleted r rs (Option.some.inj heq)

/-- Witness of C19 at two items without a list around them. -/
theorem li_without_list_start_witness :
    htmlToMarkdown (itemsSrc ["a".toList, "b".toList]) = some (marked ["a".toList, "b".toList])
    ∧ htmlToMarkdown (itemsSrc ["a".toList, "b".toList])
      ≠ some (bulleted ["a".toList, "b".toList]) :=
  have h := li_without_list_start ["a".toList, "b".toList] (by decide)
  ⟨h.1, h.2.1 (by decide)⟩

/-! ### Accessors (C14, C15, C17) -/

/-- C14: every accessor called on a nil record returns its zero value: for a nil
incident `IsResolved` is false, `Duration` is 0, `URL` and `ReportMarkdown` are empty
and the three lists are nil; `Markdown` of a nil comment is empty; `Get` on a nil or
empty list of comments is nil at every index, and `Markdown` can be called on it. -/
theorem nil_accessors_zero (lang : String) (index : Int) :
    IsResolved none = false
    ∧ Duration none = 0
    ∧ URL none lang = ""
    ∧ ReportMarkdown none = some []
    ∧ RegionList none = some []
    ∧ ZoneList none = some []
    ∧ ServiceList none = some []
    ∧ Markdown none = some []
    ∧ Get [] index = some none
    ∧ (Get [] index).bind Markdown = some [] :=
  ⟨rfl, rfl, rfl, rfl, rfl, rfl, rfl, rfl, rfl, rfl⟩

/-- C15, the code of `Comments.Get`: at an index in range it returns the comment
stored there, at an index past the end and on an empty list it returns nil, but at a
negative index on a non-empty list the index expression panics: only the upper
bound is checked. -/
theorem get_by_index (c : List (Option Comment)) (index : Int) :
    (0 ≤ index → index < (c.length : Int) →
        ∃ x, c.get? index.toNat = some x ∧ Get c index = some x)
    ∧ ((c.length : Int) ≤ index → Get c index = some none)
    ∧ (c = [] → Get c index = some none)
    ∧ (index < 0 → c ≠ [] → Get c index = none)
    ∧ Get [some ⟨1, 972, "text", "update"⟩] (-1) = none := by
  refine ⟨?_, ?_, ?_, ?_, by decide⟩
  · intro h0 h1
    have hlen : index.toNat < c.length := by omega
    have hx : c.get? index.toNat = some (c.get ⟨index.toNat, hlen⟩) := List.get?_eq_get hlen
    refine ⟨_, hx, ?_⟩
    have hc : ¬ (c.length = 0 ∨ index ≥ (c.length : Int)) := by omega
    simp only [Get, hc, if_false, sliceIndex, h0, if_true, hx]
  · intro h
    have hc : c.length = 0 ∨ index ≥ (c.length : Int) := Or.inr h
    simp only [Get, hc, if_true]
  · intro h
    subst h
    rfl
  · intro h hne
    have hpos : 0 < c.length := List.length_pos.2 hne
    have hc : ¬ (c.length = 0 ∨ index ≥ (c.length : Int)) := by omega
    have h0 : ¬ (0 ≤ index) := by omega
    simp only [Get, hc, if_false, sliceIndex, h0]

/-- C17, as amended: on a list of incidents without a nil entry `HasOpen` returns, and
it returns true exactly when some incident of the list has the status `open`; it
returns false on the empty list and on a list whose incidents are all `resolved`. -/
theorem hasOpen_iff (l : List (Option Incident)) (hnil : ∀ x ∈ l, x ≠ none) :
    (HasOpen l = some true ∨ HasOpen l = some false)
    ∧ (HasOpen l = some true ↔ ∃ i, some i ∈ l ∧ i.Status = STATUS_OPEN)
    ∧ HasOpen [] = some false
    ∧ ((∀ i, some i ∈ l → i.Status = STATUS_RESOLVED) → HasOpen l = some false) := by
  induction l with
  | nil =>
    refine ⟨Or.inr rfl, ?_, rfl, fun _ => rfl⟩
    simp [HasOpen]
  | cons x xs ih =>
    have hx := hnil x (List.mem_cons_self _ _)
    obtain ⟨h1, h2, -, h4⟩ := ih (fun y hy => hnil y (List.mem_cons_of_mem _ hy))
    cases x with
    | none => exact absurd rfl hx
    | some i =>
      by_cases hs : i.Status = STATUS_OPEN
      · refine ⟨Or.inl (by simp [HasOpen, hs]), ?_, rfl, ?_⟩
        · simp only [HasOpen, hs, if_true, true_iff]
          exact ⟨i, List.mem_cons_self _ _, hs⟩
        · intro hall
          have := hall i (List.mem_cons_self _ _)
          rw [hs] at this
          exact absurd this (by decide)
      · refine ⟨by simpa [HasOpen, hs] using h1, ?_, rfl, ?_⟩
        · simp only [HasOpen, hs, if_false]
          rw [h2]
          constructor
          · rintro ⟨j, hj, hjs⟩
            exact ⟨j, List.mem_cons_of_mem _ hj, hjs⟩
          · rintro ⟨j, hj, hjs⟩
            rcases List.mem_cons.1 hj with hj | hj
            · cases hj
              exact absurd hjs hs
            · exact ⟨j, hj, hjs⟩
        · intro hall
          simp only [HasOpen, hs, if_false]
          exact h4 (fun j hj => hall j (List.mem_cons_of_mem _ hj))

/-- C17 as stated fails: the list `Incidents{nil, &Incident{Status: "open"}}` holds an
incident with the status `open`, yet `HasOpen` does not return true: the loop reads
`ii.Status` through the nil entry and the call fails; the same on a list with a nil
entry whose incidents are all `resolved`, where it does not return false. -/
theorem hasOpen_nil_entry_counterexample :
    (∃ i, some i ∈ [none, some (⟨2, "b", "", "open", ⟨Time.zero⟩, ⟨Time.zero⟩, [], [], [],
        []⟩ : Incident)] ∧ i.Status = STATUS_OPEN)
    ∧ HasOpen [none, some ⟨2, "b", "", "open", ⟨Time.zero⟩, ⟨Time.zero⟩, [], [], [], []⟩]
      ≠ some true
    ∧ HasOpen [none, some ⟨2, "b", "", "open", ⟨Time.zero⟩, ⟨Time.zero⟩, [], [], [], []⟩]
      = none
    ∧ HasOpen [none, some ⟨1, "a", "", "resolved", ⟨Time.zero⟩, ⟨Time.zero⟩, [], [], [], []⟩]
      ≠ some false :=
  ⟨⟨_, List.mem_cons_of_mem _ (List.mem_cons_self _ _), rfl⟩, by decide, by decide,
    by decide⟩

/-- Witness of C17: a list with an open incident after a resolved one. -/
theorem hasOpen_iff_witness :
    HasOpen [some ⟨1, "a", "", "resolved", ⟨Time.zero⟩, ⟨Time.zero⟩, [], [], [], []⟩,
        some ⟨2, "b", "", "open", ⟨Time.zero⟩, ⟨Time.zero⟩, [], [], [], []⟩] = some true
    ∧ HasOpen [some ⟨1, "a", "", "resolved", ⟨Time.zero⟩, ⟨Time.zero⟩, [], [], [], []⟩]
      = some false := by
  have h1 := hasOpen_iff
    [some ⟨1, "a", "", "resolved", ⟨Time.zero⟩, ⟨Time.zero⟩, [], [], [], []⟩,
     some ⟨2, "b", "", "open", ⟨Time.zero⟩, ⟨Time.zero⟩, [], [], [], []⟩] (by decide)
  have h2 := hasOpen_iff
    [some ⟨1, "a", "", "resolved", ⟨Time.zero⟩, ⟨Time.zero⟩, [], [], [], []⟩] (by decide)
  refine ⟨h1.2.1.2 ⟨_, List.mem_cons_of_mem _ (List.mem_cons_self _ _), rfl⟩, h2.2.2.2 ?_⟩
  intro i hi
  simp only [List.mem_singleton, Option.some.injEq] at hi
  subst hi
  rfl

/-! ### The query of GetIncidents (C20) -/

/-- C20: the query built by `convertIncidentsRequest` always has `lang` (the request's
language, `ru` when it is empty) and `installation` (the region, `all` when it is
empty); it has `from` and `to` exactly when the time is not the zero time, with the
time formatted by `%Y-%m-%d`; it has `status` and `zones[]` exactly when the field is
not empty, with the field's value; and it has no other key. -/
theorem query_of_request (format : Time → String → String) (r : IncidentsRequest) :
    convertIncidentsRequest format r "lang"
      = some (QueryValue.str (if r.Lang = "" then "ru" else r.Lang))
    ∧ convertIncidentsRequest format r "installation"
      = some (QueryValue.str (if r.Region = "" then "all" else r.Region))
    ∧ convertIncidentsRequest format r "from"
      = (if r.From = Time.zero then none
         else some (QueryValue.str (format r.From "%Y-%m-%d")))
    ∧ convertIncidentsRequest format r "to"
      = (if r.To = Time.zero then none else some (QueryValue.str (format r.To "%Y-%m-%d")))
    ∧ convertIncidentsRequest format r "status"
      = (if r.Status = "" then none else some (QueryValue.str r.Status))
    ∧ convertIncidentsRequest format r "zones[]"
      = (if r.Zones = [] then none else some (QueryValue.strs r.Zones))
    ∧ (∀ k, k ∉ ["lang", "installation", "from", "to", "status", "zones[]"] →
        convertIncidentsRequest format r k = none) := by
  have hQ1 : Q [r.Lang, LANG_RU] = (if r.Lang = "" then "ru" else r.Lang) := by
    by_cases h : r.Lang = "" <;> simp [Q, h, LANG_RU]
  have hQ2 : Q [r.Region, "all"] = (if r.Region = "" then "all" else r.Region) := by
    by_cases h : r.Region = "" <;> simp [Q, h]
  have hz : (r.Zones.length > 0) ↔ r.Zones ≠ [] := List.length_pos
  have hF : (!r.From.IsZero) = true ↔ r.From ≠ Time.zero := by simp [Time.IsZero]
  have hT : (!r.To.IsZero) = true ↔ r.To ≠ Time.zero := by simp [Time.IsZero]
  unfold convertIncidentsRequest
  simp only [hQ1, hQ2, hz, hF, hT]
  refine ⟨?_, ?_, ?_, ?_, ?_, ?_, ?_⟩
  · by_cases h1 : r.From = Time.zero <;> by_cases h2 : r.To = Time.zero <;>
    by_cases h3 : r.Status = "" <;> by_cases h4 : r.Zones = [] <;>
    simp [Query.set, Query.empty, h1, h2, h3, h4]
  · by_cases h1 : r.From = Time.zero <;> by_cases h2 : r.To = Time.zero <;>
    by_cases h3 : r.Status = "" <;> by_cases h4 : r.Zones = [] <;>
    simp [Query.set, Query.empty, h1, h2, h3, h4]
  · by_cases h1 : r.From = Time.zero <;> by_cases h2 : r.To = Time.zero <;>
    by_cases h3 : r.Status = "" <;> by_cases h4 : r.Zones = [] <;>
    simp [Query.set, Query.empty, h1, h2, h3, h4]
  · by_cases h1 : r.From = Time.zero <;> by_cases h2 : r.To = Time.zero <;>
    by_cases h3 : r.Status = "" <;> by_cases h4 : r.Zones = [] <;>
    simp [Query.set, Query.empty, h1, h2, h3, h4]
  · by_cases h1 : r.From = Time.zero <;> by_cases h2 : r.To = Time.zero <;>
    by_cases h3 : r.Status = "" <;> by_cases h4 : r.Zones = [] <;>
    simp [Query.set, Query.empty, h1, h2, h3, h4]
  · by_cases h1 : r.From = Time.zero <;> by_cases h2 : r.To = Time.zero <;>
    by_cases h3 : r.Status = "" <;> by_cases h4 : r.Zones = [] <;>
    simp [Query.set, Query.empty, h1, h2, h3, h4]
  · intro k hk
    simp only [List.mem_cons, List.mem_singleton, List.not_mem_nil, or_false, not_or] at hk
    obtain ⟨k1, k2, k3, k4, k5, k6⟩ := hk
    by_cases h1 : r.From = Time.zero <;> by_cases h2 : r.To = Time.zero <;>
    by_cases h3 : r.Status = "" <;> by_cases h4 : r.Zones = [] <;>
    simp [Query.set, Query.empty, h1, h2, h3, h4, k1, k2, k3, k4, k5, k6]

/-! ### Date.UnmarshalJSON (C16) -/

theorem takeWhile_digits (ds rest : List Char) (h : ds.all isDigit = true) :
    (ds ++ 'Z' :: rest).takeWhile isDigit = ds
    ∧ (ds ++ 'Z' :: rest).dropWhile isDigit = 'Z' :: rest := by
  induction ds with
  | nil => exact ⟨by simp [List.takeWhile, isDigit], by simp [List.dropWhile, isDigit]⟩
  | cons d ds ih =>
    simp only [List.all_cons, Bool.and_eq_true] at h
    obtain ⟨i1, i2⟩ := ih h.2
    constructor
    · show List.takeWhile isDigit (d :: (ds ++ 'Z' :: rest)) = d :: ds
      rw [List.takeWhile, h.1, i1]
    · show List.dropWhile isDigit (d :: (ds ++ 'Z' :: rest)) = 'Z' :: rest
      rw [List.dropWhile, h.1, i2]

theorem parseFrac_none (rest : List Char) : parseFrac ('Z' :: rest) = (0, 'Z' :: rest) := by
  cases rest with
  | nil => rfl
  | cons c cs => simp [parseFrac, commaOrPeriod]

theorem parseFrac_some (sep d : Char) (ds rest : List Char) (hsep : commaOrPeriod sep = true)
    (hd : isDigit d = true) (hds : ds.all isDigit = true) :
    parseFrac (sep :: d :: (ds ++ 'Z' :: rest)) = (nanosOf (d :: ds), 'Z' :: rest) := by
  have h := takeWhile_digits (d :: ds) rest (by simp [hd, hds])
  simp only [List.cons_append] at h
  simp only [parseFrac, hsep, hd, and_self, if_true, h.1, h.2]

theorem getnum_two (a b : Char) (rest : List Char) (fixed : Bool) (ha : isDigit a = true)
    (hb : isDigit b = true) :
    getnum (a :: b :: rest) fixed = some (digitOf a * 10 + digitOf b, rest) := by
  simp [getnum, ha, hb]

theorem getnum_one (a c : Char) (rest : List Char) (ha : isDigit a = true)
    (hc : isDigit c = false) :
    getnum (a :: c :: rest) false = some (digitOf a, c :: rest) := by
  simp [getnum, ha, hc]

theorem parseYear_digits (a b c d : Char) (rest : List Char) (ha : isDigit a = true)
    (hb : isDigit b = true) (hc : isDigit c = true) (hd : isDigit d = true) :
    parseYear (a :: b :: c :: d :: rest)
      = some (digitOf a * 1000 + digitOf b * 100 + digitOf c * 10 + digitOf d, rest) := by
  simp [parseYear, ha, hb, hc, hd]

theorem parseDate_digits (y1 y2 y3 y4 mo1 mo2 d1 d2 : Char) (rest : List Char)
    (a1 : isDigit y1 = true) (a2 : isDigit y2 = true) (a3 : isDigit y3 = true)
    (a4 : isDigit y4 = true) (a5 : isDigit mo1 = true) (a6 : isDigit mo2 = true)
    (a7 : isDigit d1 = true) (a8 : isDigit d2 = true)
    (r1 : 1 ≤ digitOf mo1 * 10 + digitOf mo2) (r2 : digitOf mo1 * 10 + digitOf mo2 ≤ 12) :
    parseDate (y1 :: y2 :: y3 :: y4 :: '-' :: mo1 :: mo2 :: '-' :: d1 :: d2 :: 'T' :: rest)
      = some ((digitOf y1 * 1000 + digitOf y2 * 100 + digitOf y3 * 10 + digitOf y4,
          digitOf mo1 * 10 + digitOf mo2, digitOf d1 * 10 + digitOf d2), rest) := by
  have e1 : ¬ (digitOf mo1 * 10 + digitOf mo2 = 0 ∨ 12 < digitOf mo1 * 10 + digitOf mo2) := by
    omega
  unfold parseDate
  rw [parseYear_digits _ _ _ _ _ a1 a2 a3 a4]
  simp only [Option.some_bind, stripPrefix, if_true]
  rw [getnum_two _ _ _ _ a5 a6]
  simp only [Option.some_bind, if_neg e1, stripPrefix, if_true]
  rw [getnum_two _ _ _ _ a7 a8]
  simp only [Option.some_bind, stripPrefix, if_true]

theorem parseClock_tail (mi1 mi2 s1 s2 : Char) (frac : List Char) (hour : Nat)
    (v : List Char) (hv : getnum v false = some (hour, ':' :: mi1 :: mi2 :: ':' :: s1 :: s2 ::
      (frac ++ ['Z', '"'])))
    (b1 : isDigit mi1 = true) (b2 : isDigit mi2 = true) (b3 : isDigit s1 = true)
    (b4 : isDigit s2 = true) (r5 : hour < 24) (r6 : digitOf mi1 * 10 + digitOf mi2 < 60)
    (r7 : digitOf s1 * 10 + digitOf s2 < 60) (ns : Nat)
    (hfr : parseFrac (frac ++ ['Z', '"']) = (ns, ['Z', '"'])) :
    parseClock v
      = some ((hour, digitOf mi1 * 10 + digitOf mi2, digitOf s1 * 10 + digitOf s2, ns), []) := by
  have e0 : ¬ (24 ≤ hour) := by omega
  have e2 : ¬ (60 ≤ digitOf mi1 * 10 + digitOf mi2) := by omega
  have e3 : ¬ (60 ≤ digitOf s1 * 10 + digitOf s2) := by omega
  unfold parseClock
  rw [hv]
  simp only [Option.some_bind, if_neg e0, stripPrefix, if_true]
  rw [getnum_two _ _ _ _ b1 b2]
  simp only [Option.some_bind, if_neg e2, stripPrefix, if_true]
  rw [getnum_two _ _ _ _ b3 b4]
  simp only [Option.some_bind, if_neg e3, hfr, stripPrefix, if_true]

theorem parseTime_of_stamp (f : Stamp) (hw : f.wellFormed = true) (hr : f.inRange = true) :
    parseTime f.text = some f.instant := by
  obtain ⟨y1, y2, y3, y4, mo1, mo2, d1, d2, hour, mi1, mi2, s1, s2, frac⟩ := f
  simp only [Stamp.wellFormed, Bool.and_eq_true, Bool.or_eq_true, beq_iff_eq] at hw
  obtain ⟨⟨⟨⟨⟨⟨⟨⟨⟨⟨⟨⟨⟨⟨a1, a2⟩, a3⟩, a4⟩, a5⟩, a6⟩, a7⟩, a8⟩, hlen⟩, hall⟩, b1⟩, b2⟩, b3⟩, b4⟩,
    hfrac⟩ := hw
  simp only [Stamp.inRange, Stamp.month, Stamp.day, Stamp.year, Stamp.hourNum, Stamp.minute,
    Stamp.second, decide_eq_true_eq] at hr
  obtain ⟨r1, r2, r3, r4, r5, r6, r7⟩ := hr
  have e4 : ¬ (digitOf d1 * 10 + digitOf d2 < 1
      ∨ daysIn (digitOf mo1 * 10 + digitOf mo2)
        (digitOf y1 * 1000 + digitOf y2 * 100 + digitOf y3 * 10 + digitOf y4)
        < digitOf d1 * 10 + digitOf d2) := by omega
  have hcolon : isDigit ':' = false := by decide
  have hfr : parseFrac (frac ++ ['Z', '"']) = (Stamp.nanos
      ⟨y1, y2, y3, y4, mo1, mo2, d1, d2, hour, mi1, mi2, s1, s2, frac⟩, ['Z', '"']) := by
    cases frac with
    | nil => exact parseFrac_none _
    | cons sep ds =>
      simp only [fracShape, Bool.and_eq_true, Bool.not_eq_true', List.isEmpty_eq_false] at hfrac
      obtain ⟨⟨c1, c2⟩, c3⟩ := hfrac
      cases ds with
      | nil => simp at c2
      | cons d ds =>
        simp only [List.all_cons, Bool.and_eq_true] at c3
        exact parseFrac_some sep d ds _ c1 c3.1 c3.2
  have hclock : parseClock (hour ++ ':' :: mi1 :: mi2 :: ':' :: s1 :: s2 :: (frac ++ ['Z', '"']))
      = some ((digitsToNat hour, digitOf mi1 * 10 + digitOf mi2, digitOf s1 * 10 + digitOf s2,
          Stamp.nanos ⟨y1, y2, y3, y4, mo1, mo2, d1, d2, hour, mi1, mi2, s1, s2, frac⟩), []) := by
    apply parseClock_tail mi1 mi2 s1 s2 frac _ _ _ b1 b2 b3 b4 r5 r6 r7 _ hfr
    rcases hlen with hlen | hlen
    · match hour, hlen, hall with
      | [h], _, hall =>
        simp only [List.all_cons, List.all_nil, Bool.and_true] at hall
        have hh : digitsToNat [h] = digitOf h := by simp [digitsToNat]
        rw [hh]
        exact getnum_one h ':' _ hall hcolon
    · match hour, hlen, hall with
      | [h1, h2], _, hall =>
        simp only [List.all_cons, List.all_nil, Bool.and_true, Bool.and_eq_true] at hall
        have hh : digitsToNat [h1, h2] = digitOf h1 * 10 + digitOf h2 := by simp [digitsToNat]
        rw [hh]
        exact getnum_two h1 h2 _ false hall.1 hall.2
  have hdate := parseDate_digits y1 y2 y3 y4 mo1 mo2 d1 d2
    (hour ++ ':' :: mi1 :: mi2 :: ':' :: s1 :: s2 :: (frac ++ ['Z', '"'])) a1 a2 a3 a4 a5 a6 a7 a8
    r1 r2
  unfold parseTime Stamp.text
  simp only [stripPrefix, if_true, Option.some_bind, hdate, hclock, ne_eq, not_true_eq_false,
    if_false, if_neg e4]
  rfl

theorem stripPrefix_one (c : Char) (v r : List Char) (h : stripPrefix [c] v = some r) :
    v = c :: r := by
  have h1 := stripPrefix_eq [c] v r h
  simpa using h1

theorem getnum_fixed_inv (v r : List Char) (n : Nat) (h : getnum v true = some (n, r)) :
    ∃ a b, isDigit a = true ∧ isDigit b = true ∧ v = a :: b :: r
      ∧ n = digitOf a * 10 + digitOf b := by
  cases v with
  | nil => simp [getnum] at h
  | cons a v =>
    cases v with
    | nil => by_cases ha : isDigit a = true <;> simp [getnum, ha] at h
    | cons b v =>
      by_cases ha : isDigit a = true <;> by_cases hb : isDigit b = true <;>
        simp [getnum, ha, hb] at h
      exact ⟨a, b, ha, hb, by rw [h.2], h.1.symm⟩

theorem getnum_free_inv (v r : List Char) (n : Nat) (h : getnum v false = some (n, r)) :
    ∃ ds, (ds.length = 1 ∨ ds.length = 2) ∧ ds.all isDigit = true ∧ v = ds ++ r
      ∧ n = digitsToNat ds := by
  cases v with
  | nil => simp [getnum] at h
  | cons a v =>
    cases v with
    | nil =>
      by_cases ha : isDigit a = true <;> simp [getnum, ha] at h
      exact ⟨[a], Or.inl rfl, by simp [ha], by simp [h.2.symm], by simp [digitsToNat, h.1.symm]⟩
    | cons b v =>
      by_cases ha : isDigit a = true <;> by_cases hb : isDigit b = true <;>
        simp [getnum, ha, hb] at h
      · exact ⟨[a, b], Or.inr rfl, by simp [ha, hb], by simp [h.2.symm],
          by simp [digitsToNat, h.1.symm]⟩
      · exact ⟨[a], Or.inl rfl, by simp [ha], by simp [h.2.symm],
          by simp [digitsToNat, h.1.symm]⟩

theorem parseYear_inv (v r : List Char) (n : Nat) (h : parseYear v = some (n, r)) :
    ∃ a b c d, isDigit a = true ∧ isDigit b = true ∧ isDigit c = true ∧ isDigit d = true
      ∧ v = a :: b :: c :: d :: r
      ∧ n = digitOf a * 1000 + digitOf b * 100 + digitOf c * 10 + digitOf d := by
  match v, h with
  | a :: b :: c :: d :: rest, h =>
    simp only [parseYear] at h
    split at h
    · rename_i hd
      simp only [Option.some.injEq, Prod.mk.injEq] at h
      exact ⟨a, b, c, d, hd.1, hd.2.1, hd.2.2.1, hd.2.2.2, by rw [h.2], h.1.symm⟩
    · exact absurd h (by simp)

theorem parseFrac_inv (v rest : List Char)
    (h : stripPrefix ['Z', '"'] (parseFrac v).2 = some rest) :
    ∃ frac, fracShape frac = true ∧ v = frac ++ 'Z' :: '"' :: rest
      ∧ (parseFrac v).1 = fracNanos frac := by
  have plain : ∀ w : List Char, stripPrefix ['Z', '"'] w = some rest → w = 'Z' :: '"' :: rest := by
    intro w hw
    have h1 := stripPrefix_eq ['Z', '"'] w rest hw
    simpa using h1
  by_cases hc : ∃ sep d r, v = sep :: d :: r ∧ commaOrPeriod sep = true ∧ isDigit d = true
  · obtain ⟨sep, d, r, rfl, h1, h2⟩ := hc
    have e : parseFrac (sep :: d :: r)
        = (nanosOf ((d :: r).takeWhile isDigit), (d :: r).dropWhile isDigit) := by
      simp only [parseFrac, h1, h2, and_self, if_true]
    rw [e] at h ⊢
    have h3 := plain _ h
    refine ⟨sep :: (d :: r).takeWhile isDigit, ?_, ?_, rfl⟩
    · have h4 : ((d :: r).takeWhile isDigit).all isDigit = true := by
        rw [List.all_eq_true]
        intro x hx
        exact (List.mem_takeWhile_imp hx)
      have h5 : (d :: r).takeWhile isDigit ≠ [] := by
        rw [List.takeWhile, h2]
        exact List.cons_ne_nil _ _
      simp only [fracShape, h1, h4, Bool.and_true, Bool.true_and, Bool.not_eq_true',
        List.isEmpty_eq_false]
      exact h5
    · show sep :: d :: r = sep :: ((d :: r).takeWhile isDigit ++ 'Z' :: '"' :: rest)
      rw [← h3, List.takeWhile_append_dropWhile]
  · have e : parseFrac v = (0, v) := by
      match v, hc with
      | [], _ => rfl
      | [_], _ => rfl
      | sep :: d :: r, hc =>
        have h1 : ¬ (commaOrPeriod sep = true ∧ isDigit d = true) := by
          intro h2
          exact hc ⟨sep, d, r, rfl, h2.1, h2.2⟩
        simp only [parseFrac, h1, if_false]
    rw [e] at h ⊢
    exact ⟨[], rfl, by simpa using plain _ h, rfl⟩

theorem parseDate_inv (v r : List Char) (y m d : Nat)
    (h : parseDate v = some ((y, m, d), r)) :
    ∃ y1 y2 y3 y4 mo1 mo2 d1 d2, isDigit y1 = true ∧ isDigit y2 = true ∧ isDigit y3 = true
      ∧ isDigit y4 = true ∧ isDigit mo1 = true ∧ isDigit mo2 = true ∧ isDigit d1 = true
      ∧ isDigit d2 = true
      ∧ v = y1 :: y2 :: y3 :: y4 :: '-' :: mo1 :: mo2 :: '-' :: d1 :: d2 :: 'T' :: r
      ∧ y = digitOf y1 * 1000 + digitOf y2 * 100 + digitOf y3 * 10 + digitOf y4
      ∧ m = digitOf mo1 * 10 + digitOf mo2 ∧ d = digitOf d1 * 10 + digitOf d2
      ∧ 1 ≤ m ∧ m ≤ 12 := by
  unfold parseDate at h
  obtain ⟨⟨year, v1⟩, p1, h⟩ := Option.bind_eq_some.1 h
  obtain ⟨v2, p2, h⟩ := Option.bind_eq_some.1 h
  obtain ⟨⟨month, v3⟩, p3, h⟩ := Option.bind_eq_some.1 h
  by_cases hm : month = 0 ∨ 12 < month
  · simp only [hm, if_true] at h
    exact absurd h (by simp)
  simp only [hm, if_false] at h
  obtain ⟨v4, p4, h⟩ := Option.bind_eq_some.1 h
  obtain ⟨⟨day, v5⟩, p5, h⟩ := Option.bind_eq_some.1 h
  obtain ⟨v6, p6, h⟩ := Option.bind_eq_some.1 h
  simp only [Option.some.injEq, Prod.mk.injEq] at h
  obtain ⟨⟨rfl, rfl, rfl⟩, rfl⟩ := h
  obtain ⟨y1, y2, y3, y4, a1, a2, a3, a4, q1, q2⟩ := parseYear_inv _ _ _ p1
  have q3 := stripPrefix_one _ _ _ p2
  obtain ⟨mo1, mo2, a5, a6, q4, q5⟩ := getnum_fixed_inv _ _ _ p3
  have q6 := stripPrefix_one _ _ _ p4
  obtain ⟨d1, d2, a7, a8, q7, q8⟩ := getnum_fixed_inv _ _ _ p5
  have q9 : v5 = 'T' :: v6 := stripPrefix_one _ _ _ p6
  refine ⟨y1, y2, y3, y4, mo1, mo2, d1, d2, a1, a2, a3, a4, a5, a6, a7, a8, ?_, q2, q5, q8,
    by omega, by omega⟩
  rw [q1, q3, q4, q6, q7, q9]

theorem parseClock_inv (v r : List Char) (hh mi s ns : Nat)
    (h : parseClock v = some ((hh, mi, s, ns), r)) :
    ∃ hour mi1 mi2 s1 s2 frac, (hour.length = 1 ∨ hour.length = 2) ∧ hour.all isDigit = true
      ∧ isDigit mi1 = true ∧ isDigit mi2 = true ∧ isDigit s1 = true ∧ isDigit s2 = true
      ∧ fracShape frac = true
      ∧ v = hour ++ ':' :: mi1 :: mi2 :: ':' :: s1 :: s2 :: (frac ++ 'Z' :: '"' :: r)
      ∧ hh = digitsToNat hour ∧ mi = digitOf mi1 * 10 + digitOf mi2
      ∧ s = digitOf s1 * 10 + digitOf s2 ∧ ns = fracNanos frac
      ∧ hh < 24 ∧ mi < 60 ∧ s < 60 := by
  unfold parseClock at h
  obtain ⟨⟨hour, v1⟩, p1, h⟩ := Option.bind_eq_some.1 h
  by_cases c1 : 24 ≤ hour
  · simp only [c1, if_true] at h
    exact absurd h (by simp)
  simp only [c1, if_false] at h
  obtain ⟨v2, p2, h⟩ := Option.bind_eq_some.1 h
  obtain ⟨⟨min, v3⟩, p3, h⟩ := Option.bind_eq_some.1 h
  by_cases c2 : 60 ≤ min
  · simp only [c2, if_true] at h
    exact absurd h (by simp)
  simp only [c2, if_false] at h
  obtain ⟨v4, p4, h⟩ := Option.bind_eq_some.1 h
  obtain ⟨⟨sec, v5⟩, p5, h⟩ := Option.bind_eq_some.1 h
  by_cases c3 : 60 ≤ sec
  · simp only [c3, if_true] at h
    exact absurd h (by simp)
  simp only [c3, if_false] at h
  obtain ⟨rest, p6, h⟩ := Option.bind_eq_some.1 h
  simp only [Option.some.injEq, Prod.mk.injEq] at h
  obtain ⟨⟨rfl, rfl, rfl, rfl⟩, rfl⟩ := h
  obtain ⟨ds, l1, l2, q1, q2⟩ := getnum_free_inv _ _ _ p1
  have q3 := stripPrefix_one _ _ _ p2
  obtain ⟨mi1, mi2, b1, b2, q4, q5⟩ := getnum_fixed_inv _ _ _ p3
  have q6 := stripPrefix_one _ _ _ p4
  obtain ⟨s1, s2, b3, b4, q7, q8⟩ := getnum_fixed_inv _ _ _ p5
  obtain ⟨frac, f1, f2, f3⟩ := parseFrac_inv _ _ p6
  refine ⟨ds, mi1, mi2, s1, s2, frac, l1, l2, b1, b2, b3, b4, f1, ?_, q2, q5, q8, f3,
    by omega, by omega, by omega⟩
  rw [q1, q3, q4, q6, q7, f2]

theorem parseTime_inv (b : List Char) (t : Time) (h : parseTime b = some t) :
    ∃ f : Stamp, f.wellFormed = true ∧ f.inRange = true ∧ b = f.text ∧ t = f.instant := by
  unfold parseTime at h
  obtain ⟨v1, p1, h⟩ := Option.bind_eq_some.1 h
  obtain ⟨⟨⟨y, m, d⟩, v2⟩, p2, h⟩ := Option.bind_eq_some.1 h
  obtain ⟨⟨⟨hh, mi, s, ns⟩, rest⟩, p3, h⟩ := Option.bind_eq_some.1 h
  have hi : (if rest ≠ [] then none else
      if d < 1 ∨ daysIn m y < d then none else some (dateUTC y m d hh mi s ns)) = some t := h
  by_cases c1 : rest ≠ []
  · rw [if_pos c1] at hi
    cases hi
  rw [if_neg c1] at hi
  by_cases c2 : d < 1 ∨ daysIn m y < d
  · rw [if_pos c2] at hi
    cases hi
  rw [if_neg c2] at hi
  have ht : dateUTC y m d hh mi s ns = t := Option.some.inj hi
  have c3 : rest = [] := by
    by_contra hne
    exact c1 hne
  subst c3
  have q1 := stripPrefix_one _ _ _ p1
  obtain ⟨y1, y2, y3, y4, mo1, mo2, d1, d2, a1, a2, a3, a4, a5, a6, a7, a8, q2, e1, e2, e3,
    r1, r2⟩ := parseDate_inv _ _ _ _ _ p2
  obtain ⟨hour, mi1, mi2, s1, s2, frac, l1, l2, b1, b2, b3, b4, f1, q3, e4, e5, e6, e7,
    r5, r6, r7⟩ := parseClock_inv _ _ _ _ _ _ p3
  subst e1 e2 e3 e4 e5 e6 e7
  refine ⟨⟨y1, y2, y3, y4, mo1, mo2, d1, d2, hour, mi1, mi2, s1, s2, frac⟩, ?_, ?_, ?_, ?_⟩
  · simp only [Stamp.wellFormed, a1, a2, a3, a4, a5, a6, a7, a8, b1, b2, b3, b4, l2, f1,
      Bool.and_true, Bool.true_and, Bool.or_eq_true, beq_iff_eq]
    exact l1
  · simp only [Stamp.inRange, Stamp.month, Stamp.day, Stamp.year, Stamp.hourNum, Stamp.minute,
      Stamp.second, decide_eq_true_eq]
    omega
  · rw [q1, q2, q3]
    rfl
  · exact ht.symm

theorem stamp_text_length (f : Stamp) : 20 ≤ f.text.length := by
  simp only [Stamp.text, List.length_cons, List.length_append, List.length_nil]
  omega

/-- C16, as amended: `Date.UnmarshalJSON` succeeds and sets the date to the zero time
when the input is exactly `null` or `""`; it succeeds and sets the date to the instant
of the timestamp when the input is a double-quoted timestamp with fields in range
(month 01..12, day 01..the length of the month, hour below 24, minute and second below
60) of the form YYYY-MM-DDTHH:MM:SSZ, where the hour may also be written with one
digit and the seconds may be followed by a fractional second (a period or comma and
one or more digits); for every other input it returns an error and leaves the stored
date unchanged. -/
theorem unmarshal_date (d : Date) (b : List Char) :
    ((b = "null".toList ∨ b = "\"\"".toList) → UnmarshalJSON d b = (⟨Time.zero⟩, false))
    ∧ (∀ f : Stamp, f.wellFormed = true → f.inRange = true → b = f.text →
        UnmarshalJSON d b = (⟨f.instant⟩, false))
    ∧ (b ≠ "null".toList → b ≠ "\"\"".toList →
        (∀ f : Stamp, f.wellFormed = true → f.inRange = true → b ≠ f.text) →
        UnmarshalJSON d b = (d, true)) := by
  refine ⟨?_, ?_, ?_⟩
  · intro h
    unfold UnmarshalJSON
    rw [if_pos h]
  · intro f hw hr hb
    have hlen := stamp_text_length f
    have n1 : ¬ (b = "null".toList ∨ b = "\"\"".toList) := by
      rw [hb]
      rintro (h | h)
      · have h2 := congrArg List.length h
        have h3 : "null".toList.length = 4 := rfl
        omega
      · have h2 := congrArg List.length h
        have h3 : "\"\"".toList.length = 2 := rfl
        omega
    unfold UnmarshalJSON
    rw [if_neg n1, hb, parseTime_of_stamp f hw hr]
  · intro h1 h2 h3
    have n1 : ¬ (b = "null".toList ∨ b = "\"\"".toList) := by
      rintro (h | h)
      · exact h1 h
      · exact h2 h
    unfold UnmarshalJSON
    rw [if_neg n1]
    cases hp : parseTime b with
    | none => rfl
    | some t =>
      obtain ⟨f, hw, hr, hb, _⟩ := parseTime_inv b t hp
      exact absurd hb (h3 f hw hr)

/-- C16, witness: with a date stored before, the timestamp of the test suite yields
Unix time 1737582761, `null` yields the zero time, and `ABCD` yields an error and
keeps the stored date. -/
theorem unmarshal_date_witness :
    UnmarshalJSON ⟨⟨5, 0⟩⟩ "\"2025-01-22T21:52:41Z\"".toList = (⟨⟨1737582761, 0⟩⟩, false)
    ∧ UnmarshalJSON ⟨⟨5, 0⟩⟩ "null".toList = (⟨Time.zero⟩, false)
    ∧ UnmarshalJSON ⟨⟨5, 0⟩⟩ "ABCD".toList = (⟨⟨5, 0⟩⟩, true) :=
  ⟨(unmarshal_date ⟨⟨5, 0⟩⟩ "\"2025-01-22T21:52:41Z\"".toList).2.1
      ⟨'2', '0', '2', '5', '0', '1', '2', '2', ['2', '1'], '5', '2', '4', '1', []⟩
      (by decide) (by decide) rfl,
    (unmarshal_date ⟨⟨5, 0⟩⟩ "null".toList).1 (Or.inl rfl),
    (unmarshal_date ⟨⟨5, 0⟩⟩ "ABCD".toList).2.2 (by decide) (by decide)
      (fun f _ _ h => by
        have h1 := congrArg List.length h
        have h2 := stamp_text_length f
        have h3 : "ABCD".toList.length = 4 := rfl
        omega)⟩

/-- C16, counterexample: the input `"2025-01-22T21:52:41.5Z"` is neither `null` nor
`""` nor of the form YYYY-MM-DDTHH:MM:SSZ (no timestamp with a two-digit hour and no
fraction has this text), yet `Date.UnmarshalJSON` returns no error and replaces the
stored date. -/
theorem fractional_second_counterexample :
    "\"2025-01-22T21:52:41.5Z\"".toList ≠ "null".toList
    ∧ "\"2025-01-22T21:52:41.5Z\"".toList ≠ "\"\"".toList
    ∧ (∀ f : Stamp, f.strict = true → f.text ≠ "\"2025-01-22T21:52:41.5Z\"".toList)
    ∧ UnmarshalJSON ⟨Time.zero⟩ "\"2025-01-22T21:52:41.5Z\"".toList
        = (⟨⟨1737582761, 500000000⟩⟩, false) := by
  refine ⟨by decide, by decide, ?_, by decide⟩
  intro f hs h
  simp only [Stamp.strict, Bool.and_eq_true, beq_iff_eq, List.isEmpty_iff] at hs
  have h1 := congrArg List.length h
  have h3 : "\"2025-01-22T21:52:41.5Z\"".toList.length = 24 := rfl
  simp only [Stamp.text, List.length_cons, List.length_append, hs.1, hs.2, h3,
    List.length_nil] at h1
  omega

/-- A timestamp of the form YYYY-MM-DDTHH:MM:SSZ with a day past the end of its month,
or written with a one-digit hour: the first is an error and keeps the stored date, the
second is accepted. -/
theorem unmarshal_range_and_hour :
    UnmarshalJSON ⟨⟨5, 0⟩⟩ "\"2025-02-30T00:00:00Z\"".toList = (⟨⟨5, 0⟩⟩, true)
    ∧ UnmarshalJSON ⟨⟨5, 0⟩⟩ "\"2025-01-22T9:52:41Z\"".toList = (⟨⟨1737539561, 0⟩⟩, false) := by
  exact ⟨by decide, by decide⟩

theorem collect_zoneIDs (zs : List (Option Zone)) (h : zs.all Option.isSome = true) :
    collect (fun z => z.ID) zs = some (zoneIDs zs) ∧ (zoneIDs zs).length = zs.length := by
  induction zs with
  | nil => exact ⟨rfl, rfl⟩
  | cons z zs ih =>
    simp only [List.all_cons, Bool.and_eq_true] at h
    obtain ⟨i1, i2⟩ := ih h.2
    cases z with
    | none => exact absurd h.1 (by decide)
    | some z =>
      constructor
      · show (collect (fun z => z.ID) zs).map (z.ID :: ·) = some (z.ID :: zoneIDs zs)
        rw [i1]
        rfl
      · show (zoneIDs zs).length + 1 = zs.length + 1
        rw [i2]

theorem collectZones_nested (rs : List (Option Region)) (h : noNilRegions rs = true) :
    collectZones rs = some (nestedZoneIDs rs)
    ∧ (nestedZoneIDs rs).length = zoneCount rs := by
  induction rs with
  | nil => exact ⟨rfl, rfl⟩
  | cons r rs ih =>
    simp only [noNilRegions, List.all_cons, Bool.and_eq_true] at h
    obtain ⟨i1, i2⟩ := ih h.2
    cases r with
    | none => exact absurd h.1 (by decide)
    | some r =>
      obtain ⟨z1, z2⟩ := collect_zoneIDs r.Zones h.1
      constructor
      · show (match collect (fun z => z.ID) r.Zones with
          | none => none
          | some ids => (collectZones rs).map (ids ++ ·))
            = some (zoneIDs r.Zones ++ nestedZoneIDs rs)
        rw [z1, i1]
        rfl
      · show (zoneIDs r.Zones ++ nestedZoneIDs rs).length = r.Zones.length + zoneCount rs
        rw [List.length_append, z2, i2]

theorem collect_nil_entry (zs : List (Option Zone)) (h : zs.all Option.isSome = false) :
    collect (fun z => z.ID) zs = none := by
  induction zs with
  | nil => exact absurd h (by decide)
  | cons z zs ih =>
    cases z with
    | none => rfl
    | some z =>
      have h2 : zs.all Option.isSome = false := by simpa using h
      show (collect (fun z => z.ID) zs).map (z.ID :: ·) = none
      rw [ih h2]
      rfl

theorem collectZones_nil_entry (rs : List (Option Region)) (h : noNilRegions rs = false) :
    collectZones rs = none := by
  induction rs with
  | nil => exact absurd h (by decide)
  | cons r rs ih =>
    cases r with
    | none => rfl
    | some r =>
      show (match collect (fun z => z.ID) r.Zones with
        | none => none
        | some ids => (collectZones rs).map (ids ++ ·)) = none
      by_cases hz : r.Zones.all Option.isSome = true
      · have h2 : noNilRegions rs = false := by
          simp only [noNilRegions, List.all_cons, hz, Bool.true_and] at h
          exact h
        obtain ⟨z1, _⟩ := collect_zoneIDs r.Zones hz
        rw [z1, ih h2]
        rfl
      · have hz2 : r.Zones.all Option.isSome = false := by simpa using hz
        rw [collect_nil_entry r.Zones hz2]

/-- C21, as amended: for every non-nil incident whose regions and their zones hold no
nil pointer, `ZoneList` returns the in-order concatenation of the IDs of the zones
nested under each region of `Regions`, and its length is the sum of the lengths of
the zone lists of the regions; with a nil pointer among them the call fails. For
every non-nil incident the result depends on the `Regions` field alone (two incidents
with the same `Regions` give the same result, whatever their `Zones`), and it is nil
whenever `Regions` is empty. -/
theorem zoneList_of_regions (i : Incident) :
    (noNilRegions i.Regions = true →
        ZoneList (some i) = some (nestedZoneIDs i.Regions)
        ∧ (nestedZoneIDs i.Regions).length = zoneCount i.Regions)
    ∧ (noNilRegions i.Regions = false → ZoneList (some i) = none)
    ∧ (∀ j : Incident, j.Regions = i.Regions → ZoneList (some j) = ZoneList (some i))
    ∧ (i.Regions = [] → ZoneList (some i) = some []) := by
  refine ⟨?_, ?_, ?_, ?_⟩
  · intro h
    obtain ⟨h1, h2⟩ := collectZones_nested i.Regions h
    refine ⟨?_, h2⟩
    show (if i.Regions.length = 0 then some [] else collectZones i.Regions) = _
    by_cases he : i.Regions.length = 0
    · rw [if_pos he]
      have hnil : i.Regions = [] := List.length_eq_zero.1 he
      rw [hnil]
      rfl
    · rw [if_neg he, h1]
  · intro h
    have hne : ¬ (i.Regions.length = 0) := by
      intro he
      rw [List.length_eq_zero.1 he] at h
      exact absurd h (by decide)
    show (if i.Regions.length = 0 then some [] else collectZones i.Regions) = none
    rw [if_neg hne]
    exact collectZones_nil_entry i.Regions h
  · intro j hj
    show (if j.Regions.length = 0 then some [] else collectZones j.Regions)
      = (if i.Regions.length = 0 then some [] else collectZones i.Regions)
    rw [hj]
  · intro he
    show (if i.Regions.length = 0 then some [] else collectZones i.Regions) = _
    rw [he]
    rfl

/-- Witness of C21: an incident with one zone of its own and two regions, the first
with two zones and the second with one; and an incident with a zone of its own and no
region. -/
theorem zoneList_of_regions_witness :
    ZoneList (some ⟨1, "a", "", "open", ⟨Time.zero⟩, ⟨Time.zero⟩, [some ⟨9, "own"⟩],
        [some ⟨"ru", [some ⟨1, "ru-a"⟩, some ⟨1, "ru-b"⟩]⟩, some ⟨"kz", [some ⟨2, "kz-a"⟩]⟩],
        [], []⟩) = some ["ru-a", "ru-b", "kz-a"]
    ∧ ZoneList (some ⟨1, "a", "", "open", ⟨Time.zero⟩, ⟨Time.zero⟩, [some ⟨9, "own"⟩],
        [], [], []⟩) = some [] :=
  ⟨((zoneList_of_regions ⟨1, "a", "", "open", ⟨Time.zero⟩, ⟨Time.zero⟩, [some ⟨9, "own"⟩],
        [some ⟨"ru", [some ⟨1, "ru-a"⟩, some ⟨1, "ru-b"⟩]⟩, some ⟨"kz", [some ⟨2, "kz-a"⟩]⟩],
        [], []⟩).1 (by decide)).1,
    (zoneList_of_regions ⟨1, "a", "", "open", ⟨Time.zero⟩, ⟨Time.zero⟩, [some ⟨9, "own"⟩],
        [], [], []⟩).2.2.2 rfl⟩

/-- C21 as stated fails: on the non-nil incident with `Regions{nil}`, and on the one
whose only region has the zones `{&Zone{ID: "ru-a"}, nil}`, `ZoneList` is not the
concatenation of the IDs of the zones under the regions: the loop reads `r.Zones` and
`z.ID` without a test for nil and the call fails. -/
theorem zoneList_nil_entry_counterexample :
    ZoneList (some ⟨1, "a", "", "open", ⟨Time.zero⟩, ⟨Time.zero⟩, [], [none], [], []⟩) = none
    ∧ ZoneList (some ⟨1, "a", "", "open", ⟨Time.zero⟩, ⟨Time.zero⟩, [], [none], [], []⟩)
      ≠ some (nestedZoneIDs [none])
    ∧ ZoneList (some ⟨1, "a", "", "open", ⟨Time.zero⟩, ⟨Time.zero⟩, [],
        [some ⟨"ru", [some ⟨1, "ru-a"⟩, none]⟩], [], []⟩) = none
    ∧ ZoneList (some ⟨1, "a", "", "open", ⟨Time.zero⟩, ⟨Time.zero⟩, [],
        [some ⟨"ru", [some ⟨1, "ru-a"⟩, none]⟩], [], []⟩)
      ≠ some (nestedZoneIDs [some ⟨"ru", [some ⟨1, "ru-a"⟩, none]⟩]) :=
  ⟨by decide, by decide, by decide, by decide⟩

theorem itemsNext_succ (n : Nat) : ∀ k : Nat, itemsNext (k + 1) n = k + 1 + n := by
  induction n with
  | zero => intro k; rfl
  | succ n ih =>
    intro k
    have h : startOut (k + 1) "li".toList
        = (k + 1 + 1, (Nat.repr (k + 1 + 1 - 1)).toList ++ ". ".toList) := by
      simp [startOut, tagStartCallback]
    show itemsNext (startOut (k + 1) "li".toList).1 n = k + 1 + (n + 1)
    rw [h]
    show itemsNext (k + 1 + 1) n = k + 1 + (n + 1)
    rw [ih (k + 1)]
    omega

theorem itemsNext_one (n : Nat) : itemsNext 1 n = n + 1 := by
  have h := itemsNext_succ n 0
  show itemsNext (0 + 1) n = n + 1
  rw [h]
  omega

theorem numbered_append (xs ys : List (List Char)) :
    ∀ k : Nat, numbered k (xs ++ ys) = numbered k xs ++ numbered (k + xs.length) ys := by
  induction xs with
  | nil => intro k; rfl
  | cons x xs ih =>
    intro k
    show (Nat.repr k).toList ++ ". ".toList ++ x ++ numbered (k + 1) (xs ++ ys)
      = (Nat.repr k).toList ++ ". ".toList ++ x ++ numbered (k + 1) xs
        ++ numbered (k + (xs.length + 1)) ys
    rw [ih (k + 1), List.append_assoc _ (numbered (k + 1) xs)]
    have e : k + 1 + xs.length = k + (xs.length + 1) := by omega
    rw [e]

theorem nested_render (xs us ys : List (List Char)) (t t2 : List Char)
    (hx : ∀ b ∈ xs, '<' ∉ b ∧ '&' ∉ b ∧ b.head? ≠ some '\n')
    (hu : ∀ b ∈ us, '<' ∉ b ∧ '&' ∉ b ∧ b.head? ≠ some '\n')
    (hy : ∀ b ∈ ys, '<' ∉ b ∧ '&' ∉ b ∧ b.head? ≠ some '\n')
    (ht : '<' ∉ t ∧ '&' ∉ t ∧ t.head? ≠ some '\n')
    (ht2 : '<' ∉ t2 ∧ '&' ∉ t2 ∧ t2.head? ≠ some '\n') :
    htmlToMarkdown (nestedSrc xs t us t2 ys)
      = some (numbered 1 (xs ++ [t]) ++ marked us ++ t2 ++ marked ys) := by
  have r1 := renders_openTag "ol".toList (by decide)
  have r2 := items_renders xs xs (plain_bodies_render xs hx)
  have r3 := renders_openTag "li".toList (by decide)
  have r4 := bodyRenders_renders (bodyRenders_plain t ht.1 ht.2.1 ht.2.2)
  have r5 := ul_renders us us (plain_bodies_render us hu)
  have r6 := bodyRenders_renders (bodyRenders_plain t2 ht2.1 ht2.2.1 ht2.2.2)
  have r7 := renders_closeTag "li".toList (by decide)
  have r8 := items_renders ys ys (plain_bodies_render ys hy)
  have r9 := renders_closeTag "ol".toList (by decide)
  have item := renders_append (renders_append (renders_append (renders_append r3 r4) r5) r6) r7
  have all := renders_append (renders_append (renders_append (renders_append r1 r2) item) r8) r9
  have h := renders_render all
  have hsrc : '<' :: ("ol".toList ++ ['>']) ++ itemsSrc xs
      ++ ('<' :: ("li".toList ++ ['>']) ++ t ++ ulSrc us ++ t2
        ++ '<' :: '/' :: ("li".toList ++ ['>']))
      ++ itemsSrc ys ++ '<' :: '/' :: ("ol".toList ++ ['>'])
      = nestedSrc xs t us t2 ys := rfl
  rw [hsrc] at h
  rw [h]
  have e1 : startOut 0 "ol".toList = (1, []) := rfl
  have e2 : ∀ k : Nat, startOut (k + 1) "li".toList
      = (k + 1 + 1, (Nat.repr (k + 1)).toList ++ ". ".toList) := by
    intro k
    simp [startOut, tagStartCallback]
  have e3 : endOut "li".toList = [] := rfl
  have e4 : endOut "ol".toList = [] := rfl
  show some (((((startOut 0 "ol".toList).2 ++ itemsOut (startOut 0 "ol".toList).1 xs)
      ++ (((((startOut (itemsNext (startOut 0 "ol".toList).1 xs.length) "li".toList).2 ++ t)
        ++ marked us) ++ t2) ++ endOut "li".toList))
      ++ itemsOut 0 ys) ++ endOut "ol".toList) = _
  rw [e1, e3, e4]
  show some ((([] ++ itemsOut 1 xs)
      ++ (((((startOut (itemsNext 1 xs.length) "li".toList).2 ++ t)
        ++ marked us) ++ t2) ++ []))
      ++ itemsOut 0 ys ++ []) = _
  rw [itemsNext_one, itemsOut_succ xs 0, itemsOut_zero, e2 xs.length]
  show some ((([] ++ numbered 1 xs)
      ++ ((((((Nat.repr (xs.length + 1)).toList ++ ". ".toList) ++ t)
        ++ marked us) ++ t2) ++ []))
      ++ marked ys ++ []) = some (numbered 1 (xs ++ [t]) ++ marked us ++ t2 ++ marked ys)
  rw [numbered_append]
  have e5 : numbered (1 + xs.length) [t]
      = (Nat.repr (xs.length + 1)).toList ++ ". ".toList ++ t := by
    rw [Nat.add_comm 1 xs.length]
    simp [numbered]
  rw [e5]
  simp only [List.append_nil, List.nil_append, List.append_assoc]

theorem closed_list_render (xs ys : List (List Char))
    (hx : ∀ b ∈ xs, '<' ∉ b ∧ '&' ∉ b ∧ b.head? ≠ some '\n')
    (hy : ∀ b ∈ ys, '<' ∉ b ∧ '&' ∉ b ∧ b.head? ≠ some '\n') :
    htmlToMarkdown (olSrc xs ++ itemsSrc ys) = some (numbered 1 (xs ++ ys)) := by
  have r1 := ol_renders xs xs (plain_bodies_render xs hx)
  have r2 := items_renders ys ys (plain_bodies_render ys hy)
  have h := renders_render (renders_append r1 r2)
  rw [h]
  show some (numbered 1 xs ++ itemsOut (itemsNext 1 xs.length) ys) = _
  rw [itemsNext_one, itemsOut_succ ys xs.length, numbered_append, Nat.add_comm 1 xs.length]

theorem marked_tail_ne_bulleted (us ys : List (List Char)) (t2 : List Char) (hy : ys ≠ []) :
    marked us ++ t2 ++ marked ys ≠ bulleted us ++ t2 ++ bulleted ys := by
  intro h
  cases us with
  | nil =>
    have h1 : t2 ++ marked ys = t2 ++ bulleted ys := h
    have h2 := List.append_cancel_left h1
    cases ys with
    | nil => exact hy rfl
    | cons r rs => exact marked_ne_bulleted r rs h2
  | cons u us =>
    have h1 := congrArg List.head? h
    have e1 : (marked (u :: us) ++ t2 ++ marked ys).head? = some (Char.ofNat 0xE2) := rfl
    have e2 : (bulleted (u :: us) ++ t2 ++ bulleted ys).head? = some (Char.ofNat 0x2022) := rfl
    rw [e1, e2] at h1
    exact absurd h1 (by decide)

/-- C22, the code on an ordered list of plain items (no `<`, no `&`, no leading
newline) one of which holds a nested unordered list, and on items that follow a closed
ordered list: the list mode is the one variable `index`, which `<ul>` sets to 0 and no
closing tag restores, so every `<li>` of the outer list after the nested list is
written like an item of an unordered list and not with the next number, and an `<li>`
after `</ol>` continues the numbering of the closed list; but what the code writes for
such an `<li>` is U+00E2, U+20AC, U+00A2, space and not the bullet marker U+2022,
space: `<ol><li>a<ul><li>b</li></ul></li><li>c</li></ol>` gives `1. a`, those four
characters, `b`, those four characters, `c`, not `1. a• b• c`. -/
theorem list_mode_not_restored (xs us ys : List (List Char)) (t t2 : List Char)
    (hx : ∀ b ∈ xs, '<' ∉ b ∧ '&' ∉ b ∧ b.head? ≠ some '\n')
    (hu : ∀ b ∈ us, '<' ∉ b ∧ '&' ∉ b ∧ b.head? ≠ some '\n')
    (hy : ∀ b ∈ ys, '<' ∉ b ∧ '&' ∉ b ∧ b.head? ≠ some '\n')
    (ht : '<' ∉ t ∧ '&' ∉ t ∧ t.head? ≠ some '\n')
    (ht2 : '<' ∉ t2 ∧ '&' ∉ t2 ∧ t2.head? ≠ some '\n') :
    htmlToMarkdown (nestedSrc xs t us t2 ys)
      = some (numbered 1 (xs ++ [t]) ++ marked us ++ t2 ++ marked ys)
    ∧ (ys ≠ [] → htmlToMarkdown (nestedSrc xs t us t2 ys)
        ≠ some (numbered 1 (xs ++ [t]) ++ bulleted us ++ t2 ++ bulleted ys))
    ∧ htmlToMarkdown (olSrc xs ++ itemsSrc ys) = some (numbered 1 (xs ++ ys))
    ∧ htmlToMarkdown "<ol><li>a<ul><li>b</li></ul></li><li>c</li></ol>".toList
        = some ("1. a".toList ++ liMarker ++ "b".toList ++ liMarker ++ "c".toList)
    ∧ htmlToMarkdown "<ol><li>a<ul><li>b</li></ul></li><li>c</li></ol>".toList
        ≠ some "1. a• b• c".toList
    ∧ htmlToMarkdown "<ol><li>a<ul><li>b</li></ul></li><li>c</li></ol>".toList
        ≠ some ("1. a".toList ++ liMarker ++ "b2. c".toList)
    ∧ htmlToMarkdown "<ol><li>a</li></ol><li>b</li>".toList = some "1. a2. b".toList := by
  have h := nested_render xs us ys t t2 hx hu hy ht ht2
  refine ⟨h, ?_, closed_list_render xs ys hx hy, by decide, by decide, by decide, by decide⟩
  intro hne heq
  rw [h] at heq
  have h1 := Option.some.inj heq
  have h2 : numbered 1 (xs ++ [t]) ++ (marked us ++ t2 ++ marked ys)
      = numbered 1 (xs ++ [t]) ++ (bulleted us ++ t2 ++ bulleted ys) := by
    simpa only [List.append_assoc] using h1
  exact marked_tail_ne_bulleted us ys t2 hne (List.append_cancel_left h2)

/-- Witness of C22: two items before the nested list, two items in it, two after it;
and two items after a closed list of two. -/
theorem list_mode_not_restored_witness :
    htmlToMarkdown (nestedSrc ["a".toList, "b".toList] "x".toList ["u".toList, "v".toList]
        "y".toList ["c".toList, "d".toList])
      = some ("1. a2. b3. x".toList ++ marked ["u".toList, "v".toList] ++ "y".toList
          ++ marked ["c".toList, "d".toList])
    ∧ htmlToMarkdown (nestedSrc ["a".toList, "b".toList] "x".toList ["u".toList, "v".toList]
        "y".toList ["c".toList, "d".toList])
      ≠ some ("1. a2. b3. x".toList ++ bulleted ["u".toList, "v".toList] ++ "y".toList
          ++ bulleted ["c".toList, "d".toList])
    ∧ htmlToMarkdown (olSrc ["a".toList, "b".toList] ++ itemsSrc ["c".toList, "d".toList])
      = some "1. a2. b3. c4. d".toList :=
  have h := list_mode_not_restored ["a".toList, "b".toList] ["u".toList, "v".toList]
    ["c".toList, "d".toList] "x".toList "y".toList (by decide) (by decide) (by decide)
    (by decide) (by decide)
  ⟨h.1, h.2.1 (by decide), h.2.2.1⟩

end Ycs
